import Mathlib

/-!
# libaccess_winrt_plugin: token classification and the read/seek engine

A shallow embedding of `src/libaccess_winrt_plugin/libaccess_winrt_plugin.cpp`.

* `hstring` values are lists of UTF-16 code units (`wchar_t`), indexed from 0.
* Machine integers are natural numbers, reduced modulo `2^w` where the C++
  arithmetic can wrap.
-/

namespace WinRTAccess

/-! ## Strings -/

/-- A UTF-16 code unit, the element type of `hstring`. -/
abbrev wchar_t := Nat

/-- The C++/WinRT string type: a sequence of UTF-16 code units. -/
abbrev hstring := List wchar_t

/-- Modelled from the spec: the C library predicate `iswxdigit` is not part of the
repository source; the spec reads it as "hexadecimal digit (case-insensitive)",
the digits `0-9`, `a-f` and `A-F`. -/
def iswxdigit (wc : wchar_t) : Bool :=
  (48 ≤ wc && wc ≤ 57) || (65 ≤ wc && wc ≤ 70) || (97 ≤ wc && wc ≤ 102)

/-- The character literal `'-'` as a code unit. -/
def HYPHEN : wchar_t := '-'.toNat

/-- The character literal `'{'` as a code unit. -/
def LBRACE : wchar_t := '{'.toNat

/-- The character literal `'}'` as a code unit. -/
def RBRACE : wchar_t := '}'.toNat

/-! ## Token classifier (source lines 44-94) -/

/-- The `for` loop of `is_shared_access_token_valid` (source lines 49-65), entered
with loop counter `i`; the result is `false` when the body returns `false`
and `true` when the loop runs to completion. -/
def is_shared_access_token_valid_loop (access_token : hstring) (i : Nat) : Bool :=
  if i < access_token.length then
    let wc := access_token.getD i 0
    if i = 8 ∨ i = 13 ∨ i = 18 ∨ i = 23 then
      if wc ≠ HYPHEN then false
      else is_shared_access_token_valid_loop access_token (i + 1)
    else
      if !iswxdigit wc then false
      else is_shared_access_token_valid_loop access_token (i + 1)
  else true
termination_by access_token.length - i

/-- Source lines 44-68. -/
def is_shared_access_token_valid (access_token : hstring) : Bool :=
  if access_token.length ≠ 36 then false
  else is_shared_access_token_valid_loop access_token 0

/-- The `for` loop of `is_future_access_token_valid` (source lines 75-91), entered
with loop counter `i`; the bound is `access_token.size() - 1`. -/
def is_future_access_token_valid_loop (access_token : hstring) (i : Nat) : Bool :=
  if i < access_token.length - 1 then
    let wc := access_token.getD i 0
    if i = 9 ∨ i = 14 ∨ i = 19 ∨ i = 24 then
      if wc ≠ HYPHEN then false
      else is_future_access_token_valid_loop access_token (i + 1)
    else
      if !iswxdigit wc then false
      else is_future_access_token_valid_loop access_token (i + 1)
  else true
termination_by access_token.length - 1 - i

/-- Source lines 70-94. -/
def is_future_access_token_valid (access_token : hstring) : Bool :=
  if access_token.length ≠ 38 ∨ access_token.getD 0 0 ≠ LBRACE
      ∨ access_token.getD 37 0 ≠ RBRACE then false
  else is_future_access_token_valid_loop access_token 1

/-- A hexadecimal digit as the specification spells it: `0-9`, `a-f` or `A-F`. -/
def IsHexDigit (c : wchar_t) : Prop :=
  ('0'.toNat ≤ c ∧ c ≤ '9'.toNat) ∨ ('a'.toNat ≤ c ∧ c ≤ 'f'.toNat) ∨
    ('A'.toNat ≤ c ∧ c ≤ 'F'.toNat)

instance (c : wchar_t) : Decidable (IsHexDigit c) := by
  unfold IsHexDigit; infer_instance

/-- What one iteration of the shared-token loop demands of position `j`. -/
def SharedPosOk (tok : hstring) (j : Nat) : Prop :=
  if j = 8 ∨ j = 13 ∨ j = 18 ∨ j = 23 then tok.getD j 0 = HYPHEN
  else iswxdigit (tok.getD j 0) = true

instance (tok : hstring) (j : Nat) : Decidable (SharedPosOk tok j) := by
  unfold SharedPosOk; infer_instance

/-- What one iteration of the future-token loop demands of position `j`. -/
def FuturePosOk (tok : hstring) (j : Nat) : Prop :=
  if j = 9 ∨ j = 14 ∨ j = 19 ∨ j = 24 then tok.getD j 0 = HYPHEN
  else iswxdigit (tok.getD j 0) = true

instance (tok : hstring) (j : Nat) : Decidable (FuturePosOk tok j) := by
  unfold FuturePosOk; infer_instance

/-- The shape of a shared-access token as the specification states it. -/
def SharedTokenShape (s : hstring) : Prop :=
  s.length = 36 ∧ ∀ i, i < 36 →
    if i = 8 ∨ i = 13 ∨ i = 18 ∨ i = 23 then s.getD i 0 = '-'.toNat
    else IsHexDigit (s.getD i 0)

instance (s : hstring) : Decidable (SharedTokenShape s) := by
  unfold SharedTokenShape; infer_instance

/-- The shape of a future-access token as the specification states it. -/
def FutureTokenShape (s : hstring) : Prop :=
  s.length = 38 ∧ s.getD 0 0 = '{'.toNat ∧ s.getD 37 0 = '}'.toNat ∧
    ∀ i, 1 ≤ i → i ≤ 36 →
      if i = 9 ∨ i = 14 ∨ i = 19 ∨ i = 24 then s.getD i 0 = '-'.toNat
      else IsHexDigit (s.getD i 0)

instance (s : hstring) : Decidable (FutureTokenShape s) := by
  unfold FutureTokenShape; infer_instance

/-! ## Resolver dispatch targets (source lines 172-183) -/

/-- The value of the function pointer `pf_open`: one of the four acquisition
procedures of the source. -/
inductive pf_open_t
  | open_file_from_shared_access_token
  | open_file_from_future_access_token
  | open_file_from_path
  | noop_open_fn
  deriving DecidableEq, Repr

/-- Source lines 174-183. -/
def get_open_function (token : hstring) : pf_open_t :=
  if is_shared_access_token_valid token then
    pf_open_t.open_file_from_shared_access_token
  else if is_future_access_token_valid token then
    pf_open_t.open_file_from_future_access_token
  else
    pf_open_t.noop_open_fn

/-! ## Status codes, error codes and machine integers -/

/-- The host framework's success status (`vlc_common.h`). -/
def VLC_SUCCESS : Int := 0

/-- The host framework's generic failure status (`vlc_common.h`). -/
def VLC_EGENERIC : Int := -1

/-- An `HRESULT` value, as its unsigned 32-bit pattern. -/
abbrev hresult := Nat

/-- The Win32 error code of a handle closed by an oplock break (`winerror.h`). -/
def ERROR_OPLOCK_HANDLE_CLOSED : Nat := 803

/-- The `winerror.h` conversion of a 32-bit Win32 error code into an `HRESULT`:
a code that is not positive as an `HRESULT` is kept, any other gets the
facility `FACILITY_WIN32` (7) and the failure bit. -/
def HRESULT_FROM_WIN32 (x : Nat) : hresult :=
  if x = 0 ∨ 2147483648 ≤ x then x else x % 65536 + 7 * 65536 + 2147483648

/-- The conversion of a `size_t` value to the 64-bit `ssize_t`. -/
def to_ssize_t (n : Nat) : Int :=
  if n % 2 ^ 64 < 2 ^ 63 then (n % 2 ^ 64 : Nat) else (n % 2 ^ 64 : Nat) - 2 ^ 64

/-! ## The session record (source lines 32-39) -/

/-- A WinRT stream reference; `none` is `nullptr`, `some k` the object `k`. -/
abbrev IRandomAccessStream := Option Nat

/-- A WinRT buffered-reader reference; `none` is `nullptr`. -/
abbrev DataReader := Option Nat

/-- Source lines 32-39: `i_pos` is a `uint64_t`, `retries` a `uint32_t`. -/
structure access_sys_t where
  read_stream : IRandomAccessStream
  data_reader : DataReader
  i_pos : Nat
  retries : Nat
  b_eof : Bool
  deriving DecidableEq, Repr

/-! ## The OS collaborators

The storage broker, the streams and the readers are outside the repository.
They are a parameter of the embedding: an `OS W` gives, for a world state
`W`, the outcome of every call the source makes, either a value or the
`HRESULT` of the `hresult_error` the call throws. -/

/-- The collaborator calls of the source, with their arguments. -/
inductive OSCall
  | GetFileFromPathAsync (path : hstring)
  | FutureAccessList_GetFileAsync (token : hstring)
  | RedeemTokenForFileAsync (token : hstring)
  | OpenReadAsync (file : Nat)
  | DataReader_new (stream : IRandomAccessStream)
  | InputStreamOptions (reader : Nat) (options : Nat)
  | CloneStream (stream : Nat)
  | Seek (stream : Nat) (position : Nat)
  | Position (stream : Nat)
  | Size (stream : Nat)
  | LoadAsync (reader : Nat) (count : Nat)
  | ReadBytes (reader : Nat) (count : Nat)
  | operator_new
  deriving DecidableEq, Repr

/-- What a collaborator call produced: a value, or a thrown `HRESULT`. -/
inductive Outcome
  | ok (value : Nat)
  | error (code : hresult)
  deriving DecidableEq, Repr

/-- One collaborator call and what it produced. -/
structure Event where
  call : OSCall
  result : Outcome
  deriving DecidableEq, Repr

/-- The collaborators. `Position` and `Size` yield `uint64_t` values and
`LoadAsync` a `uint32_t` value. -/
structure OS (W : Type) where
  GetFileFromPathAsync : hstring → W → Except hresult Nat × W
  FutureAccessList_GetFileAsync : hstring → W → Except hresult Nat × W
  RedeemTokenForFileAsync : hstring → W → Except hresult Nat × W
  OpenReadAsync : Nat → W → Except hresult Nat × W
  DataReader_new : IRandomAccessStream → W → Except hresult Nat × W
  InputStreamOptions : Nat → Nat → W → Except hresult Unit × W
  CloneStream : Nat → W → Except hresult Nat × W
  Seek : Nat → Nat → W → Except hresult Unit × W
  Position : Nat → W → Except hresult (Fin (2 ^ 64)) × W
  Size : Nat → W → Except hresult (Fin (2 ^ 64)) × W
  LoadAsync : Nat → Nat → W → Except hresult (Fin (2 ^ 32)) × W
  ReadBytes : Nat → Nat → W → Except hresult Unit × W
  operator_new : W → Bool × W

/-- What stops a function before its `return`: a thrown `hresult_error`, or a
call through a null reference. -/
inductive Signal
  | hresult_error (code : hresult)
  | access_violation
  deriving DecidableEq, Repr

/-- The state the functions of the source act on: the session object `*p_sys`,
the world of the collaborators, and the collaborator calls made so far. -/
structure St (W : Type) where
  p_sys : access_sys_t
  world : W
  trace : List Event

/-- Run one collaborator call: thread the world and record the event. -/
def St.invoke {W α : Type} (s : St W) (c : OSCall) (op : W → Except hresult α × W)
    (enc : α → Nat) : Except Signal α × St W :=
  match op s.world with
  | (.ok a, w) =>
    (.ok a, { s with world := w, trace := s.trace ++ [⟨c, .ok (enc a)⟩] })
  | (.error e, w) =>
    (.error (.hresult_error e), { s with world := w, trace := s.trace ++ [⟨c, .error e⟩] })

/-- `InputStreamOptions::Partial`. -/
def InputStreamOptions_Partial : Nat := 1

/-- `InputStreamOptions::ReadAhead`. -/
def InputStreamOptions_ReadAhead : Nat := 2

/-! ## Stream session mutation and acquisition (source lines 96-172) -/

variable {W : Type}

/-- Source lines 96-102. The two assignments come after the two calls that
can throw. -/
def set_stream (os : OS W) (stream : IRandomAccessStream) (s : St W) :
    Except Signal Unit × St W :=
  match s.invoke (.DataReader_new stream) (os.DataReader_new stream) id with
  | (.error e, s1) => (.error e, s1)
  | (.ok reader, s1) =>
    let options := InputStreamOptions_Partial ||| InputStreamOptions_ReadAhead
    match s1.invoke (.InputStreamOptions reader options)
        (os.InputStreamOptions reader options) (fun _ => 0) with
    | (.error e, s2) => (.error e, s2)
    | (.ok _, s2) =>
      (.ok (), { s2 with p_sys :=
        { s2.p_sys with read_stream := stream, data_reader := some reader } })

/-- Source lines 104-109. -/
def open_file_from_path_async (os : OS W) (path : hstring) (s : St W) :
    Except Signal Unit × St W :=
  match s.invoke (.GetFileFromPathAsync path) (os.GetFileFromPathAsync path) id with
  | (.error e, s1) => (.error e, s1)
  | (.ok file, s1) =>
    match s1.invoke (.OpenReadAsync file) (os.OpenReadAsync file) id with
    | (.error e, s2) => (.error e, s2)
    | (.ok stream, s2) => set_stream os (some stream) s2

/-- Source lines 111-124. -/
def open_file_from_path (os : OS W) (path : hstring) (s : St W) :
    Except Signal Int × St W :=
  match open_file_from_path_async os path s with
  | (.ok _, s1) => (.ok VLC_SUCCESS, s1)
  | (.error (.hresult_error _), s1) => (.ok VLC_EGENERIC, s1)
  | (.error e, s1) => (.error e, s1)

/-- Source lines 126-131. -/
def open_file_from_future_access_token_async (os : OS W) (token : hstring) (s : St W) :
    Except Signal Nat × St W :=
  match s.invoke (.FutureAccessList_GetFileAsync token)
      (os.FutureAccessList_GetFileAsync token) id with
  | (.error e, s1) => (.error e, s1)
  | (.ok file, s1) => s1.invoke (.OpenReadAsync file) (os.OpenReadAsync file) id

/-- Source lines 133-147. -/
def open_file_from_future_access_token (os : OS W) (token : hstring) (s : St W) :
    Except Signal Int × St W :=
  match open_file_from_future_access_token_async os token s with
  | (.error (.hresult_error _), s1) => (.ok VLC_EGENERIC, s1)
  | (.error e, s1) => (.error e, s1)
  | (.ok stream, s1) =>
    match set_stream os (some stream) s1 with
    | (.ok _, s2) => (.ok VLC_SUCCESS, s2)
    | (.error (.hresult_error _), s2) => (.ok VLC_EGENERIC, s2)
    | (.error e, s2) => (.error e, s2)

/-- Source lines 149-154. -/
def open_file_from_shared_access_token_async (os : OS W) (token : hstring) (s : St W) :
    Except Signal Nat × St W :=
  match s.invoke (.RedeemTokenForFileAsync token) (os.RedeemTokenForFileAsync token) id with
  | (.error e, s1) => (.error e, s1)
  | (.ok file, s1) => s1.invoke (.OpenReadAsync file) (os.OpenReadAsync file) id

/-- Source lines 156-170. -/
def open_file_from_shared_access_token (os : OS W) (token : hstring) (s : St W) :
    Except Signal Int × St W :=
  match open_file_from_shared_access_token_async os token s with
  | (.error (.hresult_error _), s1) => (.ok VLC_EGENERIC, s1)
  | (.error e, s1) => (.error e, s1)
  | (.ok stream, s1) =>
    match set_stream os (some stream) s1 with
    | (.ok _, s2) => (.ok VLC_SUCCESS, s2)
    | (.error (.hresult_error _), s2) => (.ok VLC_EGENERIC, s2)
    | (.error e, s2) => (.error e, s2)

/-- Source line 172. -/
def noop_open_fn (_os : OS W) (_token : hstring) (s : St W) : Except Signal Int × St W :=
  (.ok VLC_EGENERIC, s)

/-- A call through the function pointer `pf_open`. -/
def call_pf_open (pf : pf_open_t) (os : OS W) (token : hstring) (s : St W) :
    Except Signal Int × St W :=
  match pf with
  | .open_file_from_shared_access_token => open_file_from_shared_access_token os token s
  | .open_file_from_future_access_token => open_file_from_future_access_token os token s
  | .open_file_from_path => open_file_from_path os token s
  | .noop_open_fn => noop_open_fn os token s

/-! ## Read / seek / control engine (source lines 185-292) -/

/-- Source lines 185-191; `count` is `buffer.size()`. -/
def read_async (os : OS W) (reader : DataReader) (count : Nat) (s : St W) :
    Except Signal Nat × St W :=
  match reader with
  | none => (.error .access_violation, s)
  | some r =>
    match s.invoke (.LoadAsync r count) (os.LoadAsync r count) Fin.val with
    | (.error e, s1) => (.error e, s1)
    | (.ok bytes_loaded, s1) =>
      match s1.invoke (.ReadBytes r bytes_loaded.val) (os.ReadBytes r bytes_loaded.val)
          (fun _ => 0) with
      | (.error e, s2) => (.error e, s2)
      | (.ok _, s2) => (.ok bytes_loaded.val, s2)

/-- The expression `p_sys->read_stream.Position() >= p_sys->read_stream.Size()`
(source lines 204 and 285), the left operand first. -/
def position_ge_size (os : OS W) (s : St W) : Except Signal Bool × St W :=
  match s.p_sys.read_stream with
  | none => (.error .access_violation, s)
  | some st =>
    match s.invoke (.Position st) (os.Position st) Fin.val with
    | (.error e, s1) => (.error e, s1)
    | (.ok pos, s1) =>
      match s1.invoke (.Size st) (os.Size st) Fin.val with
      | (.error e, s2) => (.error e, s2)
      | (.ok size, s2) => (.ok (decide (pos.val ≥ size.val)), s2)

/-- The `try` block of `seek` (source lines 200-204). -/
def seek_try (os : OS W) (position : Nat) (s : St W) : Except Signal Unit × St W :=
  match s.p_sys.read_stream with
  | none => (.error .access_violation, s)
  | some st =>
    match s.invoke (.CloneStream st) (os.CloneStream st) id with
    | (.error e, s1) => (.error e, s1)
    | (.ok clone_stream, s1) =>
      match s1.invoke (.Seek clone_stream position) (os.Seek clone_stream position)
          (fun _ => 0) with
      | (.error e, s2) => (.error e, s2)
      | (.ok _, s2) =>
        match set_stream os (some clone_stream) s2 with
        | (.error e, s3) => (.error e, s3)
        | (.ok _, s3) =>
          let s4 := { s3 with p_sys := { s3.p_sys with i_pos := position } }
          match position_ge_size os s4 with
          | (.error e, s5) => (.error e, s5)
          | (.ok b, s5) => (.ok (), { s5 with p_sys := { s5.p_sys with b_eof := b } })

/-- Source lines 194-213. -/
def seek (os : OS W) (position : Nat) (s : St W) : Except Signal Int × St W :=
  match seek_try os position s with
  | (.ok _, s1) => (.ok VLC_SUCCESS, s1)
  | (.error (.hresult_error _), s1) => (.ok VLC_EGENERIC, s1)
  | (.error e, s1) => (.error e, s1)

/-! ## C strings and the host's stream object -/

/-- The text of a NUL-terminated `char*` (UTF-8), terminator left out. -/
abbrev c_str := List Char

/-- The UTF-16 code units of one Unicode scalar value. -/
def utf16_units (c : Char) : List wchar_t :=
  if c.toNat < 65536 then [c.toNat]
  else [55296 + (c.toNat - 65536) / 1024, 56320 + (c.toNat - 65536) % 1024]

/-- The C++/WinRT conversion of UTF-8 text to an `hstring`. -/
def to_hstring (s : c_str) : hstring := (s.map utf16_units).flatten

/-- The C library `strncmp`: `0` exactly when the first `n` characters agree. -/
def strncmp : c_str → c_str → Nat → Int
  | _, _, 0 => 0
  | [], [], _ + 1 => 0
  | [], _ :: _, _ + 1 => -1
  | _ :: _, [], _ + 1 => 1
  | a :: as, b :: bs, n + 1 =>
    if a = b then strncmp as bs n else if a.toNat < b.toNat then -1 else 1

/-- The C library `strstr`: the text from the first occurrence of `needle` on,
or `none` for the null pointer. -/
def strstr : c_str → c_str → Option c_str
  | [], needle => if needle = [] then some [] else none
  | c :: rest, needle =>
    if needle.isPrefixOf (c :: rest) then some (c :: rest) else strstr rest needle

/-- The C library `strlen`. -/
def strlen (s : c_str) : Nat := s.length

/-- The fields of the host's `stream_t` that the source reads or writes, the
pointer `p_sys` apart; `pf_read`, `pf_seek` and `pf_control` record whether
the entry point is installed. -/
structure stream_t where
  psz_name : c_str
  psz_location : c_str
  psz_filepath : c_str
  pf_read : Bool := false
  pf_seek : Bool := false
  pf_control : Bool := false
  deriving DecidableEq, Repr

/-! ## Frame lemmas used by the termination proof of `read` -/

theorem invoke_p_sys {α : Type} {s : St W} {c : OSCall} {op : W → Except hresult α × W}
    {enc : α → Nat} {r : Except Signal α} {s1 : St W} (h : s.invoke c op enc = (r, s1)) :
    s1.p_sys = s.p_sys := by
  unfold St.invoke at h
  split at h <;> (cases h; rfl)

theorem read_async_p_sys {os : OS W} {reader : DataReader} {count : Nat} {s : St W}
    {r : Except Signal Nat} {s1 : St W} (h : read_async os reader count s = (r, s1)) :
    s1.p_sys = s.p_sys := by
  unfold read_async at h
  split at h
  · cases h; rfl
  · split at h
    · next h1 => cases h; exact invoke_p_sys h1
    · next h1 =>
      split at h
      · next h2 => cases h; exact (invoke_p_sys h2).trans (invoke_p_sys h1)
      · next h2 => cases h; exact (invoke_p_sys h2).trans (invoke_p_sys h1)

theorem set_stream_retries {os : OS W} {stream : IRandomAccessStream} {s : St W}
    {r : Except Signal Unit} {s1 : St W} (h : set_stream os stream s = (r, s1)) :
    s1.p_sys.retries = s.p_sys.retries := by
  unfold set_stream at h
  split at h
  · next h1 => cases h; rw [invoke_p_sys h1]
  · next h1 =>
    simp only at h
    split at h
    · next h2 => cases h; rw [invoke_p_sys h2, invoke_p_sys h1]
    · next h2 => cases h; simp only [invoke_p_sys h2, invoke_p_sys h1]

theorem open_file_from_path_async_retries {os : OS W} {path : hstring} {s : St W}
    {r : Except Signal Unit} {s1 : St W} (h : open_file_from_path_async os path s = (r, s1)) :
    s1.p_sys.retries = s.p_sys.retries := by
  unfold open_file_from_path_async at h
  split at h
  · next h1 => cases h; rw [invoke_p_sys h1]
  · next h1 =>
    split at h
    · next h2 => cases h; rw [invoke_p_sys h2, invoke_p_sys h1]
    · next h2 => rw [set_stream_retries h, invoke_p_sys h2, invoke_p_sys h1]

theorem open_file_from_path_retries {os : OS W} {path : hstring} {s : St W}
    {r : Except Signal Int} {s1 : St W} (h : open_file_from_path os path s = (r, s1)) :
    s1.p_sys.retries = s.p_sys.retries := by
  unfold open_file_from_path at h
  split at h <;> next h1 => cases h; exact open_file_from_path_async_retries h1

theorem position_ge_size_p_sys {os : OS W} {s : St W}
    {r : Except Signal Bool} {s1 : St W} (h : position_ge_size os s = (r, s1)) :
    s1.p_sys = s.p_sys := by
  unfold position_ge_size at h
  split at h
  · cases h; rfl
  · split at h
    · next h1 => cases h; exact invoke_p_sys h1
    · next h1 =>
      split at h
      · next h2 => cases h; exact (invoke_p_sys h2).trans (invoke_p_sys h1)
      · next h2 => cases h; exact (invoke_p_sys h2).trans (invoke_p_sys h1)

theorem seek_try_retries {os : OS W} {position : Nat} {s : St W}
    {r : Except Signal Unit} {s1 : St W} (h : seek_try os position s = (r, s1)) :
    s1.p_sys.retries = s.p_sys.retries := by
  unfold seek_try at h
  split at h
  · cases h; rfl
  · split at h
    · next h1 => cases h; rw [invoke_p_sys h1]
    · next h1 =>
      split at h
      · next h2 => cases h; rw [invoke_p_sys h2, invoke_p_sys h1]
      · next h2 =>
        split at h
        · next h3 => cases h; rw [set_stream_retries h3, invoke_p_sys h2, invoke_p_sys h1]
        · next h3 =>
          simp only at h
          split at h
          · next h4 =>
            cases h
            rw [position_ge_size_p_sys h4]
            simp only [set_stream_retries h3, invoke_p_sys h2, invoke_p_sys h1]
          · next h4 =>
            cases h
            simp only [position_ge_size_p_sys h4, set_stream_retries h3, invoke_p_sys h2,
              invoke_p_sys h1]

theorem seek_retries {os : OS W} {position : Nat} {s : St W}
    {r : Except Signal Int} {s1 : St W} (h : seek os position s = (r, s1)) :
    s1.p_sys.retries = s.p_sys.retries := by
  unfold seek at h
  split at h <;> next h1 => cases h; exact seek_try_retries h1

set_option linter.unusedVariables false in
/-- Source lines 251-292; `buffer` is `none` for the null pointer, and
`size` is a 64-bit `size_t`. The recursion of line 277 is on `3 - retries`. -/
def read (os : OS W) (access : stream_t) (buffer : Option Nat) (size : Nat) (s : St W) :
    Except Signal Int × St W :=
  match buffer with
  | none =>
    match seek os size s with
    | (.error e, s1) => (.error e, s1)
    | (.ok r, s1) => if r = VLC_SUCCESS then (.ok (to_ssize_t size), s1) else (.ok 0, s1)
  | some _ =>
    match h1 : read_async os s.p_sys.data_reader (size % 2 ^ 32) s with
    | (.ok total_read, s1) =>
      let s2 := { s1 with p_sys :=
        { s1.p_sys with i_pos := (s1.p_sys.i_pos + total_read) % 2 ^ 64 } }
      match position_ge_size os s2 with
      | (.error e, s3) => (.error e, s3)
      | (.ok b, s3) =>
        (.ok (total_read : Int), { s3 with p_sys := { s3.p_sys with b_eof := b, retries := 0 } })
    | (.error .access_violation, s1) => (.error .access_violation, s1)
    | (.error (.hresult_error code), s1) =>
      if code = HRESULT_FROM_WIN32 ERROR_OPLOCK_HANDLE_CLOSED then
        match h2 : open_file_from_path os (to_hstring access.psz_location) s1 with
        | (.error e, s2) => (.error e, s2)
        | (.ok r1, s2) =>
          if r1 = VLC_SUCCESS then
            match h3 : seek os s2.p_sys.i_pos s2 with
            | (.error e, s3) => (.error e, s3)
            | (.ok r2, s3) =>
              if r2 = VLC_SUCCESS then
                if h4 : s3.p_sys.retries < 3 then
                  read os access buffer size
                    { s3 with p_sys :=
                      { s3.p_sys with retries := (s3.p_sys.retries + 1) % 2 ^ 32 } }
                else (.ok 0, s3)
              else (.ok 0, s3)
          else (.ok 0, s2)
      else (.ok 0, s1)
termination_by 3 - s.p_sys.retries
decreasing_by
  have e3 : s3.p_sys.retries = s.p_sys.retries := by
    rw [seek_retries h3, open_file_from_path_retries h2, read_async_p_sys h1]
  show 3 - (s3.p_sys.retries + 1) % 2 ^ 32 < 3 - s.p_sys.retries
  rw [← e3, Nat.mod_eq_of_lt (by omega)]
  omega


/-! ## Control (source lines 216-248) -/

/-- The queries `control` distinguishes (`vlc_stream.h`); `other` stands for
every query that is none of the seven named ones. -/
inductive stream_query
  | STREAM_CAN_SEEK
  | STREAM_CAN_FASTSEEK
  | STREAM_CAN_PAUSE
  | STREAM_CAN_CONTROL_PACE
  | STREAM_GET_SIZE
  | STREAM_GET_PTS_DELAY
  | STREAM_SET_PAUSE_STATE
  | other (code : Int)
  deriving DecidableEq, Repr

/-- What `control` stores through the pointer it takes from `args`. -/
inductive va_written
  | nothing
  | bool (b : Bool)
  | int64 (d : Int)
  | uint64 (v : Nat)
  deriving DecidableEq, Repr

/-- Modelled from the spec: the "fixed default" latency hint of the host
framework (`DEFAULT_PTS_DELAY` in `vlc_input.h`, three tenths of `CLOCK_FREQ`);
the header is not part of the repository source. -/
def DEFAULT_PTS_DELAY : Int := 300000

/-- Source lines 216-248. The `Size()` call of line 242 is outside any `try`. -/
def control (os : OS W) (query : stream_query) (s : St W) :
    Except Signal (Int × va_written) × St W :=
  match query with
  | .STREAM_CAN_FASTSEEK | .STREAM_CAN_PAUSE | .STREAM_CAN_SEEK | .STREAM_CAN_CONTROL_PACE =>
    (.ok (VLC_SUCCESS, .bool true), s)
  | .STREAM_GET_PTS_DELAY => (.ok (VLC_SUCCESS, .int64 DEFAULT_PTS_DELAY), s)
  | .STREAM_SET_PAUSE_STATE => (.ok (VLC_SUCCESS, .nothing), s)
  | .STREAM_GET_SIZE =>
    match s.p_sys.read_stream with
    | none => (.error .access_violation, s)
    | some st =>
      match s.invoke (.Size st) (os.Size st) Fin.val with
      | (.error e, s1) => (.error e, s1)
      | (.ok size, s1) => (.ok (VLC_SUCCESS, .uint64 size.val), s1)
  | .other _ => (.ok (VLC_EGENERIC, .nothing), s)

/-! ## Open and Close (source lines 295-352) -/

/-- The state `Open` and `Close` act on: the host's stream object, the session
object `access->p_sys` points to (`none` when no session object is live), the
world of the collaborators and the calls made so far. -/
structure Machine (W : Type) where
  access : stream_t
  p_sys : Option access_sys_t
  world : W
  trace : List Event

/-- The literal `"winrt:\\\\"` of source line 306: `winrt:` and two backslashes. -/
def WINRT_MARKER : c_str := ['w', 'i', 'n', 'r', 't', ':', '\\', '\\']

/-- The session object of source line 323, `access_sys_t{nullptr, nullptr, 0, false}`:
the fourth initialiser `false` lands in `retries`, and `b_eof` is
value-initialised. -/
def new_access_sys_t : access_sys_t :=
  { read_stream := none, data_reader := none, i_pos := 0, retries := 0, b_eof := false }

/-- Source lines 301-318: the token and the acquisition procedure `Open`
selects, or `none` when the shortcut is neither `winrt` nor `file`. -/
def Open_select (access : stream_t) : Option (hstring × pf_open_t) :=
  if strncmp access.psz_name ['w', 'i', 'n', 'r', 't'] 5 = 0 then
    let access_token := to_hstring access.psz_location
    some (access_token, get_open_function access_token)
  else if strncmp access.psz_name ['f', 'i', 'l', 'e'] 4 = 0 then
    match strstr access.psz_filepath WINRT_MARKER with
    | some pos =>
      if strlen pos > 8 then
        let access_token := to_hstring (pos.drop 8)
        some (access_token, get_open_function access_token)
      else
        some (to_hstring access.psz_filepath, pf_open_t.open_file_from_path)
    | none => some (to_hstring access.psz_filepath, pf_open_t.open_file_from_path)
  else none

/-- Source lines 341-352. -/
def Close (m : Machine W) : Except Signal Unit × Machine W :=
  match m.p_sys with
  | none => (.error .access_violation, m)
  | some _ => (.ok (), { m with p_sys := none })

/-- Source lines 295-339. -/
def Open (os : OS W) (m : Machine W) : Except Signal Int × Machine W :=
  match Open_select m.access with
  | none => (.ok VLC_EGENERIC, m)
  | some (access_token, pf_open) =>
    if pf_open = pf_open_t.noop_open_fn then (.ok VLC_EGENERIC, m)
    else
      match os.operator_new m.world with
      | (false, w) =>
        (.ok VLC_EGENERIC,
          { m with world := w, trace := m.trace ++ [⟨.operator_new, .ok 0⟩] })
      | (true, w) =>
        match call_pf_open pf_open os access_token
            { p_sys := new_access_sys_t, world := w,
              trace := m.trace ++ [⟨.operator_new, .ok 1⟩] } with
        | (.error e, s1) =>
          (.error e, { m with p_sys := some s1.p_sys, world := s1.world, trace := s1.trace })
        | (.ok r, s1) =>
          if r ≠ VLC_SUCCESS then
            let m0 : Machine W :=
              { m with p_sys := some s1.p_sys, world := s1.world, trace := s1.trace }
            match Close m0 with
            | (.error e, m1) => (.error e, m1)
            | (.ok _, m1) => (.ok VLC_EGENERIC, m1)
          else
            (.ok VLC_SUCCESS,
              { access := { m.access with pf_read := true, pf_seek := true,
                                          pf_control := true },
                p_sys := some s1.p_sys, world := s1.world, trace := s1.trace })

/-! ## An in-memory test double of the collaborators -/

/-- The world of the test double: one file of `file_size` bytes, the position
of every stream object opened on it, the stream every reader is bound to, and
the number of collaborator calls made so far. -/
structure MemWorld where
  file_size : Nat
  streams : List Nat
  readers : List Nat
  clock : Nat
  deriving DecidableEq, Repr

/-- A fault plan: the `HRESULT` a call throws, if any, given the call and the
number of collaborator calls made before it. -/
abbrev FaultPlan := OSCall → Nat → Option hresult

/-- The `uint64_t` value of a natural number. -/
def to_uint64 (n : Nat) : Fin (2 ^ 64) := ⟨n % 2 ^ 64, Nat.mod_lt _ (Nat.two_pow_pos 64)⟩

/-- The `uint32_t` value of a natural number. -/
def to_uint32 (n : Nat) : Fin (2 ^ 32) := ⟨n % 2 ^ 32, Nat.mod_lt _ (Nat.two_pow_pos 32)⟩

/-- One call of the test double: throw what the fault plan says, else run `ok`;
either way the call is counted. -/
def MemWorld.step {α : Type} (plan : FaultPlan) (c : OSCall) (w : MemWorld)
    (ok : MemWorld → α × MemWorld) : Except hresult α × MemWorld :=
  match plan c w.clock with
  | some code => (.error code, { w with clock := w.clock + 1 })
  | none =>
    let r := ok w
    (.ok r.1, { r.2 with clock := w.clock + 1 })

/-- Modelled from the spec: the collaborators of section 6 over one in-memory
file (resolve and open a file, clone a stream with an independent position,
seek, report size and position, load at most the bytes that remain), with
faults injected by `plan`; the real collaborators are OS components outside the
repository. -/
def memOS (plan : FaultPlan) : OS MemWorld where
  GetFileFromPathAsync path w := w.step plan (.GetFileFromPathAsync path) fun w => (0, w)
  FutureAccessList_GetFileAsync token w :=
    w.step plan (.FutureAccessList_GetFileAsync token) fun w => (0, w)
  RedeemTokenForFileAsync token w :=
    w.step plan (.RedeemTokenForFileAsync token) fun w => (0, w)
  OpenReadAsync file w := w.step plan (.OpenReadAsync file) fun w =>
    (w.streams.length, { w with streams := w.streams ++ [0] })
  DataReader_new stream w := w.step plan (.DataReader_new stream) fun w =>
    (w.readers.length, { w with readers := w.readers ++ [stream.getD 0] })
  InputStreamOptions reader options w :=
    w.step plan (.InputStreamOptions reader options) fun w => ((), w)
  CloneStream stream w := w.step plan (.CloneStream stream) fun w =>
    (w.streams.length, { w with streams := w.streams ++ [0] })
  Seek stream position w := w.step plan (.Seek stream position) fun w =>
    ((), { w with streams := w.streams.set stream position })
  Position stream w := w.step plan (.Position stream) fun w =>
    (to_uint64 (w.streams.getD stream 0), w)
  Size stream w := w.step plan (.Size stream) fun w => (to_uint64 w.file_size, w)
  LoadAsync reader count w := w.step plan (.LoadAsync reader count) fun w =>
    let stream := w.readers.getD reader 0
    let pos := w.streams.getD stream 0
    let n := min count (w.file_size - pos)
    (to_uint32 n, { w with streams := w.streams.set stream (pos + n) })
  ReadBytes reader count w := w.step plan (.ReadBytes reader count) fun w => ((), w)
  operator_new w := (true, w)

/-- The fault plan with no fault. -/
def no_fault : FaultPlan := fun _ _ => none

/-- A host stream object for the tests: shortcut `winrt`, location `a.mkv`. -/
def test_access : stream_t :=
  { psz_name := "winrt".toList, psz_location := "a.mkv".toList, psz_filepath := [] }

/-- An open session of the test double over a file of `file_size` bytes: stream
object 0 at position `pos`, reader 0 bound to it, logical position `pos`. -/
def mem_session (file_size pos retries : Nat) : St MemWorld :=
  { p_sys := { read_stream := some 0, data_reader := some 0, i_pos := pos,
               retries := retries, b_eof := decide (pos ≥ file_size) },
    world := { file_size := file_size, streams := [pos], readers := [0], clock := 0 },
    trace := [] }

/-! ## Reading the record of collaborator calls -/

/-- A buffered load (`LoadAsync`, line 187). -/
def OSCall.is_load : OSCall → Bool
  | .LoadAsync _ _ => true
  | _ => false

/-- The first collaborator call of `open_file_from_path` (line 106): one per
reattachment attempt. -/
def OSCall.is_reattach : OSCall → Bool
  | .GetFileFromPathAsync _ => true
  | _ => false

/-- A position or size query (lines 204, 242 and 285). -/
def OSCall.is_query : OSCall → Bool
  | .Position _ => true
  | .Size _ => true
  | _ => false

/-- The number of buffered loads in a record of calls. -/
def loads (tr : List Event) : Nat := tr.countP fun e => e.call.is_load

/-- The number of reattachment attempts (calls of `open_file_from_path`) in a
record of calls. -/
def reattach_attempts (tr : List Event) : Nat := tr.countP fun e => e.call.is_reattach

/-- The record ends in a collaborator call that threw. -/
def LastIsError (ev : List Event) : Prop :=
  ∃ pre c code, ev = pre ++ [⟨c, Outcome.error code⟩]

/-- The record of a read call that took its success path (lines 267 and
284-291): it ends in a load that yielded `n` bytes, their copy-out, and the two
queries of the end-of-stream recomputation, all without a throw. The result is
`some n` then, and `none` for every other record. -/
def ended_in_load (ev : List Event) : Option Nat :=
  match ev.reverse with
  | ⟨.Size _, .ok _⟩ :: ⟨.Position _, .ok _⟩ :: ⟨.ReadBytes _ _, .ok _⟩ ::
      ⟨.LoadAsync _ _, .ok n⟩ :: _ => some n
  | _ => none

/-- The number of position and size queries in a record of calls. -/
def queries (tr : List Event) : Nat := tr.countP fun e => e.call.is_query

/-- A record of calls of a failed step: it ends in the call that threw, and
holds no load and no query. -/
def FailedQuietly (ev : List Event) : Prop :=
  LastIsError ev ∧ loads ev = 0 ∧ queries ev = 0

/-- The `HRESULT` the source retries on (line 272). -/
def STALE_HANDLE : hresult := HRESULT_FROM_WIN32 ERROR_OPLOCK_HANDLE_CLOSED

/-- Every buffered load throws the stale-handle error. -/
def LoadsAlwaysStale {W : Type} (os : OS W) : Prop :=
  ∀ reader count w, (os.LoadAsync reader count w).1 = .error STALE_HANDLE

/-- Every construction of a reader (the two calls of `set_stream`) succeeds. -/
def ReaderAlwaysBuilt {W : Type} (os : OS W) : Prop :=
  (∀ stream w, ∃ reader, (os.DataReader_new stream w).1 = .ok reader) ∧
  (∀ reader options w, (os.InputStreamOptions reader options w).1 = .ok ())

/-- Every reattachment (`open_file_from_path`) succeeds. -/
def ReattachAlwaysSucceeds {W : Type} (os : OS W) : Prop :=
  (∀ path w, ∃ file, (os.GetFileFromPathAsync path w).1 = .ok file) ∧
  (∀ file w, ∃ stream, (os.OpenReadAsync file w).1 = .ok stream) ∧
  ReaderAlwaysBuilt os

/-- Every reseek (`seek`) succeeds. -/
def ReseekAlwaysSucceeds {W : Type} (os : OS W) : Prop :=
  (∀ stream w, ∃ clone, (os.CloneStream stream w).1 = .ok clone) ∧
  (∀ stream position w, (os.Seek stream position w).1 = .ok ()) ∧
  ReaderAlwaysBuilt os ∧
  (∀ stream w, ∃ p, (os.Position stream w).1 = .ok p) ∧
  (∀ stream w, ∃ z, (os.Size stream w).1 = .ok z)

/-- The fault plan under which every buffered load throws the stale-handle
error and nothing else throws. -/
def stale_loads : FaultPlan := fun c _ =>
  match c with
  | .LoadAsync _ _ => some STALE_HANDLE
  | _ => none

/-- The record of a call ends in a reseek that ran to its end (the reader
configuration and the two queries of `seek`, lines 99 and 204). -/
def EndsInReseek (ev : List Event) : Prop :=
  ∃ pre rd o c c' p z, ev = pre ++ [⟨.InputStreamOptions rd o, .ok 0⟩,
    ⟨.Position c, .ok p⟩, ⟨.Size c', .ok z⟩]

/-- The record of a read call that did not take its success path: nothing was
called, or the last call threw, or the call gave up after a reseek, or it
stopped right after a copy-out. -/
def GaveUp (ev : List Event) : Prop :=
  ev = [] ∨ LastIsError ev ∨ EndsInReseek ev ∨
    ∃ pre rd n, ev = pre ++ [⟨.ReadBytes rd n, .ok 0⟩]

/-- The record of a call ends in a load of `n` bytes, their copy-out and the
two queries of the end-of-stream recomputation, none of which threw. -/
def EndsInLoad (ev : List Event) (n : Nat) : Prop :=
  ∃ pre rd count c c' p z, ev = pre ++ [⟨.LoadAsync rd count, .ok n⟩,
    ⟨.ReadBytes rd n, .ok 0⟩, ⟨.Position c, .ok p⟩, ⟨.Size c', .ok z⟩]

/-- The session states the host can observe: the state a successful `Open`
leaves, and every state that `read`, `seek` and `control` calls lead to from
there, whatever the collaborators do in between. -/
inductive Reachable {W : Type} (os : OS W) : St W → Prop
  | opened (m m1 : Machine W) (sys : access_sys_t) :
      Open os m = (.ok VLC_SUCCESS, m1) → m1.p_sys = some sys →
      Reachable os { p_sys := sys, world := m1.world, trace := m1.trace }
  | read (s : St W) (access : stream_t) (buffer : Option Nat) (size : Nat) :
      Reachable os s → Reachable os (read os access buffer size s).2
  | seek (s : St W) (position : Nat) :
      Reachable os s → Reachable os (seek os position s).2
  | control (s : St W) (query : stream_query) :
      Reachable os s → Reachable os (control os query s).2
  | world_moves (s : St W) (w : W) :
      Reachable os s → Reachable os { s with world := w }

/-- The generic failure `HRESULT` (`E_FAIL` in `winerror.h`). -/
def E_FAIL : hresult := 2147500037

/-- The fault plan under which the first collaborator call throws the
stale-handle error and nothing else throws. -/
def stale_once : FaultPlan := fun _ k => if k = 0 then some STALE_HANDLE else none

/-- The fault plan under which every size query throws and nothing else does. -/
def size_fails : FaultPlan := fun c _ =>
  match c with
  | .Size _ => some E_FAIL
  | _ => none

/-- The fault plan under which every clone throws and nothing else does. -/
def clone_fails : FaultPlan := fun c _ =>
  match c with
  | .CloneStream _ => some E_FAIL
  | _ => none

/-- A host stream object for the tests: shortcut `file`, plain path `a.mkv`. -/
def test_file_access : stream_t :=
  { psz_name := "file".toList, psz_location := "a.mkv".toList,
    psz_filepath := "a.mkv".toList }

/-- The machine before `Open`, over a file of 100 bytes. -/
def test_machine : Machine MemWorld :=
  { access := test_file_access, p_sys := none,
    world := { file_size := 100, streams := [], readers := [], clock := 0 }, trace := [] }

/-- The first occurrence of the marker `winrt:\\` in the text `f` starts right
after `pre`, and `suf` is what follows it. -/
def FirstMarkerAt (f pre suf : c_str) : Prop :=
  f = pre ++ WINRT_MARKER ++ suf ∧
  ∀ pre' suf', f = pre' ++ WINRT_MARKER ++ suf' → pre.length ≤ pre'.length

/-- A host stream object for the tests: shortcut `winrt`, location `notaguid`. -/
def bad_token_access : stream_t :=
  { psz_name := "winrt".toList, psz_location := "notaguid".toList, psz_filepath := [] }

/-- A host stream object for the tests: shortcut `file`, and a filepath made of
the marker and the text `abc`. -/
def marker_access : stream_t :=
  { psz_name := "file".toList, psz_location := [],
    psz_filepath := WINRT_MARKER ++ "abc".toList }

/-- The code units of an ASCII literal; used to write test tokens. -/
def ascii (s : String) : hstring := s.toList.map Char.toNat

/-- The first collaborator call of `seek` (line 200): one per reseek. -/
def OSCall.is_reseek : OSCall → Bool
  | .CloneStream _ => true
  | _ => false

/-- The number of reseeks (calls of `seek` on a stream reference that is not
null) in a record of calls. -/
def reseeks (tr : List Event) : Nat := tr.countP fun e => e.call.is_reseek

/-- The fault plan under which every buffered load throws `E_FAIL` and nothing
else throws. -/
def load_fails : FaultPlan := fun c _ =>
  match c with
  | .LoadAsync _ _ => some E_FAIL
  | _ => none

/-- The fault plan under which every path resolution throws `E_FAIL` and
nothing else throws. -/
def resolve_fails : FaultPlan := fun c _ =>
  match c with
  | .GetFileFromPathAsync _ => some E_FAIL
  | _ => none

/-- The machine before `Open`, for the shortcut `file` and the plain path
`notaguid`. -/
def notaguid_machine : Machine MemWorld :=
  { access := { psz_name := "file".toList, psz_location := "notaguid".toList,
                psz_filepath := "notaguid".toList },
    p_sys := none,
    world := { file_size := 100, streams := [], readers := [], clock := 0 }, trace := [] }

/-- A host stream object for the tests: shortcut `winrt`, and a braced GUID as
the location. -/
def future_token_access : stream_t :=
  { psz_name := "winrt".toList,
    psz_location := "{01234567-89ab-cdef-0123-456789abcdef}".toList, psz_filepath := [] }

/-- The machine before `Open`, over a file of 100 bytes, for the shortcut
`winrt` and a braced GUID as the location. -/
def future_token_machine : Machine MemWorld :=
  { access := future_token_access, p_sys := none,
    world := { file_size := 100, streams := [], readers := [], clock := 0 }, trace := [] }

/-- The session the host holds after `Open` ran on `future_token_machine` with
no fault: stream object 0 and reader 0, logical position 0. -/
def future_session : St MemWorld :=
  { p_sys := { read_stream := some 0, data_reader := some 0, i_pos := 0, retries := 0,
               b_eof := false },
    world := (Open (memOS no_fault) future_token_machine).2.world,
    trace := (Open (memOS no_fault) future_token_machine).2.trace }

/-- Every buffered load in the record asks the reader for `count` bytes. -/
def LoadsRequest (count : Nat) (ev : List Event) : Prop :=
  ∀ e ∈ ev, ∀ rd c, e.call = .LoadAsync rd c → c = count

/-- Every buffered load in the record that did not throw yielded at most
`count` bytes. -/
def LoadsYieldAtMost (count : Nat) (ev : List Event) : Prop :=
  ∀ e ∈ ev, ∀ n, e.call.is_load = true → e.result = .ok n → n ≤ count

/-- Modelled from the spec: the contract of the bounded load of section 6
(`Bounded-async-load(reader, max_bytes)`), a load yields at most the number of
bytes it was asked for; the reader is an OS component outside the
repository. -/
def LoadBounded {W : Type} (os : OS W) : Prop :=
  ∀ reader count w v, (os.LoadAsync reader count w).1 = .ok v → v.val ≤ count

/-- What a record of calls says about its buffered loads: each asks for `count`
bytes, and yields at most `count` bytes when the loads of `os` are bounded. -/
def LoadsAsk {W : Type} (os : OS W) (count : Nat) (ev : List Event) : Prop :=
  LoadsRequest count ev ∧ (LoadBounded os → LoadsYieldAtMost count ev)

theorem iswxdigit_iff (c : wchar_t) : iswxdigit c = true ↔ IsHexDigit c := by
  have h0 : '0'.toNat = 48 := rfl
  have h9 : '9'.toNat = 57 := rfl
  have ha : 'a'.toNat = 97 := rfl
  have hf : 'f'.toNat = 102 := rfl
  have hA : 'A'.toNat = 65 := rfl
  have hF : 'F'.toNat = 70 := rfl
  unfold iswxdigit IsHexDigit
  rw [h0, h9, ha, hf, hA, hF]
  simp only [Bool.or_eq_true, Bool.and_eq_true, decide_eq_true_eq]
  constructor
  · rintro ((h | h) | h)
    · exact Or.inl h
    · exact Or.inr (Or.inr h)
    · exact Or.inr (Or.inl h)
  · rintro (h | h | h)
    · exact Or.inl (Or.inl h)
    · exact Or.inr h
    · exact Or.inl (Or.inr h)

theorem shared_loop_step (tok : hstring) (i : Nat) (hi : i < tok.length) :
    is_shared_access_token_valid_loop tok i = true ↔
      SharedPosOk tok i ∧ is_shared_access_token_valid_loop tok (i + 1) = true := by
  rw [is_shared_access_token_valid_loop]
  unfold SharedPosOk
  simp only [hi, if_true]
  by_cases hp : i = 8 ∨ i = 13 ∨ i = 18 ∨ i = 23
  · simp only [hp, if_true]
    by_cases hc : tok.getD i 0 = HYPHEN
    · simp only [hc, ne_eq, not_true_eq_false, if_false, true_and]
    · simp only [hc, ne_eq, not_false_eq_true, if_true, false_and]
      simp
  · simp only [hp, if_false]
    cases hx : iswxdigit (tok.getD i 0)
    · simp
    · simp

theorem shared_loop_done (tok : hstring) (i : Nat) (hi : ¬ i < tok.length) :
    is_shared_access_token_valid_loop tok i = true := by
  rw [is_shared_access_token_valid_loop]
  simp only [hi, if_false]

theorem shared_loop_iff (tok : hstring) (n i : Nat) (hn : tok.length - i = n) :
    is_shared_access_token_valid_loop tok i = true ↔
      ∀ j, i ≤ j → j < tok.length → SharedPosOk tok j := by
  induction n generalizing i with
  | zero =>
    have hi : ¬ i < tok.length := by omega
    simp only [shared_loop_done tok i hi, true_iff]
    intro j h1 h2
    omega
  | succ n ih =>
    have hi : i < tok.length := by omega
    rw [shared_loop_step tok i hi, ih (i + 1) (by omega)]
    constructor
    · rintro ⟨h0, h⟩ j hij hj
      rcases Nat.eq_or_lt_of_le hij with rfl | hlt
      · exact h0
      · exact h j hlt hj
    · intro h
      exact ⟨h i (le_refl _) hi, fun j hij hj => h j (by omega) hj⟩

theorem future_loop_step (tok : hstring) (i : Nat) (hi : i < tok.length - 1) :
    is_future_access_token_valid_loop tok i = true ↔
      FuturePosOk tok i ∧ is_future_access_token_valid_loop tok (i + 1) = true := by
  rw [is_future_access_token_valid_loop]
  unfold FuturePosOk
  simp only [hi, if_true]
  by_cases hp : i = 9 ∨ i = 14 ∨ i = 19 ∨ i = 24
  · simp only [hp, if_true]
    by_cases hc : tok.getD i 0 = HYPHEN
    · simp only [hc, ne_eq, not_true_eq_false, if_false, true_and]
    · simp only [hc, ne_eq, not_false_eq_true, if_true, false_and]
      simp
  · simp only [hp, if_false]
    cases hx : iswxdigit (tok.getD i 0)
    · simp
    · simp

theorem future_loop_done (tok : hstring) (i : Nat) (hi : ¬ i < tok.length - 1) :
    is_future_access_token_valid_loop tok i = true := by
  rw [is_future_access_token_valid_loop]
  simp only [hi, if_false]

theorem future_loop_iff (tok : hstring) (n i : Nat) (hn : tok.length - 1 - i = n) :
    is_future_access_token_valid_loop tok i = true ↔
      ∀ j, i ≤ j → j < tok.length - 1 → FuturePosOk tok j := by
  induction n generalizing i with
  | zero =>
    have hi : ¬ i < tok.length - 1 := by omega
    simp only [future_loop_done tok i hi, true_iff]
    intro j h1 h2
    omega
  | succ n ih =>
    have hi : i < tok.length - 1 := by omega
    rw [future_loop_step tok i hi, ih (i + 1) (by omega)]
    constructor
    · rintro ⟨h0, h⟩ j hij hj
      rcases Nat.eq_or_lt_of_le hij with rfl | hlt
      · exact h0
      · exact h j hlt hj
    · intro h
      exact ⟨h i (le_refl _) hi, fun j hij hj => h j (by omega) hj⟩

/-- The shared validator accepts exactly the strings of the claimed shape. -/
theorem shared_valid_iff_shape (s : hstring) :
    is_shared_access_token_valid s = true ↔ SharedTokenShape s := by
  unfold is_shared_access_token_valid SharedTokenShape
  by_cases hl : s.length = 36
  · simp only [hl, ne_eq, not_true_eq_false, if_false, true_and]
    rw [shared_loop_iff s 36 0 (by omega)]
    constructor
    · intro h i hi
      have := h i (Nat.zero_le _) (by omega)
      unfold SharedPosOk at this
      by_cases hp : i = 8 ∨ i = 13 ∨ i = 18 ∨ i = 23
      · simp only [hp, if_true] at this ⊢
        exact this
      · simp only [hp, if_false] at this ⊢
        exact (iswxdigit_iff _).1 this
    · intro h j _ hj
      have := h j (by omega)
      unfold SharedPosOk
      by_cases hp : j = 8 ∨ j = 13 ∨ j = 18 ∨ j = 23
      · simp only [hp, if_true] at this ⊢
        exact this
      · simp only [hp, if_false] at this ⊢
        exact (iswxdigit_iff _).2 this
  · simp [hl]

/-- The future validator accepts exactly the strings of the claimed shape. -/
theorem future_valid_iff_shape (s : hstring) :
    is_future_access_token_valid s = true ↔ FutureTokenShape s := by
  unfold is_future_access_token_valid FutureTokenShape
  by_cases hl : s.length = 38
  · by_cases h0 : s.getD 0 0 = LBRACE
    · by_cases h37 : s.getD 37 0 = RBRACE
      · have h0' : s.getD 0 0 = '{'.toNat := h0
        have h37' : s.getD 37 0 = '}'.toNat := h37
        simp only [hl, h0, h37, ne_eq, not_true_eq_false, or_self, if_false, true_and]
        rw [future_loop_iff s 36 1 (by omega)]
        have hb : LBRACE = '{'.toNat := rfl
        have hb2 : RBRACE = '}'.toNat := rfl
        simp only [hb, hb2, true_and]
        constructor
        · intro h i hi1 hi2
          have := h i hi1 (by omega)
          unfold FuturePosOk at this
          by_cases hp : i = 9 ∨ i = 14 ∨ i = 19 ∨ i = 24
          · simp only [hp, if_true] at this ⊢
            exact this
          · simp only [hp, if_false] at this ⊢
            exact (iswxdigit_iff _).1 this
        · intro h j hj1 hj2
          have := h j hj1 (by omega)
          unfold FuturePosOk
          by_cases hp : j = 9 ∨ j = 14 ∨ j = 19 ∨ j = 24
          · simp only [hp, if_true] at this ⊢
            exact this
          · simp only [hp, if_false] at this ⊢
            exact (iswxdigit_iff _).2 this
      · rw [if_pos (Or.inr (Or.inr h37))]
        constructor
        · intro h
          cases h
        · rintro ⟨_, _, h, _⟩
          exact absurd h h37
    · rw [if_pos (Or.inr (Or.inl h0))]
      constructor
      · intro h
        cases h
      · rintro ⟨_, h, _⟩
        exact absurd h h0
  · rw [if_pos (Or.inl hl)]
    constructor
    · intro h
      cases h
    · rintro ⟨h, _⟩
      exact absurd h hl

theorem getD_set_self (s : hstring) (i : Nat) (c : wchar_t) (h : i < s.length) :
    (s.set i c).getD i 0 = c := by
  simp [List.getD_eq_getElem?_getD, List.getElem?_set, h]

/-- C1: `is_shared_access_token_valid` accepts a string exactly when it has 36
characters, hyphens at positions 8, 13, 18 and 23 and hexadecimal digits
everywhere else; overwriting one character of an accepted string with a
non-hyphen at a hyphen position, or a non-hex character at a digit position,
makes it reject. -/
theorem C1_shared_token_validator :
    (∀ s : hstring, is_shared_access_token_valid s = true ↔
      (s.length = 36 ∧ ∀ i, i < 36 →
        if i = 8 ∨ i = 13 ∨ i = 18 ∨ i = 23 then s.getD i 0 = '-'.toNat
        else IsHexDigit (s.getD i 0))) ∧
    (∀ (s : hstring) (i : Nat) (c : wchar_t),
      is_shared_access_token_valid s = true → i < 36 →
      (if i = 8 ∨ i = 13 ∨ i = 18 ∨ i = 23 then c ≠ '-'.toNat else ¬ IsHexDigit c) →
      is_shared_access_token_valid (s.set i c) = false) := by
  refine ⟨shared_valid_iff_shape, ?_⟩
  intro s i c hs hi hc
  have hlen : s.length = 36 := ((shared_valid_iff_shape s).1 hs).1
  cases hv : is_shared_access_token_valid (s.set i c)
  · rfl
  · exfalso
    have h := ((shared_valid_iff_shape _).1 hv).2 i hi
    rw [getD_set_self s i c (by omega)] at h
    by_cases hp : i = 8 ∨ i = 13 ∨ i = 18 ∨ i = 23
    · simp only [hp, if_true] at h hc
      exact hc h
    · simp only [hp, if_false] at h hc
      exact hc h

/-- C1 at the token `01234567-89ab-cdef-0123-456789ABCDEF`: accepted; rejected once
position 8 holds `0`, and once position 0 holds `g`. -/
theorem C1_shared_token_validator_witness :
    is_shared_access_token_valid (ascii "01234567-89ab-cdef-0123-456789ABCDEF") = true ∧
    is_shared_access_token_valid
      ((ascii "01234567-89ab-cdef-0123-456789ABCDEF").set 8 '0'.toNat) = false ∧
    is_shared_access_token_valid
      ((ascii "01234567-89ab-cdef-0123-456789ABCDEF").set 0 'g'.toNat) = false :=
  have hv := (C1_shared_token_validator.1 _).2 (by decide)
  ⟨hv, C1_shared_token_validator.2 _ 8 _ hv (by decide) (by decide),
    C1_shared_token_validator.2 _ 0 _ hv (by decide) (by decide)⟩


/-- C2: `is_future_access_token_valid` accepts a string exactly when it has 38
characters, `{` first and `}` last, hyphens at positions 9, 14, 19 and 24 and
hexadecimal digits at every other position from 1 to 36; overwriting one
character of an accepted string with a wrong one (at a brace, hyphen or digit
position) makes it reject. -/
theorem C2_future_token_validator :
    (∀ s : hstring, is_future_access_token_valid s = true ↔
      (s.length = 38 ∧ s.getD 0 0 = '{'.toNat ∧ s.getD 37 0 = '}'.toNat ∧
        ∀ i, 1 ≤ i → i ≤ 36 →
          if i = 9 ∨ i = 14 ∨ i = 19 ∨ i = 24 then s.getD i 0 = '-'.toNat
          else IsHexDigit (s.getD i 0))) ∧
    (∀ (s : hstring) (i : Nat) (c : wchar_t),
      is_future_access_token_valid s = true → i < 38 →
      (if i = 0 then c ≠ '{'.toNat
       else if i = 37 then c ≠ '}'.toNat
       else if i = 9 ∨ i = 14 ∨ i = 19 ∨ i = 24 then c ≠ '-'.toNat
       else ¬ IsHexDigit c) →
      is_future_access_token_valid (s.set i c) = false) := by
  refine ⟨future_valid_iff_shape, ?_⟩
  intro s i c hs hi hc
  have hlen : s.length = 38 := ((future_valid_iff_shape s).1 hs).1
  cases hv : is_future_access_token_valid (s.set i c)
  · rfl
  · exfalso
    obtain ⟨_, h0, h37, h⟩ := (future_valid_iff_shape _).1 hv
    by_cases hi0 : i = 0
    · subst hi0
      rw [getD_set_self s 0 c (by omega)] at h0
      simp only [if_true] at hc
      exact hc h0
    · by_cases hi37 : i = 37
      · subst hi37
        rw [getD_set_self s 37 c (by omega)] at h37
        simp only [hi0, if_false, if_true] at hc
        exact hc h37
      · have hh := h i (by omega) (by omega)
        rw [getD_set_self s i c (by omega)] at hh
        simp only [hi0, hi37, if_false] at hc
        by_cases hp : i = 9 ∨ i = 14 ∨ i = 19 ∨ i = 24
        · simp only [hp, if_true] at hh hc
          exact hc hh
        · simp only [hp, if_false] at hh hc
          exact hc hh

/-- C2 at the token `{01234567-89ab-cdef-0123-456789abcdef}`: accepted; rejected
once position 37 holds `)`, once position 9 holds `a`, and once position 1
holds `x`. -/
theorem C2_future_token_validator_witness :
    is_future_access_token_valid (ascii "{01234567-89ab-cdef-0123-456789abcdef}") = true ∧
    is_future_access_token_valid
      ((ascii "{01234567-89ab-cdef-0123-456789abcdef}").set 37 ')'.toNat) = false ∧
    is_future_access_token_valid
      ((ascii "{01234567-89ab-cdef-0123-456789abcdef}").set 9 'a'.toNat) = false ∧
    is_future_access_token_valid
      ((ascii "{01234567-89ab-cdef-0123-456789abcdef}").set 1 'x'.toNat) = false :=
  have hv := (C2_future_token_validator.1 _).2 (by decide)
  ⟨hv, C2_future_token_validator.2 _ 37 _ hv (by decide) (by decide),
    C2_future_token_validator.2 _ 9 _ hv (by decide) (by decide),
    C2_future_token_validator.2 _ 1 _ hv (by decide) (by decide)⟩

theorem shared_valid_length {s : hstring} (h : is_shared_access_token_valid s = true) :
    s.length = 36 :=
  ((shared_valid_iff_shape s).1 h).1

theorem future_valid_length {s : hstring} (h : is_future_access_token_valid s = true) :
    s.length = 38 :=
  ((future_valid_iff_shape s).1 h).1

/-- C3: no string passes both validators; `get_open_function` returns the
shared-access opener exactly for the strings the shared validator accepts, the
future-access opener exactly for those the future validator accepts, and
`noop_open_fn` exactly for those neither accepts; `noop_open_fn` returns
`VLC_EGENERIC` and leaves the session, the collaborators' world and the record
of collaborator calls as they were. -/
theorem C3_dispatch_follows_validators :
    (∀ s : hstring,
      ¬ (is_shared_access_token_valid s = true ∧ is_future_access_token_valid s = true)) ∧
    (∀ s : hstring,
      (get_open_function s = pf_open_t.open_file_from_shared_access_token ↔
        is_shared_access_token_valid s = true) ∧
      (get_open_function s = pf_open_t.open_file_from_future_access_token ↔
        is_future_access_token_valid s = true) ∧
      (get_open_function s = pf_open_t.noop_open_fn ↔
        (is_shared_access_token_valid s = false ∧ is_future_access_token_valid s = false))) ∧
    (∀ (W : Type) (os : OS W) (token : hstring) (st : St W),
      noop_open_fn os token st = (Except.ok VLC_EGENERIC, st)) := by
  have excl : ∀ s : hstring,
      ¬ (is_shared_access_token_valid s = true ∧ is_future_access_token_valid s = true) := by
    rintro s ⟨h1, h2⟩
    have := shared_valid_length h1
    have := future_valid_length h2
    omega
  refine ⟨excl, ?_, fun _ _ _ _ => rfl⟩
  intro s
  unfold get_open_function
  cases h1 : is_shared_access_token_valid s <;> cases h2 : is_future_access_token_valid s
  · simp
  · simp
  · simp
  · exact absurd ⟨h1, h2⟩ (excl s)

/-- C4: a string whose length is neither 36 nor 38 is rejected by both validators,
and `get_open_function` selects `noop_open_fn` for it, so neither token opener. -/
theorem C4_other_lengths_are_not_tokens (s : hstring) (h36 : s.length ≠ 36)
    (h38 : s.length ≠ 38) :
    is_shared_access_token_valid s = false ∧ is_future_access_token_valid s = false ∧
    get_open_function s = pf_open_t.noop_open_fn ∧
    get_open_function s ≠ pf_open_t.open_file_from_shared_access_token ∧
    get_open_function s ≠ pf_open_t.open_file_from_future_access_token := by
  have h1 : is_shared_access_token_valid s = false := by
    cases h : is_shared_access_token_valid s
    · rfl
    · exact absurd (shared_valid_length h) h36
  have h2 : is_future_access_token_valid s = false := by
    cases h : is_future_access_token_valid s
    · rfl
    · exact absurd (future_valid_length h) h38
  refine ⟨h1, h2, ?_⟩
  unfold get_open_function
  simp [h1, h2]

/-- C4 at the 8-character string `notaguid`. -/
theorem C4_other_lengths_are_not_tokens_witness :
    is_shared_access_token_valid (ascii "notaguid") = false ∧
    is_future_access_token_valid (ascii "notaguid") = false ∧
    get_open_function (ascii "notaguid") = pf_open_t.noop_open_fn ∧
    get_open_function (ascii "notaguid") ≠ pf_open_t.open_file_from_shared_access_token ∧
    get_open_function (ascii "notaguid") ≠ pf_open_t.open_file_from_future_access_token :=
  C4_other_lengths_are_not_tokens (ascii "notaguid") (by decide) (by decide)

/-! ## The engine, function by function -/

/-- What `St.invoke` returns, by the outcome of the collaborator. -/
theorem invoke_cases {α : Type} {s : St W} {c : OSCall} {op : W → Except hresult α × W}
    {enc : α → Nat} {r : Except Signal α} {s1 : St W} (h : s.invoke c op enc = (r, s1)) :
    s1.p_sys = s.p_sys ∧
    ((∃ a, r = .ok a ∧ op s.world = (.ok a, s1.world) ∧
        s1.trace = s.trace ++ [⟨c, .ok (enc a)⟩]) ∨
     (∃ code, r = .error (.hresult_error code) ∧ op s.world = (.error code, s1.world) ∧
        s1.trace = s.trace ++ [⟨c, .error code⟩])) := by
  unfold St.invoke at h
  split at h
  · next a w hw =>
    cases h
    exact ⟨rfl, Or.inl ⟨a, rfl, hw, rfl⟩⟩
  · next e w hw =>
    cases h
    exact ⟨rfl, Or.inr ⟨e, rfl, hw, rfl⟩⟩

theorem invoke_ok {α : Type} {s : St W} {c : OSCall} {op : W → Except hresult α × W}
    {enc : α → Nat} {a : α} {s1 : St W} (h : s.invoke c op enc = (.ok a, s1)) :
    s1.p_sys = s.p_sys ∧ s1.trace = s.trace ++ [⟨c, .ok (enc a)⟩] := by
  obtain ⟨hp, h' | h'⟩ := invoke_cases h
  · obtain ⟨a', ha, _, ht⟩ := h'
    cases ha
    exact ⟨hp, ht⟩
  · obtain ⟨_, ha, _⟩ := h'
    cases ha

theorem invoke_error {α : Type} {s : St W} {c : OSCall} {op : W → Except hresult α × W}
    {enc : α → Nat} {e : Signal} {s1 : St W} (h : s.invoke c op enc = (.error e, s1)) :
    s1.p_sys = s.p_sys ∧ ∃ code, e = .hresult_error code ∧
      s1.trace = s.trace ++ [⟨c, .error code⟩] := by
  obtain ⟨hp, h' | h'⟩ := invoke_cases h
  · obtain ⟨_, ha, _⟩ := h'
    cases ha
  · obtain ⟨code, ha, _, ht⟩ := h'
    cases ha
    exact ⟨hp, code, rfl, ht⟩

theorem lastIsError_append {ev : List Event} (pre : List Event) (h : LastIsError ev) :
    LastIsError (pre ++ ev) := by
  obtain ⟨p, c, code, rfl⟩ := h
  exact ⟨pre ++ p, c, code, by simp⟩

theorem lastIsError_single (c : OSCall) (code : hresult) : LastIsError [⟨c, .error code⟩] :=
  ⟨[], c, code, rfl⟩

/-- `set_stream`: on success both fields are replaced and the two calls are
recorded; on failure the session record is untouched. -/
theorem set_stream_cases {os : OS W} {stream : IRandomAccessStream} {s s1 : St W}
    {r : Except Signal Unit} (h : set_stream os stream s = (r, s1)) :
    (r = .ok () ∧ ∃ reader,
        s1.p_sys = { s.p_sys with read_stream := stream, data_reader := some reader } ∧
        s1.trace = s.trace ++ [⟨.DataReader_new stream, .ok reader⟩,
          ⟨.InputStreamOptions reader 3, .ok 0⟩]) ∨
    ((∃ code, r = .error (.hresult_error code)) ∧ s1.p_sys = s.p_sys ∧
      ∃ ev, s1.trace = s.trace ++ ev ∧ FailedQuietly ev ∧ reattach_attempts ev = 0) := by
  unfold set_stream at h
  split at h
  · next e s' h1 =>
    cases h
    obtain ⟨hp, code, rfl, ht⟩ := invoke_error h1
    exact Or.inr ⟨⟨code, rfl⟩, hp, _, ht, ⟨lastIsError_single _ _, rfl, rfl⟩, rfl⟩
  · next reader s' h1 =>
    obtain ⟨hp, ht⟩ := invoke_ok h1
    simp only at h
    split at h
    · next e s'' h2 =>
      cases h
      obtain ⟨hp2, code, rfl, ht2⟩ := invoke_error h2
      refine Or.inr ⟨⟨code, rfl⟩, hp2.trans hp,
        [⟨.DataReader_new stream, .ok reader⟩, ⟨.InputStreamOptions reader 3, .error code⟩],
        ?_, ⟨⟨[⟨.DataReader_new stream, .ok reader⟩], .InputStreamOptions reader 3, code, rfl⟩,
          rfl, rfl⟩, rfl⟩
      rw [ht2, ht, List.append_assoc]; rfl
    · next u s'' h2 =>
      cases h
      obtain ⟨hp2, ht2⟩ := invoke_ok h2
      refine Or.inl ⟨rfl, reader, ?_, ?_⟩
      · simp only [hp2, hp]
      · rw [ht2, ht, List.append_assoc]; rfl



theorem failedQuietly_append {ev : List Event} (pre : List Event) (h : FailedQuietly ev)
    (h1 : loads pre = 0) (h2 : queries pre = 0) : FailedQuietly (pre ++ ev) := by
  obtain ⟨a, b, c⟩ := h
  refine ⟨lastIsError_append pre a, ?_, ?_⟩
  · unfold loads at *; rw [List.countP_append, h1, b]
  · unfold queries at *; rw [List.countP_append, h2, c]

/-- `open_file_from_path`: it returns a status and never throws; on success the
stream handle and reader are the new ones and four calls are recorded; on
failure the session record is untouched. Either way it makes one reattachment
attempt and no load. -/
theorem open_file_from_path_cases {os : OS W} {path : hstring} {s s1 : St W}
    {r : Except Signal Int} (h : open_file_from_path os path s = (r, s1)) :
    (r = .ok VLC_SUCCESS ∧ ∃ file stream reader,
        s1.p_sys = { s.p_sys with read_stream := some stream, data_reader := some reader } ∧
        s1.trace = s.trace ++ [⟨.GetFileFromPathAsync path, .ok file⟩,
          ⟨.OpenReadAsync file, .ok stream⟩, ⟨.DataReader_new (some stream), .ok reader⟩,
          ⟨.InputStreamOptions reader 3, .ok 0⟩]) ∨
    (r = .ok VLC_EGENERIC ∧ s1.p_sys = s.p_sys ∧
      ∃ ev, s1.trace = s.trace ++ ev ∧ FailedQuietly ev ∧ reattach_attempts ev = 1) := by
  unfold open_file_from_path at h
  unfold open_file_from_path_async at h
  split at h
  · next u s' h0 =>
    cases h
    split at h0
    · next e s2 h1 => cases h0
    · next file s2 h1 =>
      obtain ⟨hp1, ht1⟩ := invoke_ok h1
      split at h0
      · next e s3 h2 => cases h0
      · next stream s3 h2 =>
        obtain ⟨hp2, ht2⟩ := invoke_ok h2
        rcases set_stream_cases h0 with ⟨_, reader, hp3, ht3⟩ | ⟨⟨code, hc⟩, _⟩
        · refine Or.inl ⟨rfl, file, stream, reader, ?_, ?_⟩
          · rw [hp3, hp2, hp1]
          · rw [ht3, ht2, ht1]; simp [id]
        · cases hc
  · next code s' h0 =>
    cases h
    refine Or.inr ⟨rfl, ?_⟩
    split at h0
    · next e s2 h1 =>
      cases h0
      obtain ⟨hp1, code', _, ht1⟩ := invoke_error h1
      exact ⟨hp1, _, ht1, ⟨lastIsError_single _ _, rfl, rfl⟩, rfl⟩
    · next file s2 h1 =>
      obtain ⟨hp1, ht1⟩ := invoke_ok h1
      split at h0
      · next e s3 h2 =>
        cases h0
        obtain ⟨hp2, code', _, ht2⟩ := invoke_error h2
        refine ⟨hp2.trans hp1, [⟨.GetFileFromPathAsync path, .ok file⟩,
          ⟨.OpenReadAsync file, .error code'⟩], ?_, ⟨⟨[_], _, _, rfl⟩, rfl, rfl⟩, rfl⟩
        rw [ht2, ht1, List.append_assoc]; rfl
      · next stream s3 h2 =>
        obtain ⟨hp2, ht2⟩ := invoke_ok h2
        rcases set_stream_cases h0 with ⟨hc, _⟩ | ⟨_, hp3, ev, ht3, hq, hr⟩
        · cases hc
        · refine ⟨hp3.trans (hp2.trans hp1), [⟨.GetFileFromPathAsync path, .ok file⟩,
            ⟨.OpenReadAsync file, .ok stream⟩] ++ ev, ?_,
            failedQuietly_append [⟨.GetFileFromPathAsync path, .ok file⟩,
              ⟨.OpenReadAsync file, .ok stream⟩] hq rfl rfl, ?_⟩
          · rw [ht3, ht2, ht1]; simp [id]
          · unfold reattach_attempts at *
            rw [List.countP_append, hr]; rfl
  · next e s' hne h0 =>
    exfalso
    split at h0
    · next e' s2 h1 =>
      cases h0
      obtain ⟨_, code', hc, _⟩ := invoke_error h1
      exact hne code' (by rw [hc])
    · next file s2 h1 =>
      split at h0
      · next e' s3 h2 =>
        cases h0
        obtain ⟨_, code', hc, _⟩ := invoke_error h2
        exact hne code' (by rw [hc])
      · next stream s3 h2 =>
        rcases set_stream_cases h0 with ⟨hc, _⟩ | ⟨⟨code', hc⟩, _⟩
        · cases hc
        · cases hc
          exact hne code' rfl

/-- `position_ge_size`: the session record is never changed; the result is the
comparison of the two values queried, a throw of one of the queries, or an
access violation when the stream reference is null. -/
theorem position_ge_size_cases {os : OS W} {s s1 : St W} {r : Except Signal Bool}
    (h : position_ge_size os s = (r, s1)) :
    s1.p_sys = s.p_sys ∧
    ((∃ st p z, s.p_sys.read_stream = some st ∧ r = .ok (decide (p ≥ z)) ∧
        s1.trace = s.trace ++ [⟨.Position st, .ok p⟩, ⟨.Size st, .ok z⟩]) ∨
     (∃ code, r = .error (.hresult_error code) ∧ s.p_sys.read_stream ≠ none ∧
        ∃ ev, s1.trace = s.trace ++ ev ∧ LastIsError ev ∧ loads ev = 0 ∧
          reattach_attempts ev = 0 ∧ 1 ≤ queries ev) ∨
     (r = .error .access_violation ∧ s.p_sys.read_stream = none ∧ s1 = s)) := by
  unfold position_ge_size at h
  split at h
  · next hn =>
    cases h
    exact ⟨rfl, Or.inr (Or.inr ⟨rfl, hn, rfl⟩)⟩
  · next st hs =>
    split at h
    · next e s' h1 =>
      cases h
      obtain ⟨hp1, code, rfl, ht1⟩ := invoke_error h1
      refine ⟨hp1, Or.inr (Or.inl ⟨code, rfl, by rw [hs]; simp, _, ht1,
        lastIsError_single _ _, rfl, rfl, ?_⟩)⟩
      exact Nat.le_refl 1
    · next pos s' h1 =>
      obtain ⟨hp1, ht1⟩ := invoke_ok h1
      split at h
      · next e s'' h2 =>
        cases h
        obtain ⟨hp2, code, rfl, ht2⟩ := invoke_error h2
        refine ⟨hp2.trans hp1, Or.inr (Or.inl ⟨code, rfl, by rw [hs]; simp,
          [⟨.Position st, .ok pos.val⟩, ⟨.Size st, .error code⟩], ?_,
          ⟨[⟨.Position st, .ok pos.val⟩], _, _, rfl⟩, rfl, rfl, ?_⟩)⟩
        · rw [ht2, ht1, List.append_assoc]; rfl
        · exact Nat.le_succ 1
      · next size s'' h2 =>
        cases h
        obtain ⟨hp2, ht2⟩ := invoke_ok h2
        refine ⟨hp2.trans hp1, Or.inl ⟨st, pos.val, size.val, hs, rfl, ?_⟩⟩
        rw [ht2, ht1, List.append_assoc]; rfl

/-- `read_async`: the session record is never changed; the result is the number
of bytes loaded (a `uint32_t`) after a load and a copy-out that did not throw,
a throw of one of the two, or an access violation when the reader reference is
null. -/
theorem read_async_cases {os : OS W} {reader : DataReader} {count : Nat} {s s1 : St W}
    {r : Except Signal Nat} (h : read_async os reader count s = (r, s1)) :
    s1.p_sys = s.p_sys ∧
    ((∃ rd n, reader = some rd ∧ n < 2 ^ 32 ∧ r = .ok n ∧
        s1.trace = s.trace ++ [⟨.LoadAsync rd count, .ok n⟩, ⟨.ReadBytes rd n, .ok 0⟩]) ∨
     (∃ code, r = .error (.hresult_error code) ∧ reader ≠ none ∧
        ∃ ev, s1.trace = s.trace ++ ev ∧ LastIsError ev ∧ loads ev = 1 ∧
          reattach_attempts ev = 0 ∧ queries ev = 0) ∨
     (r = .error .access_violation ∧ reader = none ∧ s1 = s)) := by
  unfold read_async at h
  split at h
  · cases h
    exact ⟨rfl, Or.inr (Or.inr ⟨rfl, rfl, rfl⟩)⟩
  · next rd =>
    split at h
    · next e s' h1 =>
      cases h
      obtain ⟨hp1, code, rfl, ht1⟩ := invoke_error h1
      exact ⟨hp1, Or.inr (Or.inl ⟨code, rfl, by simp, _, ht1,
        lastIsError_single _ _, rfl, rfl, rfl⟩)⟩
    · next n s' h1 =>
      obtain ⟨hp1, ht1⟩ := invoke_ok h1
      split at h
      · next e s'' h2 =>
        cases h
        obtain ⟨hp2, code, rfl, ht2⟩ := invoke_error h2
        refine ⟨hp2.trans hp1, Or.inr (Or.inl ⟨code, rfl, by simp,
          [⟨.LoadAsync rd count, .ok n.val⟩, ⟨.ReadBytes rd n.val, .error code⟩], ?_,
          ⟨[⟨.LoadAsync rd count, .ok n.val⟩], _, _, rfl⟩, rfl, rfl, rfl⟩)⟩
        rw [ht2, ht1, List.append_assoc]; rfl
      · next u s'' h2 =>
        cases h
        obtain ⟨hp2, ht2⟩ := invoke_ok h2
        refine ⟨hp2.trans hp1, Or.inl ⟨rd, n.val, rfl, n.isLt, rfl, ?_⟩⟩
        rw [ht2, ht1, List.append_assoc]; rfl

/-- `seek`, by the step that stops it. Success: the clone and a new reader are
installed, `i_pos` is the position asked for and `b_eof` is recomputed. A throw
of the clone, the reposition or the reader construction: `VLC_EGENERIC`, session
record untouched. A throw of the position or size query: `VLC_EGENERIC`, but
the clone and the new reader are installed already and `i_pos` is the position
asked for. A null stream reference: access violation. -/
theorem seek_cases {os : OS W} {position : Nat} {s s1 : St W} {r : Except Signal Int}
    (h : seek os position s = (r, s1)) :
    (r = .ok VLC_SUCCESS ∧ ∃ st c rd p z, s.p_sys.read_stream = some st ∧
        s1.p_sys = { read_stream := some c, data_reader := some rd, i_pos := position,
                     retries := s.p_sys.retries, b_eof := decide (p ≥ z) } ∧
        s1.trace = s.trace ++ [⟨.CloneStream st, .ok c⟩, ⟨.Seek c position, .ok 0⟩,
          ⟨.DataReader_new (some c), .ok rd⟩, ⟨.InputStreamOptions rd 3, .ok 0⟩,
          ⟨.Position c, .ok p⟩, ⟨.Size c, .ok z⟩]) ∨
    (r = .ok VLC_EGENERIC ∧ s.p_sys.read_stream ≠ none ∧ s1.p_sys = s.p_sys ∧
      ∃ ev, s1.trace = s.trace ++ ev ∧ FailedQuietly ev ∧ reattach_attempts ev = 0) ∨
    (r = .ok VLC_EGENERIC ∧ s.p_sys.read_stream ≠ none ∧ (∃ c rd, s1.p_sys =
        { s.p_sys with read_stream := some c, data_reader := some rd, i_pos := position }) ∧
      ∃ ev, s1.trace = s.trace ++ ev ∧ LastIsError ev ∧ loads ev = 0 ∧
        reattach_attempts ev = 0 ∧ 1 ≤ queries ev) ∨
    (r = .error .access_violation ∧ s.p_sys.read_stream = none ∧ s1 = s) := by
  unfold seek at h
  rcases h0 : seek_try os position s with ⟨r0, s0⟩
  rw [h0] at h
  unfold seek_try at h0
  split at h0
  · next hn =>
    cases h0
    cases h
    exact Or.inr (Or.inr (Or.inr ⟨rfl, hn, rfl⟩))
  · next st hs =>
    have hsn : s.p_sys.read_stream ≠ none := by rw [hs]; simp
    split at h0
    · next e s' h1 =>
      cases h0
      obtain ⟨hp1, code, rfl, ht1⟩ := invoke_error h1
      cases h
      exact Or.inr (Or.inl ⟨rfl, hsn, hp1, _, ht1, ⟨lastIsError_single _ _, rfl, rfl⟩, rfl⟩)
    · next c s' h1 =>
      obtain ⟨hp1, ht1⟩ := invoke_ok h1
      split at h0
      · next e s'' h2 =>
        cases h0
        obtain ⟨hp2, code, rfl, ht2⟩ := invoke_error h2
        cases h
        refine Or.inr (Or.inl ⟨rfl, hsn, hp2.trans hp1,
          [⟨.CloneStream st, .ok c⟩, ⟨.Seek c position, .error code⟩], ?_,
          ⟨⟨[⟨.CloneStream st, .ok c⟩], _, _, rfl⟩, rfl, rfl⟩, rfl⟩)
        rw [ht2, ht1, List.append_assoc]; rfl
      · next u s'' h2 =>
        obtain ⟨hp2, ht2⟩ := invoke_ok h2
        split at h0
        · next e s3 h3 =>
          cases h0
          rcases set_stream_cases h3 with ⟨hc, _⟩ | ⟨⟨code, hc⟩, hp3, ev, ht3, hq, hr⟩
          · cases hc
          · cases hc
            cases h
            refine Or.inr (Or.inl ⟨rfl, hsn, hp3.trans (hp2.trans hp1),
              [⟨.CloneStream st, .ok c⟩, ⟨.Seek c position, .ok 0⟩] ++ ev, ?_,
              failedQuietly_append [⟨.CloneStream st, .ok c⟩, ⟨.Seek c position, .ok 0⟩] hq
                rfl rfl, ?_⟩)
            · rw [ht3, ht2, ht1]; simp [id]
            · unfold reattach_attempts at *
              rw [List.countP_append, hr]; rfl
        · next u' s3 h3 =>
          rcases set_stream_cases h3 with ⟨_, rd, hp3, ht3⟩ | ⟨⟨code, hc⟩, _⟩
          · simp only at h0
            split at h0
            · next e s5 h4 =>
              cases h0
              obtain ⟨hp4, hq⟩ := position_ge_size_cases h4
              rcases hq with ⟨_, _, _, _, hc, _⟩ | ⟨code, hc, _, ev, ht4, hl, h5, h6, h7⟩ |
                ⟨_, hnone, _⟩
              · cases hc
              · cases hc
                cases h
                refine Or.inr (Or.inr (Or.inl ⟨rfl, hsn, ⟨c, rd, ?_⟩,
                  [⟨.CloneStream st, .ok c⟩, ⟨.Seek c position, .ok 0⟩,
                    ⟨.DataReader_new (some c), .ok rd⟩, ⟨.InputStreamOptions rd 3, .ok 0⟩] ++ ev,
                  ?_, lastIsError_append _ hl, ?_, ?_, ?_⟩))
                · rw [hp4]; simp only [hp3, hp2, hp1]
                · rw [ht4]; simp only [ht3, ht2, ht1]; simp [id]
                · unfold loads at *
                  rw [List.countP_append, h5]; rfl
                · unfold reattach_attempts at *
                  rw [List.countP_append, h6]; rfl
                · unfold queries at *
                  rw [List.countP_append]; omega
              · simp only [hp3] at hnone
                cases hnone
            · next b s5 h4 =>
              cases h0
              cases h
              obtain ⟨hp4, hq⟩ := position_ge_size_cases h4
              rcases hq with ⟨st', p, z, hst, hc, ht4⟩ | ⟨code, hc, _⟩ | ⟨hc, _⟩
              · cases hc
                simp only [hp3] at hst
                cases hst
                refine Or.inl ⟨rfl, st, c, rd, p, z, hs, ?_, ?_⟩
                · simp only [hp4, hp3, hp2, hp1]
                · simp only [ht4, ht3, ht2, ht1]; simp [id]
              · cases hc
              · cases hc
          · cases hc

/-! ## Runs in which the collaborators are stubbed to succeed or to go stale -/

theorem invoke_fst_ok {α : Type} (s : St W) (c : OSCall) {op : W → Except hresult α × W}
    (enc : α → Nat) {a : α} (h : (op s.world).1 = .ok a) : (s.invoke c op enc).1 = .ok a := by
  unfold St.invoke
  rcases hw : op s.world with ⟨r, w⟩
  rw [hw] at h
  simp only at h
  subst h
  rfl

theorem invoke_fst_error {α : Type} (s : St W) (c : OSCall) {op : W → Except hresult α × W}
    (enc : α → Nat) {code : hresult} (h : (op s.world).1 = .error code) :
    (s.invoke c op enc).1 = .error (.hresult_error code) := by
  unfold St.invoke
  rcases hw : op s.world with ⟨r, w⟩
  rw [hw] at h
  simp only at h
  subst h
  rfl

theorem set_stream_succeeds {os : OS W} (hb : ReaderAlwaysBuilt os)
    (stream : IRandomAccessStream) (s : St W) : (set_stream os stream s).1 = .ok () := by
  unfold set_stream
  obtain ⟨reader, hr⟩ := hb.1 stream s.world
  have h1 := invoke_fst_ok s (.DataReader_new stream) id hr
  rcases hx : s.invoke (.DataReader_new stream) (os.DataReader_new stream) id with ⟨r1, s1⟩
  rw [hx] at h1
  simp only at h1
  subst h1
  simp only
  have h2 := invoke_fst_ok s1 (.InputStreamOptions reader 3) (fun _ => 0) (hb.2 reader 3 s1.world)
  rcases hy : s1.invoke (.InputStreamOptions reader 3) (os.InputStreamOptions reader 3)
    (fun _ => 0) with ⟨r2, s2⟩
  rw [hy] at h2
  simp only at h2
  subst h2
  have e3 : InputStreamOptions_Partial ||| InputStreamOptions_ReadAhead = 3 := rfl
  rw [e3, hy]

theorem open_file_from_path_succeeds {os : OS W} (hr : ReattachAlwaysSucceeds os)
    (path : hstring) (s : St W) : (open_file_from_path os path s).1 = .ok VLC_SUCCESS := by
  unfold open_file_from_path open_file_from_path_async
  obtain ⟨file, hf⟩ := hr.1 path s.world
  have h1 := invoke_fst_ok s (.GetFileFromPathAsync path) id hf
  rcases hx : s.invoke (.GetFileFromPathAsync path) (os.GetFileFromPathAsync path) id
    with ⟨r1, s1⟩
  rw [hx] at h1
  simp only at h1
  subst h1
  simp only
  obtain ⟨stream, hst⟩ := hr.2.1 file s1.world
  have h2 := invoke_fst_ok s1 (.OpenReadAsync file) id hst
  rcases hy : s1.invoke (.OpenReadAsync file) (os.OpenReadAsync file) id with ⟨r2, s2⟩
  rw [hy] at h2
  simp only at h2
  subst h2
  simp only
  have h3 := set_stream_succeeds hr.2.2 (some stream) s2
  rcases hz : set_stream os (some stream) s2 with ⟨r3, s3⟩
  rw [hz] at h3
  simp only at h3
  subst h3
  rfl

theorem position_ge_size_succeeds {os : OS W} (hs : ReseekAlwaysSucceeds os) (s : St W)
    (hn : s.p_sys.read_stream ≠ none) : ∃ b, (position_ge_size os s).1 = .ok b := by
  unfold position_ge_size
  rcases hst : s.p_sys.read_stream with _ | st
  · exact absurd hst hn
  · simp only
    obtain ⟨p, hp⟩ := hs.2.2.2.1 st s.world
    have h1 := invoke_fst_ok s (.Position st) Fin.val hp
    rcases hx : s.invoke (.Position st) (os.Position st) Fin.val with ⟨r1, s1⟩
    rw [hx] at h1
    simp only at h1
    subst h1
    simp only
    obtain ⟨z, hz⟩ := hs.2.2.2.2 st s1.world
    have h2 := invoke_fst_ok s1 (.Size st) Fin.val hz
    rcases hy : s1.invoke (.Size st) (os.Size st) Fin.val with ⟨r2, s2⟩
    rw [hy] at h2
    simp only at h2
    subst h2
    exact ⟨_, rfl⟩

theorem seek_succeeds {os : OS W} (hs : ReseekAlwaysSucceeds os) (position : Nat) (s : St W)
    (hn : s.p_sys.read_stream ≠ none) : (seek os position s).1 = .ok VLC_SUCCESS := by
  unfold seek seek_try
  rcases hst : s.p_sys.read_stream with _ | st
  · exact absurd hst hn
  · simp only
    obtain ⟨c, hc⟩ := hs.1 st s.world
    have h1 := invoke_fst_ok s (.CloneStream st) id hc
    rcases hx : s.invoke (.CloneStream st) (os.CloneStream st) id with ⟨r1, s1⟩
    rw [hx] at h1
    simp only at h1
    subst h1
    simp only
    have h2 := invoke_fst_ok s1 (.Seek c position) (fun _ => 0) (hs.2.1 c position s1.world)
    rcases hy : s1.invoke (.Seek c position) (os.Seek c position) (fun _ => 0) with ⟨r2, s2⟩
    rw [hy] at h2
    simp only at h2
    subst h2
    simp only
    have h3 := set_stream_succeeds hs.2.2.1 (some c) s2
    rcases hz : set_stream os (some c) s2 with ⟨r3, s3⟩
    rw [hz] at h3
    simp only at h3
    subst h3
    simp only
    have hp3 : s3.p_sys.read_stream = some c := by
      rcases set_stream_cases hz with ⟨_, rd, hp, _⟩ | ⟨⟨code, hcode⟩, _⟩
      · rw [hp]
      · cases hcode
    obtain ⟨b, hb⟩ := position_ge_size_succeeds hs
      { s3 with p_sys := { s3.p_sys with i_pos := position } } (by simp [hp3])
    rcases hq : position_ge_size os { s3 with p_sys := { s3.p_sys with i_pos := position } }
      with ⟨r4, s4⟩
    rw [hq] at hb
    simp only at hb
    subst hb
    rfl

theorem read_async_stale {os : OS W} (hl : LoadsAlwaysStale os) (reader : DataReader)
    (count : Nat) (s : St W) (hn : reader ≠ none) :
    (read_async os reader count s).1 = .error (.hresult_error STALE_HANDLE) := by
  unfold read_async
  rcases reader with _ | rd
  · exact absurd rfl hn
  · simp only
    have h1 := invoke_fst_error s (.LoadAsync rd count) Fin.val (hl rd count s.world)
    rcases hx : s.invoke (.LoadAsync rd count) (os.LoadAsync rd count) Fin.val with ⟨r1, s1⟩
    rw [hx] at h1
    simp only at h1
    subst h1
    rfl

theorem loads_append (a b : List Event) : loads (a ++ b) = loads a + loads b := by
  unfold loads; exact List.countP_append _ _ _

theorem reattach_attempts_append (a b : List Event) :
    reattach_attempts (a ++ b) = reattach_attempts a + reattach_attempts b := by
  unfold reattach_attempts; exact List.countP_append _ _ _

theorem queries_append (a b : List Event) : queries (a ++ b) = queries a + queries b := by
  unfold queries; exact List.countP_append _ _ _

/-! ## The paths of `read` -/

/-- Null buffer (lines 253-258). -/
theorem read_null (os : OS W) (access : stream_t) (size : Nat) (s : St W) :
    read os access none size s =
      match seek os size s with
      | (.error e, s1) => (.error e, s1)
      | (.ok r, s1) => if r = VLC_SUCCESS then (.ok (to_ssize_t size), s1) else (.ok 0, s1) := by
  rw [read]

/-- The load succeeded (lines 284-291). -/
theorem read_loaded {os : OS W} {access : stream_t} {b size : Nat} {s s1 : St W} {n : Nat}
    (h1 : read_async os s.p_sys.data_reader (size % 2 ^ 32) s = (.ok n, s1)) :
    read os access (some b) size s =
      match position_ge_size os { s1 with p_sys :=
          { s1.p_sys with i_pos := (s1.p_sys.i_pos + n) % 2 ^ 64 } } with
      | (.error e, s3) => (.error e, s3)
      | (.ok eof, s3) =>
        (.ok (n : Int), { s3 with p_sys := { s3.p_sys with b_eof := eof, retries := 0 } }) := by
  rw [read]
  split
  · next n' s1' h1' =>
    rw [h1] at h1'
    cases h1'
    rfl
  · next s1' h1' => rw [h1] at h1'; cases h1'
  · next code s1' h1' => rw [h1] at h1'; cases h1'

/-- The reader reference is null. -/
theorem read_access_violation {os : OS W} {access : stream_t} {b size : Nat} {s s1 : St W}
    (h1 : read_async os s.p_sys.data_reader (size % 2 ^ 32) s
      = (.error .access_violation, s1)) :
    read os access (some b) size s = (.error .access_violation, s1) := by
  rw [read]
  split
  · next n' s1' h1' => rw [h1] at h1'; cases h1'
  · next s1' h1' => rw [h1] at h1'; cases h1'; rfl
  · next code s1' h1' => rw [h1] at h1'; cases h1'

/-- The load threw an error other than the stale-handle one (lines 272, 281). -/
theorem read_other_error {os : OS W} {access : stream_t} {b size : Nat} {s s1 : St W}
    {code : hresult}
    (h1 : read_async os s.p_sys.data_reader (size % 2 ^ 32) s
      = (.error (.hresult_error code), s1))
    (hc : code ≠ STALE_HANDLE) :
    read os access (some b) size s = (.ok 0, s1) := by
  rw [read]
  split
  · next n' s1' h1' => rw [h1] at h1'; cases h1'
  · next s1' h1' => rw [h1] at h1'; cases h1'
  · next code' s1' h1' =>
    rw [h1] at h1'
    cases h1'
    have hc' : ¬ code = HRESULT_FROM_WIN32 ERROR_OPLOCK_HANDLE_CLOSED := hc
    rw [if_neg hc']

/-- The load threw the stale-handle error (lines 272-281). -/
theorem read_stale {os : OS W} {access : stream_t} {b size : Nat} {s s1 : St W}
    (h1 : read_async os s.p_sys.data_reader (size % 2 ^ 32) s
      = (.error (.hresult_error STALE_HANDLE), s1)) :
    read os access (some b) size s =
      match open_file_from_path os (to_hstring access.psz_location) s1 with
      | (.error e, s2) => (.error e, s2)
      | (.ok r1, s2) =>
        if r1 = VLC_SUCCESS then
          match seek os s2.p_sys.i_pos s2 with
          | (.error e, s3) => (.error e, s3)
          | (.ok r2, s3) =>
            if r2 = VLC_SUCCESS then
              if s3.p_sys.retries < 3 then
                read os access (some b) size
                  { s3 with p_sys :=
                    { s3.p_sys with retries := (s3.p_sys.retries + 1) % 2 ^ 32 } }
              else (.ok 0, s3)
            else (.ok 0, s3)
        else (.ok 0, s2) := by
  rw [read]
  split
  · next n' s1' h1' => rw [h1] at h1'; cases h1'
  · next s1' h1' => rw [h1] at h1'; cases h1'
  · next code' s1' h1' =>
    rw [h1] at h1'
    cases h1'
    have hc : STALE_HANDLE = HRESULT_FROM_WIN32 ERROR_OPLOCK_HANDLE_CLOSED := rfl
    rw [if_pos hc]
    split
    · next e s2 h2 => rw [h2]
    · next r1 s2 h2 =>
      rw [h2]
      simp only
      split
      · next hr1 =>
        split
        · next e s3 h3 => rw [h3]
        · next r2 s3 h3 =>
          rw [h3]
          simp only
          split
          · split
            · rfl
            · rfl
          · rfl
      · rfl

theorem VLC_SUCCESS_ne_EGENERIC : VLC_SUCCESS ≠ VLC_EGENERIC := by decide

/-- One round of `read` when every load goes stale and every reattachment and
reseek succeeds: one load, one reattachment attempt, then either the recursive
call with `retries + 1` or, at the ceiling, the result 0. -/
theorem read_stale_round {os : OS W} (hl : LoadsAlwaysStale os)
    (hr : ReattachAlwaysSucceeds os) (hs : ReseekAlwaysSucceeds os) (access : stream_t)
    (b : Nat) (size : Nat) (s : St W) (hd : s.p_sys.data_reader ≠ none) :
    ∃ s3 : St W,
      read os access (some b) size s =
        (if s3.p_sys.retries < 3 then
          read os access (some b) size
            { s3 with p_sys := { s3.p_sys with retries := (s3.p_sys.retries + 1) % 2 ^ 32 } }
         else (.ok 0, s3)) ∧
      s3.p_sys.retries = s.p_sys.retries ∧ s3.p_sys.i_pos = s.p_sys.i_pos ∧
      s3.p_sys.data_reader ≠ none ∧
      loads s3.trace = loads s.trace + 1 ∧
      reattach_attempts s3.trace = reattach_attempts s.trace + 1 := by
  rcases h1 : read_async os s.p_sys.data_reader (size % 2 ^ 32) s with ⟨r1, s1⟩
  have e1 := read_async_stale hl s.p_sys.data_reader (size % 2 ^ 32) s hd
  rw [h1] at e1
  simp only at e1
  subst e1
  obtain ⟨hp1, hcase⟩ := read_async_cases h1
  rcases hcase with ⟨_, _, _, _, hc, _⟩ | ⟨code, _, _, ev1, ht1, _, hl1, hr1, _⟩ | ⟨hc, _⟩
  · cases hc
  · rcases h2 : open_file_from_path os (to_hstring access.psz_location) s1 with ⟨r2, s2⟩
    have e2 := open_file_from_path_succeeds hr (to_hstring access.psz_location) s1
    rw [h2] at e2
    simp only at e2
    subst e2
    rcases open_file_from_path_cases h2 with ⟨_, file, stream, reader, hp2, ht2⟩ | ⟨hc, _⟩
    · have hst2 : s2.p_sys.read_stream ≠ none := by rw [hp2]; simp
      rcases h3 : seek os s2.p_sys.i_pos s2 with ⟨r3, s3⟩
      have e3 := seek_succeeds hs s2.p_sys.i_pos s2 hst2
      rw [h3] at e3
      simp only at e3
      subst e3
      rcases seek_cases h3 with ⟨_, st, c, rd, p, z, _, hp3, ht3⟩ | ⟨hc, _⟩ | ⟨hc, _⟩ | ⟨hc, _⟩
      · refine ⟨s3, ?_, ?_, ?_, ?_, ?_, ?_⟩
        · rw [read_stale h1, h2]
          simp only [if_true]
          rw [h3]
          simp only [if_true]
        · rw [hp3]; simp only [hp2, hp1]
        · rw [hp3]; simp only [hp2, hp1]
        · rw [hp3]; simp
        · rw [ht3, ht2, ht1]
          simp only [loads_append, hl1]
          rfl
        · rw [ht3, ht2, ht1]
          simp only [reattach_attempts_append, hr1]
          rfl
      · exact absurd (Except.ok.inj hc) VLC_SUCCESS_ne_EGENERIC
      · exact absurd (Except.ok.inj hc) VLC_SUCCESS_ne_EGENERIC
      · cases hc
    · exact absurd (Except.ok.inj hc) VLC_SUCCESS_ne_EGENERIC
  · cases hc

/-- One read call when every load goes stale and every reattachment and reseek
succeeds: with `n = 3 - retries` retried loads left it makes `n + 1` loads and
`n + 1` reattachment attempts, returns 0, and leaves `i_pos` alone. -/
theorem read_under_stale_loads {os : OS W} (hl : LoadsAlwaysStale os)
    (hr : ReattachAlwaysSucceeds os) (hs : ReseekAlwaysSucceeds os) (access : stream_t)
    (b : Nat) (size : Nat) :
    ∀ (n : Nat) (s : St W), 3 - s.p_sys.retries = n → s.p_sys.data_reader ≠ none →
      ∃ s' : St W, read os access (some b) size s = (.ok 0, s') ∧
        loads s'.trace = loads s.trace + (n + 1) ∧
        reattach_attempts s'.trace = reattach_attempts s.trace + (n + 1) ∧
        s'.p_sys.retries = s.p_sys.retries + n ∧
        s'.p_sys.i_pos = s.p_sys.i_pos := by
  intro n
  induction n with
  | zero =>
    intro s hn hd
    obtain ⟨s3, he, hr3, hi3, _, hl3, ha3⟩ := read_stale_round hl hr hs access b size s hd
    have hlt : ¬ s3.p_sys.retries < 3 := by omega
    rw [if_neg hlt] at he
    exact ⟨s3, he, hl3, ha3, hr3, hi3⟩
  | succ n ih =>
    intro s hn hd
    obtain ⟨s3, he, hr3, hi3, hd3, hl3, ha3⟩ := read_stale_round hl hr hs access b size s hd
    have hlt : s3.p_sys.retries < 3 := by omega
    rw [if_pos hlt] at he
    have hmod : (s3.p_sys.retries + 1) % 2 ^ 32 = s3.p_sys.retries + 1 :=
      Nat.mod_eq_of_lt (by omega)
    rw [hmod] at he
    obtain ⟨s', he', hl', ha', hr', hi'⟩ := ih
      { s3 with p_sys := { s3.p_sys with retries := s3.p_sys.retries + 1 } }
      (by simp only; omega) hd3
    refine ⟨s', he.trans he', ?_, ?_, ?_, ?_⟩
    · rw [hl']; simp only; omega
    · rw [ha']; simp only; omega
    · rw [hr']; simp only; omega
    · rw [hi']; exact hi3

/-! ## The retry counter -/

theorem control_p_sys (os : OS W) (query : stream_query) (s : St W) :
    (control os query s).2.p_sys = s.p_sys := by
  unfold control
  split
  · rfl
  · rfl
  · rfl
  · rfl
  · rfl
  · rfl
  · split
    · rfl
    · split
      · next h => exact invoke_p_sys h
      · next h => exact invoke_p_sys h
  · rfl

theorem token_opener_retries {os : OS W} {token : hstring} {s s1 : St W}
    {r : Except Signal Int}
    (h : open_file_from_future_access_token os token s = (r, s1) ∨
      open_file_from_shared_access_token os token s = (r, s1)) :
    s1.p_sys.retries = s.p_sys.retries := by
  rcases h with h | h
  · unfold open_file_from_future_access_token open_file_from_future_access_token_async at h
    split at h
    · next hx =>
      cases h
      split at hx
      · next h1 => cases hx; rw [invoke_p_sys h1]
      · next h1 => rw [invoke_p_sys hx, invoke_p_sys h1]
    · next hx =>
      cases h
      split at hx
      · next h1 => cases hx; rw [invoke_p_sys h1]
      · next h1 => rw [invoke_p_sys hx, invoke_p_sys h1]
    · next hx =>
      split at hx
      · next h1 => cases hx
      · next h1 =>
        have e1 := (invoke_p_sys hx).trans (invoke_p_sys h1)
        split at h <;> next h2 => cases h; rw [set_stream_retries h2, e1]
  · unfold open_file_from_shared_access_token open_file_from_shared_access_token_async at h
    split at h
    · next hx =>
      cases h
      split at hx
      · next h1 => cases hx; rw [invoke_p_sys h1]
      · next h1 => rw [invoke_p_sys hx, invoke_p_sys h1]
    · next hx =>
      cases h
      split at hx
      · next h1 => cases hx; rw [invoke_p_sys h1]
      · next h1 => rw [invoke_p_sys hx, invoke_p_sys h1]
    · next hx =>
      split at hx
      · next h1 => cases hx
      · next h1 =>
        have e1 := (invoke_p_sys hx).trans (invoke_p_sys h1)
        split at h <;> next h2 => cases h; rw [set_stream_retries h2, e1]

theorem call_pf_open_retries {os : OS W} {pf : pf_open_t} {token : hstring} {s s1 : St W}
    {r : Except Signal Int} (h : call_pf_open pf os token s = (r, s1)) :
    s1.p_sys.retries = s.p_sys.retries := by
  unfold call_pf_open at h
  cases pf
  · exact token_opener_retries (Or.inr h)
  · exact token_opener_retries (Or.inl h)
  · exact open_file_from_path_retries h
  · simp only [noop_open_fn] at h
    cases h
    rfl

/-- The session a successful `Open` leaves has a retry counter of 0. -/
theorem Open_success_retries {os : OS W} {m m1 : Machine W} {sys : access_sys_t}
    (h : Open os m = (.ok VLC_SUCCESS, m1)) (hs : m1.p_sys = some sys) : sys.retries = 0 := by
  unfold Open at h
  split at h
  · cases h
  · split at h
    · cases h
    · split at h
      · cases h
      · split at h
        · cases h
        · next r s1 hc =>
          split at h
          · simp only at h
            split at h
            · cases h
            · cases h
          · cases h
            simp only [Option.some.injEq] at hs
            subst hs
            rw [call_pf_open_retries hc]
            rfl

/-- `read` keeps the retry counter at or below 3. -/
theorem read_retries_le (os : OS W) (access : stream_t) (buffer : Option Nat) (size : Nat) :
    ∀ (n : Nat) (s : St W), 3 - s.p_sys.retries = n → s.p_sys.retries ≤ 3 →
      (read os access buffer size s).2.p_sys.retries ≤ 3 := by
  intro n
  induction n using Nat.strong_induction_on with
  | _ n ih =>
    intro s hn hs
    cases buffer with
    | none =>
      rw [read_null]
      rcases h : seek os size s with ⟨r, s1⟩
      have e := seek_retries h
      cases r with
      | error e' => simp only; omega
      | ok v =>
        simp only
        split <;> (simp only; omega)
    | some b =>
      rcases h1 : read_async os s.p_sys.data_reader (size % 2 ^ 32) s with ⟨r1, s1⟩
      have hp1 := read_async_p_sys h1
      cases r1 with
      | ok n' =>
        rw [read_loaded h1]
        rcases h4 : position_ge_size os { s1 with p_sys :=
          { s1.p_sys with i_pos := (s1.p_sys.i_pos + n') % 2 ^ 64 } } with ⟨r4, s4⟩
        have hp4 := position_ge_size_p_sys h4
        cases r4 with
        | error e' =>
          simp only
          rw [hp4]
          simp only [hp1]
          exact hs
        | ok eof =>
          simp only
          exact Nat.zero_le 3
      | error e =>
        cases e with
        | access_violation =>
          rw [read_access_violation h1, hp1]
          exact hs
        | hresult_error code =>
          by_cases hc : code = STALE_HANDLE
          · subst hc
            rw [read_stale h1]
            rcases h2 : open_file_from_path os (to_hstring access.psz_location) s1
              with ⟨r2, s2⟩
            have e2 := open_file_from_path_retries h2
            cases r2 with
            | error e' => simp only; rw [e2, hp1]; exact hs
            | ok v2 =>
              simp only
              split
              · rcases h3 : seek os s2.p_sys.i_pos s2 with ⟨r3, s3⟩
                have e3 := seek_retries h3
                cases r3 with
                | error e' => simp only; rw [e3, e2, hp1]; exact hs
                | ok v3 =>
                  simp only
                  split
                  · split
                    · next hlt =>
                      have hmod : (s3.p_sys.retries + 1) % 2 ^ 32 = s3.p_sys.retries + 1 :=
                        Nat.mod_eq_of_lt (by omega)
                      rw [hmod]
                      have e4 : s3.p_sys.retries = s.p_sys.retries := by rw [e3, e2, hp1]
                      exact ih (3 - (s3.p_sys.retries + 1)) (by omega) _ rfl
                        (by simp only; omega)
                    · rw [e3, e2, hp1]; exact hs
                  · rw [e3, e2, hp1]; exact hs
              · rw [e2, hp1]; exact hs
          · rw [read_other_error h1 hc, hp1]
            exact hs

/-- Every state the host can observe has a retry counter of at most 3. -/
theorem reachable_retries_le {os : OS W} {s : St W} (h : Reachable os s) :
    s.p_sys.retries ≤ 3 := by
  induction h with
  | opened m m1 sys ho hs =>
    simp only
    rw [Open_success_retries ho hs]
    exact Nat.zero_le 3
  | read s access buffer size _ ih => exact read_retries_le os access buffer size _ s rfl ih
  | seek s position _ ih =>
    rcases h : seek os position s with ⟨r, s1⟩
    rw [seek_retries h]
    exact ih
  | control s query _ ih =>
    rw [control_p_sys]
    exact ih
  | world_moves s w _ ih => exact ih

/-! ## How a read call ends, read off its record of calls -/

theorem endsInLoad_append {ev : List Event} {n : Nat} (pre : List Event)
    (h : EndsInLoad ev n) : EndsInLoad (pre ++ ev) n := by
  obtain ⟨p, rd, count, c, c', x, z, rfl⟩ := h
  exact ⟨pre ++ p, rd, count, c, c', x, z, by rw [List.append_assoc]⟩

theorem GaveUp.after_reseek {pre ev : List Event} (hp : EndsInReseek pre) (h : GaveUp ev) :
    GaveUp (pre ++ ev) := by
  rcases h with rfl | h | h | h
  · rw [List.append_nil]
    exact Or.inr (Or.inr (Or.inl hp))
  · exact Or.inr (Or.inl (lastIsError_append pre h))
  · obtain ⟨p, rd, o, c, c', x, z, rfl⟩ := h
    exact Or.inr (Or.inr (Or.inl ⟨pre ++ p, rd, o, c, c', x, z, by rw [List.append_assoc]⟩))
  · obtain ⟨p, rd, n, rfl⟩ := h
    exact Or.inr (Or.inr (Or.inr ⟨pre ++ p, rd, n, by rw [List.append_assoc]⟩))

theorem GaveUp.of_error {ev : List Event} (h : LastIsError ev) : GaveUp ev :=
  Or.inr (Or.inl h)

theorem GaveUp.of_reseek {ev : List Event} (h : EndsInReseek ev) : GaveUp ev :=
  Or.inr (Or.inr (Or.inl h))

theorem ended_in_load_of_EndsInLoad {ev : List Event} {n : Nat} (h : EndsInLoad ev n) :
    ended_in_load ev = some n := by
  obtain ⟨p, rd, count, c, c', x, z, rfl⟩ := h
  unfold ended_in_load
  rw [List.reverse_append]
  rfl

theorem ended_in_load_of_GaveUp {ev : List Event} (h : GaveUp ev) :
    ended_in_load ev = none := by
  rcases h with rfl | h | h | h
  · rfl
  · obtain ⟨p, c, code, rfl⟩ := h
    unfold ended_in_load
    rw [List.reverse_append]
    cases c <;> rfl
  · obtain ⟨p, rd, o, c, c', x, z, rfl⟩ := h
    unfold ended_in_load
    rw [List.reverse_append]
    rfl
  · obtain ⟨p, rd, n, rfl⟩ := h
    unfold ended_in_load
    rw [List.reverse_append]
    rfl

/-- How a read call with a non-null buffer ends. Either its record ends in a
successful load of `n` bytes: then it returns `n`, `i_pos` has advanced by `n`
modulo `2^64`, the retry counter is 0 and the reader is not null. Or its
record shows that it gave up. -/
theorem read_exit (os : OS W) (access : stream_t) (b : Nat) (size : Nat) :
    ∀ (k : Nat) (s : St W), 3 - s.p_sys.retries = k →
      ∀ (r : Except Signal Int) (s' : St W), read os access (some b) size s = (r, s') →
        ∃ ev, s'.trace = s.trace ++ ev ∧
          ((∃ n, EndsInLoad ev n ∧ r = .ok (n : Int) ∧ n < 2 ^ 32 ∧
              s'.p_sys.i_pos = (s.p_sys.i_pos + n) % 2 ^ 64 ∧ s'.p_sys.retries = 0 ∧
              s'.p_sys.data_reader ≠ none) ∨
           GaveUp ev) := by
  intro k
  induction k using Nat.strong_induction_on with
  | _ k ih =>
    intro s hk r s' h
    rcases h1 : read_async os s.p_sys.data_reader (size % 2 ^ 32) s with ⟨r1, s1⟩
    obtain ⟨hp1, hcase⟩ := read_async_cases h1
    rcases hcase with ⟨rd, n, hrd, hn, hr1, ht1⟩ |
      ⟨code, hr1, _, ev1, ht1, he1, _, _, _⟩ | ⟨hr1, _, hs1⟩
    · -- the load and the copy-out succeeded
      subst hr1
      rw [read_loaded h1] at h
      rcases h4 : position_ge_size os { s1 with p_sys :=
        { s1.p_sys with i_pos := (s1.p_sys.i_pos + n) % 2 ^ 64 } } with ⟨r4, s4⟩
      rw [h4] at h
      obtain ⟨hp4, hq⟩ := position_ge_size_cases h4
      rcases hq with ⟨st, p, z, _, hr4, ht4⟩ | ⟨code, hr4, _, ev4, ht4, he4, _⟩ |
        ⟨hr4, _, hs4⟩
      · subst hr4
        simp only at h
        cases h
        refine ⟨[⟨.LoadAsync rd (size % 2 ^ 32), .ok n⟩, ⟨.ReadBytes rd n, .ok 0⟩,
          ⟨.Position st, .ok p⟩, ⟨.Size st, .ok z⟩], ?_, Or.inl ⟨n, ?_, rfl, hn, ?_, rfl, ?_⟩⟩
        · simp only [ht4, ht1, List.append_assoc]
          rfl
        · exact ⟨[], rd, size % 2 ^ 32, st, st, p, z, rfl⟩
        · simp only [hp4, hp1]
        · simp only [hp4, hp1, hrd]
          simp
      · subst hr4
        simp only at h
        cases h
        refine ⟨[⟨.LoadAsync rd (size % 2 ^ 32), .ok n⟩, ⟨.ReadBytes rd n, .ok 0⟩] ++ ev4,
          ?_, Or.inr (GaveUp.of_error (lastIsError_append _ he4))⟩
        simp only [ht4, ht1, List.append_assoc]
      · subst hr4
        simp only at h
        cases h
        refine ⟨[⟨.LoadAsync rd (size % 2 ^ 32), .ok n⟩, ⟨.ReadBytes rd n, .ok 0⟩], ?_,
          Or.inr (Or.inr (Or.inr (Or.inr ⟨[_], rd, n, rfl⟩)))⟩
        rw [hs4]
        exact ht1
    · -- the load or the copy-out threw
      subst hr1
      by_cases hc : code = STALE_HANDLE
      · subst hc
        rw [read_stale h1] at h
        rcases h2 : open_file_from_path os (to_hstring access.psz_location) s1 with ⟨r2, s2⟩
        rw [h2] at h
        rcases open_file_from_path_cases h2 with
          ⟨hr2, file, stream, reader, hp2, ht2⟩ | ⟨hr2, hp2, ev2, ht2, ⟨he2, _⟩, _⟩
        · subst hr2
          simp only [if_true] at h
          rcases h3 : seek os s2.p_sys.i_pos s2 with ⟨r3, s3⟩
          rw [h3] at h
          rcases seek_cases h3 with ⟨hr3, st, c, rd, p, z, _, hp3, ht3⟩ |
            ⟨hr3, _, _, ev3, ht3, ⟨he3, _⟩, _⟩ | ⟨hr3, _, _, ev3, ht3, he3, _⟩ |
            ⟨_, hnone, _⟩
          · subst hr3
            simp only [if_true] at h
            have hreseek : EndsInReseek (ev1 ++
                [⟨.GetFileFromPathAsync (to_hstring access.psz_location), .ok file⟩,
                  ⟨.OpenReadAsync file, .ok stream⟩,
                  ⟨.DataReader_new (some stream), .ok reader⟩,
                  ⟨.InputStreamOptions reader 3, .ok 0⟩,
                  ⟨.CloneStream st, .ok c⟩, ⟨.Seek c s2.p_sys.i_pos, .ok 0⟩,
                  ⟨.DataReader_new (some c), .ok rd⟩, ⟨.InputStreamOptions rd 3, .ok 0⟩,
                  ⟨.Position c, .ok p⟩, ⟨.Size c, .ok z⟩]) :=
              ⟨ev1 ++ [⟨.GetFileFromPathAsync (to_hstring access.psz_location), .ok file⟩,
                  ⟨.OpenReadAsync file, .ok stream⟩,
                  ⟨.DataReader_new (some stream), .ok reader⟩,
                  ⟨.InputStreamOptions reader 3, .ok 0⟩,
                  ⟨.CloneStream st, .ok c⟩, ⟨.Seek c s2.p_sys.i_pos, .ok 0⟩,
                  ⟨.DataReader_new (some c), .ok rd⟩], rd, 3, c, c, p, z,
                by simp only [List.append_assoc, List.cons_append, List.nil_append]⟩
            have htr : s3.trace = s.trace ++ (ev1 ++
                [⟨.GetFileFromPathAsync (to_hstring access.psz_location), .ok file⟩,
                  ⟨.OpenReadAsync file, .ok stream⟩,
                  ⟨.DataReader_new (some stream), .ok reader⟩,
                  ⟨.InputStreamOptions reader 3, .ok 0⟩,
                  ⟨.CloneStream st, .ok c⟩, ⟨.Seek c s2.p_sys.i_pos, .ok 0⟩,
                  ⟨.DataReader_new (some c), .ok rd⟩, ⟨.InputStreamOptions rd 3, .ok 0⟩,
                  ⟨.Position c, .ok p⟩, ⟨.Size c, .ok z⟩]) := by
              simp only [ht3, ht2, ht1, List.append_assoc, List.cons_append, List.nil_append]
            obtain ⟨pre, hreseek, htr⟩ : ∃ pre, EndsInReseek pre ∧ s3.trace = s.trace ++ pre :=
              ⟨_, hreseek, htr⟩
            have hret : s3.p_sys.retries = s.p_sys.retries := by
              rw [hp3]; simp only [hp2, hp1]
            have hpos : s3.p_sys.i_pos = s.p_sys.i_pos := by
              rw [hp3]; simp only [hp2, hp1]
            split at h
            · next hlt =>
              obtain ⟨ev, hev, hcls⟩ := ih (3 - (s3.p_sys.retries + 1) % 2 ^ 32)
                (by rw [Nat.mod_eq_of_lt (by omega)]; omega) _ rfl r s' h
              simp only at hev hcls
              refine ⟨pre ++ ev, by rw [hev, htr, List.append_assoc], ?_⟩
              rcases hcls with ⟨n, hl, hr, hn, hi, h0, hd⟩ | hg
              · exact Or.inl ⟨n, endsInLoad_append _ hl, hr, hn, by rw [hi, hpos], h0, hd⟩
              · exact Or.inr (hg.after_reseek hreseek)
            · cases h
              exact ⟨pre, htr, Or.inr (GaveUp.of_reseek hreseek)⟩
          · subst hr3
            have hne : ¬ VLC_EGENERIC = VLC_SUCCESS := fun e => VLC_SUCCESS_ne_EGENERIC e.symm
            simp only [hne, if_false] at h
            cases h
            obtain ⟨ev2, ht2'⟩ : ∃ ev2, s2.trace = s1.trace ++ ev2 := ⟨_, ht2⟩
            refine ⟨ev1 ++ (ev2 ++ ev3), ?_,
              Or.inr (GaveUp.of_error (lastIsError_append _ (lastIsError_append _ he3)))⟩
            rw [ht3, ht2', ht1]
            simp only [List.append_assoc]
          · subst hr3
            have hne : ¬ VLC_EGENERIC = VLC_SUCCESS := fun e => VLC_SUCCESS_ne_EGENERIC e.symm
            simp only [hne, if_false] at h
            cases h
            obtain ⟨ev2, ht2'⟩ : ∃ ev2, s2.trace = s1.trace ++ ev2 := ⟨_, ht2⟩
            refine ⟨ev1 ++ (ev2 ++ ev3), ?_,
              Or.inr (GaveUp.of_error (lastIsError_append _ (lastIsError_append _ he3)))⟩
            rw [ht3, ht2', ht1]
            simp only [List.append_assoc]
          · rw [hp2] at hnone
            cases hnone
        · subst hr2
          have hne : ¬ VLC_EGENERIC = VLC_SUCCESS := fun e => VLC_SUCCESS_ne_EGENERIC e.symm
          simp only [hne, if_false] at h
          cases h
          refine ⟨ev1 ++ ev2, ?_, Or.inr (GaveUp.of_error (lastIsError_append _ he2))⟩
          rw [ht2, ht1, List.append_assoc]
      · rw [read_other_error h1 hc] at h
        cases h
        exact ⟨ev1, ht1, Or.inr (GaveUp.of_error he1)⟩
    · -- the reader reference is null
      subst hr1
      rw [read_access_violation h1] at h
      cases h
      exact ⟨[], by rw [hs1, List.append_nil], Or.inr (Or.inl rfl)⟩

/-! ## Runs on the test double -/

theorem read_stale_of_fst {os : OS W} {access : stream_t} {b size : Nat} {s : St W}
    (h1 : (read_async os s.p_sys.data_reader (size % 2 ^ 32) s).1
      = .error (.hresult_error STALE_HANDLE)) :
    read os access (some b) size s =
      match open_file_from_path os (to_hstring access.psz_location)
          (read_async os s.p_sys.data_reader (size % 2 ^ 32) s).2 with
      | (.error e, s2) => (.error e, s2)
      | (.ok r1, s2) =>
        if r1 = VLC_SUCCESS then
          match seek os s2.p_sys.i_pos s2 with
          | (.error e, s3) => (.error e, s3)
          | (.ok r2, s3) =>
            if r2 = VLC_SUCCESS then
              if s3.p_sys.retries < 3 then
                read os access (some b) size
                  { s3 with p_sys :=
                    { s3.p_sys with retries := (s3.p_sys.retries + 1) % 2 ^ 32 } }
              else (.ok 0, s3)
            else (.ok 0, s3)
        else (.ok 0, s2) :=
  read_stale (Prod.ext h1 rfl)

theorem read_loaded_of_fst {os : OS W} {access : stream_t} {b size : Nat} {s : St W} {n : Nat}
    (h1 : (read_async os s.p_sys.data_reader (size % 2 ^ 32) s).1 = .ok n) :
    read os access (some b) size s =
      match position_ge_size os
          { (read_async os s.p_sys.data_reader (size % 2 ^ 32) s).2 with p_sys :=
            { (read_async os s.p_sys.data_reader (size % 2 ^ 32) s).2.p_sys with
              i_pos := ((read_async os s.p_sys.data_reader (size % 2 ^ 32) s).2.p_sys.i_pos
                + n) % 2 ^ 64 } } with
      | (.error e, s3) => (.error e, s3)
      | (.ok eof, s3) =>
        (.ok (n : Int), { s3 with p_sys := { s3.p_sys with b_eof := eof, retries := 0 } }) :=
  read_loaded (Prod.ext h1 rfl)

theorem stale_once_run :
    read (memOS stale_once) test_access (some 1) 50 (mem_session 100 10 0) =
      (.ok 50, (read (memOS stale_once) test_access (some 1) 50 (mem_session 100 10 0)).2) ∧
    (read (memOS stale_once) test_access (some 1) 50 (mem_session 100 10 0)).2.p_sys.i_pos = 60 ∧
    ended_in_load (read (memOS stale_once) test_access (some 1) 50
      (mem_session 100 10 0)).2.trace = some 50 := by
  rw [read_stale_of_fst]
  · show read (memOS stale_once) test_access (some 1) 50 _ = (_, (read _ _ _ _ _).2) ∧
      (read _ _ _ _ _).2.p_sys.i_pos = 60 ∧ ended_in_load (read _ _ _ _ _).2.trace = some 50
    rw [read_loaded_of_fst (n := 50)]
    · exact ⟨rfl, rfl, rfl⟩
    · rfl
  · rfl
theorem stale_loads_always_stale : LoadsAlwaysStale (memOS stale_loads) :=
  fun _ _ _ => rfl

theorem stale_loads_reader_built : ReaderAlwaysBuilt (memOS stale_loads) :=
  ⟨fun _ _ => ⟨_, rfl⟩, fun _ _ _ => rfl⟩

theorem stale_loads_reattach : ReattachAlwaysSucceeds (memOS stale_loads) :=
  ⟨fun _ _ => ⟨_, rfl⟩, fun _ _ => ⟨_, rfl⟩, stale_loads_reader_built⟩

theorem stale_loads_reseek : ReseekAlwaysSucceeds (memOS stale_loads) :=
  ⟨fun _ _ => ⟨_, rfl⟩, fun _ _ _ => rfl, stale_loads_reader_built,
    fun _ _ => ⟨_, rfl⟩, fun _ _ => ⟨_, rfl⟩⟩

/-! # The properties of the specification -/

/-- C5 (the code departs from the claim): with a null buffer `read` calls
`seek(access, size)`, an absolute seek to offset `size`, so it leaves the
session as `seek(size)` does, for every session and size, and not as
`seek(i_pos + size)` would. On the test double, from logical position 10 a
null read of 5 bytes returns 5 and leaves logical position 5, whereas
`seek(10 + 5)` leaves 15. -/
theorem C5_null_read_is_absolute_seek :
    (∀ (W : Type) (os : OS W) (access : stream_t) (size : Nat) (s : St W),
      (read os access none size s).2 = (seek os size s).2) ∧
    (read (memOS no_fault) test_access none 5 (mem_session 100 10 0)).1 = .ok 5 ∧
    (read (memOS no_fault) test_access none 5 (mem_session 100 10 0)).2.p_sys.i_pos = 5 ∧
    (seek (memOS no_fault) (10 + 5) (mem_session 100 10 0)).2.p_sys.i_pos = 15 := by
  refine ⟨?_, ?_, ?_, rfl⟩
  · intro W os access size s
    rw [read_null]
    rcases seek os size s with ⟨r, s1⟩
    cases r with
    | error e => rfl
    | ok v =>
      simp only
      split <;> rfl
  · rw [read_null]
    rfl
  · rw [read_null]
    rfl

/-- C6 (amended): from a session whose retry counter is 0 and whose reader is
not null, when every buffered load throws the stale-handle error and every
reattachment and reseek succeeds, one read call makes exactly 4 buffered loads
and exactly 4 reattachment attempts (a reattachment follows every failed load,
the last one included), leaves the retry counter at 3 and returns 0. -/
theorem C6_stale_loads_reattach_four_times (os : OS W) (access : stream_t) (b size : Nat)
    (s : St W) (hl : LoadsAlwaysStale os) (hr : ReattachAlwaysSucceeds os)
    (hs : ReseekAlwaysSucceeds os) (h0 : s.p_sys.retries = 0)
    (hd : s.p_sys.data_reader ≠ none) :
    (read os access (some b) size s).1 = .ok 0 ∧
    reattach_attempts (read os access (some b) size s).2.trace
      = reattach_attempts s.trace + 4 ∧
    loads (read os access (some b) size s).2.trace = loads s.trace + 4 ∧
    (read os access (some b) size s).2.p_sys.retries = 3 := by
  obtain ⟨s', he, h1, h2, h3, _⟩ :=
    read_under_stale_loads hl hr hs access b size 3 s (by omega) hd
  rw [he]
  exact ⟨rfl, h2, h1, by rw [h3, h0]⟩

/-- C6 on the test double whose loads all go stale: 4 reattachment attempts, 4
loads, result 0. -/
theorem C6_stale_loads_reattach_four_times_witness :
    (read (memOS stale_loads) test_access (some 1) 50 (mem_session 100 10 0)).1 = .ok 0 ∧
    reattach_attempts
        (read (memOS stale_loads) test_access (some 1) 50 (mem_session 100 10 0)).2.trace
      = reattach_attempts (mem_session 100 10 0).trace + 4 ∧
    loads (read (memOS stale_loads) test_access (some 1) 50 (mem_session 100 10 0)).2.trace
      = loads (mem_session 100 10 0).trace + 4 ∧
    (read (memOS stale_loads) test_access (some 1) 50
      (mem_session 100 10 0)).2.p_sys.retries = 3 :=
  C6_stale_loads_reattach_four_times (memOS stale_loads) test_access 1 50
    (mem_session 100 10 0) stale_loads_always_stale stale_loads_reattach stale_loads_reseek
    rfl (by decide)

/-- C6 as stated fails: on the test double every load goes stale and every
reattachment and reseek succeeds, the session starts with a retry counter of
0, and the read call makes 4 reattachment attempts, not 3. -/
theorem C6_three_reattachments_counterexample :
    LoadsAlwaysStale (memOS stale_loads) ∧ ReattachAlwaysSucceeds (memOS stale_loads) ∧
    ReseekAlwaysSucceeds (memOS stale_loads) ∧
    (mem_session 100 10 0).p_sys.retries = 0 ∧
    (mem_session 100 10 0).trace = [] ∧
    reattach_attempts
        (read (memOS stale_loads) test_access (some 1) 50 (mem_session 100 10 0)).2.trace = 4 ∧
    ¬ reattach_attempts
        (read (memOS stale_loads) test_access (some 1) 50 (mem_session 100 10 0)).2.trace
      = 3 := by
  obtain ⟨s', he, _, h2, _, _⟩ :=
    read_under_stale_loads stale_loads_always_stale stale_loads_reattach stale_loads_reseek
      test_access 1 50 3 (mem_session 100 10 0) rfl (by decide)
  have h4 : reattach_attempts
      (read (memOS stale_loads) test_access (some 1) 50 (mem_session 100 10 0)).2.trace
        = 4 := by
    rw [he]
    exact h2
  refine ⟨stale_loads_always_stale, stale_loads_reattach, stale_loads_reseek, rfl, rfl,
    h4, ?_⟩
  rw [h4]
  decide

/-- A read that finds the retry counter at 3 or above when its load goes stale
returns 0 and makes no second load. -/
theorem read_at_ceiling {os : OS W} {access : stream_t} {b size : Nat} {s s1 : St W}
    (h3 : 3 ≤ s.p_sys.retries)
    (h1 : read_async os s.p_sys.data_reader (size % 2 ^ 32) s
      = (.error (.hresult_error STALE_HANDLE), s1)) :
    (read os access (some b) size s).1 = .ok 0 ∧
    loads (read os access (some b) size s).2.trace = loads s.trace + 1 := by
  obtain ⟨hp1, hcase⟩ := read_async_cases h1
  rcases hcase with ⟨_, _, _, _, hc, _⟩ | ⟨code, _, _, ev1, ht1, _, hl1, _, _⟩ | ⟨hc, _⟩
  · cases hc
  · rw [read_stale h1]
    rcases h2 : open_file_from_path os (to_hstring access.psz_location) s1 with ⟨r2, s2⟩
    rcases open_file_from_path_cases h2 with
      ⟨hr2, file, stream, reader, hp2, ht2⟩ | ⟨hr2, hp2, ev2, ht2, ⟨_, hl2, _⟩, _⟩
    · subst hr2
      simp only [if_true]
      rcases h3' : seek os s2.p_sys.i_pos s2 with ⟨r3, s3⟩
      rcases seek_cases h3' with ⟨hr3, st, c, rd, p, z, _, hp3, ht3⟩ |
        ⟨hr3, _, _, ev3, ht3, ⟨_, hl3, _⟩, _⟩ | ⟨hr3, _, _, ev3, ht3, _, hl3, _⟩ |
        ⟨_, hnone, _⟩
      · subst hr3
        have hge : ¬ s3.p_sys.retries < 3 := by
          rw [hp3]; simp only [hp2, hp1]; omega
        simp only [if_true, hge, if_false]
        refine ⟨trivial, ?_⟩
        rw [ht3, ht2, ht1]
        simp only [loads_append, hl1]
        rfl
      · subst hr3
        have hne : ¬ VLC_EGENERIC = VLC_SUCCESS := fun e => VLC_SUCCESS_ne_EGENERIC e.symm
        simp only [hne, if_false]
        refine ⟨trivial, ?_⟩
        rw [ht3, ht2, ht1]
        simp only [loads_append, hl1, hl3]
        rfl
      · subst hr3
        have hne : ¬ VLC_EGENERIC = VLC_SUCCESS := fun e => VLC_SUCCESS_ne_EGENERIC e.symm
        simp only [hne, if_false]
        refine ⟨trivial, ?_⟩
        rw [ht3, ht2, ht1]
        simp only [loads_append, hl1, hl3]
        rfl
      · rw [hp2] at hnone
        cases hnone
    · subst hr2
      have hne : ¬ VLC_EGENERIC = VLC_SUCCESS := fun e => VLC_SUCCESS_ne_EGENERIC e.symm
      simp only [hne, if_false]
      refine ⟨trivial, ?_⟩
      rw [ht2, ht1]
      simp only [loads_append, hl1, hl2]
  · cases hc

/-- C7: in every session state reachable from the state a successful `Open`
creates, through any sequence of `read`, `seek` and `control` calls and
whatever the collaborators do, the retry counter is at most 3; and a read that
finds the counter at 3 when its load throws the stale-handle error returns 0
and makes no further load. -/
theorem C7_retry_counter_bounded (os : OS W) :
    (∀ s : St W, Reachable os s → s.p_sys.retries ≤ 3) ∧
    (∀ (access : stream_t) (b size : Nat) (s s1 : St W), s.p_sys.retries = 3 →
      read_async os s.p_sys.data_reader (size % 2 ^ 32) s
        = (.error (.hresult_error STALE_HANDLE), s1) →
      (read os access (some b) size s).1 = .ok 0 ∧
      loads (read os access (some b) size s).2.trace = loads s.trace + 1) :=
  ⟨fun _ h => reachable_retries_le h,
    fun _ _ _ _ _ h3 h1 => read_at_ceiling (Nat.le_of_eq h3.symm) h1⟩

/-- C7 on the test double whose loads all go stale: the state left by `Open` and
one read call has a retry counter of at most 3, and a read that starts with
the counter at 3 returns 0 after a single load. -/
theorem C7_retry_counter_bounded_witness :
    (read (memOS stale_loads) test_file_access (some 1) 50
      { p_sys := { read_stream := some 0, data_reader := some 0, i_pos := 0, retries := 0,
                   b_eof := false },
        world := (Open (memOS stale_loads) test_machine).2.world,
        trace := (Open (memOS stale_loads) test_machine).2.trace }).2.p_sys.retries ≤ 3 ∧
    (read (memOS stale_loads) test_access (some 1) 50 (mem_session 100 10 3)).1 = .ok 0 ∧
    loads (read (memOS stale_loads) test_access (some 1) 50 (mem_session 100 10 3)).2.trace
      = loads (mem_session 100 10 3).trace + 1 :=
  ⟨(C7_retry_counter_bounded (memOS stale_loads)).1 _
      (Reachable.read _ test_file_access (some 1) 50
        (Reachable.opened test_machine (Open (memOS stale_loads) test_machine).2
          { read_stream := some 0, data_reader := some 0, i_pos := 0, retries := 0,
            b_eof := false } rfl rfl)),
    (C7_retry_counter_bounded (memOS stale_loads)).2 test_access 1 50
      (mem_session 100 10 3) _ rfl rfl⟩

/-- C8: a read call with a non-null buffer whose record of collaborator calls
ends in a successful load of `n` bytes (the load, the copy-out and the
end-of-stream recomputation of lines 267 and 284-285, directly or after
stale-handle retries) returns `n`, and the logical position afterwards is the
position before plus `n`, provided that sum is below `2^64`. -/
theorem C8_successful_read_advances_position (os : OS W) (access : stream_t) (b size : Nat)
    (s : St W) (ev : List Event) (n : Nat)
    (htr : (read os access (some b) size s).2.trace = s.trace ++ ev)
    (hload : ended_in_load ev = some n) (hno : s.p_sys.i_pos + n < 2 ^ 64) :
    (read os access (some b) size s).1 = .ok (n : Int) ∧
    (read os access (some b) size s).2.p_sys.i_pos = s.p_sys.i_pos + n := by
  obtain ⟨ev', htr', hcls⟩ := read_exit os access b size _ s rfl _ _ rfl
  have hev : ev' = ev := List.append_cancel_left (htr'.symm.trans htr)
  subst hev
  rcases hcls with ⟨m, hm, hr, _, hi, _, _⟩ | hg
  · have hmn : m = n := by
      have := ended_in_load_of_EndsInLoad hm
      rw [hload] at this
      exact (Option.some.inj this).symm
    subst hmn
    exact ⟨hr, by rw [hi, Nat.mod_eq_of_lt hno]⟩
  · rw [ended_in_load_of_GaveUp hg] at hload
    cases hload

/-- C8 on the test double whose first load goes stale: after one retry the read
of 50 bytes from logical position 10 returns 50 and leaves position 60. -/
theorem C8_successful_read_advances_position_witness :
    (read (memOS stale_once) test_access (some 1) 50 (mem_session 100 10 0)).1
      = .ok ((50 : Nat) : Int) ∧
    (read (memOS stale_once) test_access (some 1) 50 (mem_session 100 10 0)).2.p_sys.i_pos
      = (mem_session 100 10 0).p_sys.i_pos + 50 :=
  C8_successful_read_advances_position (memOS stale_once) test_access 1 50
    (mem_session 100 10 0) _ 50 rfl stale_once_run.2.2 (by decide)

/-- C10 (amended): `seek` on a session whose stream reference is not null, by
the step that throws. When the clone, the reposition, the reader construction
or the reader configuration throws, `seek` returns `VLC_EGENERIC` and the
session record, with its stream handle, reader, logical position and
end-of-stream flag, is what it was before the call (only the collaborators'
world and the record of calls have moved). When the position query or the
size query throws, `seek` returns `VLC_EGENERIC` too, but the clone, the new
reader and the new logical position are installed already. -/
theorem C10_seek_failure_before_query_is_atomic (os : OS W) (position : Nat) (s : St W)
    (st : Nat) (hst : s.p_sys.read_stream = some st) :
    (∀ code w1, os.CloneStream st s.world = (.error code, w1) →
      seek os position s = (.ok VLC_EGENERIC,
        { s with world := w1, trace := s.trace ++ [⟨.CloneStream st, .error code⟩] })) ∧
    (∀ c w1 code w2, os.CloneStream st s.world = (.ok c, w1) →
      os.Seek c position w1 = (.error code, w2) →
      seek os position s = (.ok VLC_EGENERIC,
        { s with world := w2, trace := s.trace ++ [⟨.CloneStream st, .ok c⟩,
            ⟨.Seek c position, .error code⟩] })) ∧
    (∀ c w1 w2 code w3, os.CloneStream st s.world = (.ok c, w1) →
      os.Seek c position w1 = (.ok (), w2) →
      os.DataReader_new (some c) w2 = (.error code, w3) →
      seek os position s = (.ok VLC_EGENERIC,
        { s with world := w3, trace := s.trace ++ [⟨.CloneStream st, .ok c⟩,
            ⟨.Seek c position, .ok 0⟩, ⟨.DataReader_new (some c), .error code⟩] })) ∧
    (∀ c w1 w2 rd w3 code w4, os.CloneStream st s.world = (.ok c, w1) →
      os.Seek c position w1 = (.ok (), w2) →
      os.DataReader_new (some c) w2 = (.ok rd, w3) →
      os.InputStreamOptions rd (InputStreamOptions_Partial ||| InputStreamOptions_ReadAhead) w3
        = (.error code, w4) →
      seek os position s = (.ok VLC_EGENERIC,
        { s with world := w4, trace := s.trace ++ [⟨.CloneStream st, .ok c⟩,
            ⟨.Seek c position, .ok 0⟩, ⟨.DataReader_new (some c), .ok rd⟩,
            ⟨.InputStreamOptions rd (InputStreamOptions_Partial ||| InputStreamOptions_ReadAhead),
              .error code⟩] })) ∧
    (∀ c w1 w2 rd w3 w4 code w5, os.CloneStream st s.world = (.ok c, w1) →
      os.Seek c position w1 = (.ok (), w2) →
      os.DataReader_new (some c) w2 = (.ok rd, w3) →
      os.InputStreamOptions rd (InputStreamOptions_Partial ||| InputStreamOptions_ReadAhead) w3
        = (.ok (), w4) →
      os.Position c w4 = (.error code, w5) →
      seek os position s = (.ok VLC_EGENERIC,
        { p_sys := { s.p_sys with read_stream := some c, data_reader := some rd,
                                  i_pos := position },
          world := w5,
          trace := s.trace ++ [⟨.CloneStream st, .ok c⟩,
            ⟨.Seek c position, .ok 0⟩, ⟨.DataReader_new (some c), .ok rd⟩,
            ⟨.InputStreamOptions rd (InputStreamOptions_Partial ||| InputStreamOptions_ReadAhead),
              .ok 0⟩,
            ⟨.Position c, .error code⟩] })) ∧
    (∀ c w1 w2 rd w3 w4 p w5 code w6, os.CloneStream st s.world = (.ok c, w1) →
      os.Seek c position w1 = (.ok (), w2) →
      os.DataReader_new (some c) w2 = (.ok rd, w3) →
      os.InputStreamOptions rd (InputStreamOptions_Partial ||| InputStreamOptions_ReadAhead) w3
        = (.ok (), w4) →
      os.Position c w4 = (.ok p, w5) → os.Size c w5 = (.error code, w6) →
      seek os position s = (.ok VLC_EGENERIC,
        { p_sys := { s.p_sys with read_stream := some c, data_reader := some rd,
                                  i_pos := position },
          world := w6,
          trace := s.trace ++ [⟨.CloneStream st, .ok c⟩,
            ⟨.Seek c position, .ok 0⟩, ⟨.DataReader_new (some c), .ok rd⟩,
            ⟨.InputStreamOptions rd (InputStreamOptions_Partial ||| InputStreamOptions_ReadAhead),
              .ok 0⟩,
            ⟨.Position c, .ok p.val⟩, ⟨.Size c, .error code⟩] })) := by
  refine ⟨?_, ?_, ?_, ?_, ?_, ?_⟩
  · intro code w1 h1
    unfold seek seek_try
    simp only [hst, St.invoke, h1]
  · intro c w1 code w2 h1 h2
    unfold seek seek_try
    simp only [hst, St.invoke, h1, h2, id, List.append_assoc, List.singleton_append]
  · intro c w1 w2 code w3 h1 h2 h3
    unfold seek seek_try set_stream
    simp only [hst, St.invoke, h1, h2, h3, id, List.append_assoc, List.singleton_append,
      List.cons_append, List.nil_append]
  · intro c w1 w2 rd w3 code w4 h1 h2 h3 h4
    unfold seek seek_try set_stream
    simp only [hst, St.invoke, h1, h2, h3, h4, id, List.append_assoc, List.singleton_append,
      List.cons_append, List.nil_append]
  · intro c w1 w2 rd w3 w4 code w5 h1 h2 h3 h4 h5
    unfold seek seek_try set_stream position_ge_size
    simp only [hst, St.invoke, h1, h2, h3, h4, h5, id, List.append_assoc,
      List.singleton_append, List.cons_append, List.nil_append]
  · intro c w1 w2 rd w3 w4 p w5 code w6 h1 h2 h3 h4 h5 h6
    unfold seek seek_try set_stream position_ge_size
    simp only [hst, St.invoke, h1, h2, h3, h4, h5, h6, id, List.append_assoc,
      List.singleton_append, List.cons_append, List.nil_append]

/-- C10 on the test double whose clones throw: `seek(50)` returns `VLC_EGENERIC`
after the one clone call and the session record is unchanged. -/
theorem C10_seek_failure_before_query_is_atomic_witness :
    seek (memOS clone_fails) 50 (mem_session 100 10 0) =
      (.ok VLC_EGENERIC,
        { mem_session 100 10 0 with
          world := { file_size := 100, streams := [10], readers := [0], clock := 1 },
          trace := (mem_session 100 10 0).trace ++ [⟨.CloneStream 0, .error E_FAIL⟩] }) ∧
    (seek (memOS clone_fails) 50 (mem_session 100 10 0)).2.p_sys
      = (mem_session 100 10 0).p_sys :=
  have h := (C10_seek_failure_before_query_is_atomic (memOS clone_fails) 50
    (mem_session 100 10 0) 0 rfl).1 E_FAIL _ rfl
  ⟨h, by rw [h]⟩

/-- C10 as stated fails: on the test double whose size queries throw, `seek(50)`
from logical position 10 returns `VLC_EGENERIC`, yet the stream handle, the
reader and the logical position are the new ones. -/
theorem C10_seek_atomicity_counterexample :
    (mem_session 100 10 0).p_sys
      = { read_stream := some 0, data_reader := some 0, i_pos := 10, retries := 0,
          b_eof := false } ∧
    (seek (memOS size_fails) 50 (mem_session 100 10 0)).1 = .ok VLC_EGENERIC ∧
    (seek (memOS size_fails) 50 (mem_session 100 10 0)).2.p_sys
      = { read_stream := some 1, data_reader := some 1, i_pos := 50, retries := 0,
          b_eof := false } ∧
    (seek (memOS size_fails) 50 (mem_session 100 10 0)).2.p_sys
      ≠ (mem_session 100 10 0).p_sys := by
  refine ⟨rfl, rfl, rfl, ?_⟩
  decide

/-! ## The selection stage of `Open` -/

/-- `strstr` returns the text from the first occurrence of the needle on. -/
theorem strstr_eq_some {needle : c_str} :
    ∀ {hay pos : c_str}, strstr hay needle = some pos →
      ∃ pre, hay = pre ++ pos ∧ needle <+: pos ∧
        ∀ pre' pos', hay = pre' ++ pos' → needle <+: pos' → pre.length ≤ pre'.length := by
  intro hay
  induction hay with
  | nil =>
    intro pos h
    unfold strstr at h
    split at h
    · next hn =>
      cases h
      exact ⟨[], rfl, by rw [hn], fun _ _ _ _ => Nat.zero_le _⟩
    · cases h
  | cons c rest ih =>
    intro pos h
    unfold strstr at h
    split at h
    · next hp =>
      cases h
      exact ⟨[], rfl, List.isPrefixOf_iff_prefix.1 hp, fun _ _ _ _ => Nat.zero_le _⟩
    · next hp =>
      obtain ⟨pre, hrest, hpre, hmin⟩ := ih h
      refine ⟨c :: pre, by rw [hrest]; rfl, hpre, ?_⟩
      intro pre' pos' he hn
      cases pre' with
      | nil =>
        simp only [List.nil_append] at he
        subst he
        exact absurd (List.isPrefixOf_iff_prefix.2 hn) hp
      | cons c' pre'' =>
        simp only [List.cons_append, List.cons.injEq] at he
        have := hmin pre'' pos' he.2 hn
        simp only [List.length_cons]
        omega

/-- `strstr` returns the null pointer only when the needle does not occur. -/
theorem strstr_eq_none {needle : c_str} :
    ∀ {hay : c_str}, strstr hay needle = none →
      ∀ pre' pos', hay = pre' ++ pos' → ¬ needle <+: pos' := by
  intro hay
  induction hay with
  | nil =>
    intro h pre' pos' he hn
    unfold strstr at h
    split at h
    · cases h
    · next hne =>
      have hp : pos' = [] := (List.append_eq_nil.1 he.symm).2
      subst hp
      exact hne (List.prefix_nil.1 hn)
  | cons c rest ih =>
    intro h pre' pos' he hn
    unfold strstr at h
    split at h
    · cases h
    · next hp =>
      cases pre' with
      | nil =>
        simp only [List.nil_append] at he
        subst he
        exact hp (List.isPrefixOf_iff_prefix.2 hn)
      | cons c' pre'' =>
        simp only [List.cons_append, List.cons.injEq] at he
        exact ih h pre'' pos' he.2 hn

/-- When the first occurrence of the marker is at `pre`, `strstr` returns the
marker and what follows it. -/
theorem strstr_marker {f pre suf : c_str} (h : FirstMarkerAt f pre suf) :
    strstr f WINRT_MARKER = some (WINRT_MARKER ++ suf) := by
  obtain ⟨hf, hmin⟩ := h
  cases hs : strstr f WINRT_MARKER with
  | none =>
    exact absurd (List.prefix_append _ _)
      (strstr_eq_none hs pre (WINRT_MARKER ++ suf) (by rw [hf, List.append_assoc]))
  | some pos =>
    obtain ⟨pre1, hf1, ⟨t, ht⟩, hmin1⟩ := strstr_eq_some hs
    subst ht
    have h1 : pre1.length ≤ pre.length :=
      hmin1 pre (WINRT_MARKER ++ suf) (by rw [hf, List.append_assoc]) (List.prefix_append _ _)
    have h2 : pre.length ≤ pre1.length := hmin pre1 t (by rw [hf1, List.append_assoc])
    have he : pre ++ (WINRT_MARKER ++ suf) = pre1 ++ (WINRT_MARKER ++ t) := by
      rw [← hf1, hf, List.append_assoc]
    have hpre : pre = pre1 := List.append_inj_left he (by omega)
    subst hpre
    rw [List.append_cancel_left he]

theorem marker_length : WINRT_MARKER.length = 8 := rfl

/-- The selection of `Open` for the `winrt` shortcut. -/
theorem Open_select_winrt {access : stream_t}
    (hname : access.psz_name = ['w', 'i', 'n', 'r', 't']) :
    Open_select access =
      some (to_hstring access.psz_location,
        get_open_function (to_hstring access.psz_location)) := by
  unfold Open_select
  rw [hname]
  rfl

/-- The selection of `Open` for the `file` shortcut when the first occurrence of
the marker is followed by at least one character. -/
theorem Open_select_file_marker {access : stream_t} {pre suf : c_str}
    (hname : access.psz_name = ['f', 'i', 'l', 'e'])
    (hm : FirstMarkerAt access.psz_filepath pre suf) (hs : suf ≠ []) :
    Open_select access = some (to_hstring suf, get_open_function (to_hstring suf)) := by
  unfold Open_select
  rw [hname, strstr_marker hm]
  have h1 : ¬ strncmp ['f', 'i', 'l', 'e'] ['w', 'i', 'n', 'r', 't'] 5 = 0 := by decide
  have h2 : strncmp ['f', 'i', 'l', 'e'] ['f', 'i', 'l', 'e'] 4 = 0 := by decide
  have h3 : strlen (WINRT_MARKER ++ suf) > 8 := by
    unfold strlen
    rw [List.length_append, marker_length]
    have := List.length_pos.2 hs
    omega
  have h4 : (WINRT_MARKER ++ suf).drop 8 = suf := by
    rw [← marker_length]
    exact List.drop_left _ _
  simp only [h1, h2, h3, h4, if_true, if_false]

/-- The selection of `Open` for the `file` shortcut when no occurrence of the
marker is followed by a character. -/
theorem Open_select_file_plain {access : stream_t}
    (hname : access.psz_name = ['f', 'i', 'l', 'e'])
    (hno : ∀ pre suf, access.psz_filepath = pre ++ WINRT_MARKER ++ suf → suf = []) :
    Open_select access =
      some (to_hstring access.psz_filepath, pf_open_t.open_file_from_path) := by
  unfold Open_select
  rw [hname]
  have h1 : ¬ strncmp ['f', 'i', 'l', 'e'] ['w', 'i', 'n', 'r', 't'] 5 = 0 := by decide
  have h2 : strncmp ['f', 'i', 'l', 'e'] ['f', 'i', 'l', 'e'] 4 = 0 := by decide
  simp only [h1, h2, if_true, if_false]
  cases hs : strstr access.psz_filepath WINRT_MARKER with
  | none => rfl
  | some pos =>
    obtain ⟨pre1, hf1, ⟨t, ht⟩, _⟩ := strstr_eq_some hs
    subst ht
    have ht : t = [] := hno pre1 t (by rw [hf1, List.append_assoc])
    subst ht
    have h3 : ¬ strlen (WINRT_MARKER ++ []) > 8 := by decide
    simp only [h3, if_false]

/-- `Open` stops before it allocates anything when the selection is
`noop_open_fn`. -/
theorem Open_noop {os : OS W} {m : Machine W} {token : hstring}
    (h : Open_select m.access = some (token, pf_open_t.noop_open_fn)) :
    Open os m = (.ok VLC_EGENERIC, m) := by
  unfold Open
  rw [h]
  simp only [if_true]

theorem get_open_function_noop {token : hstring}
    (h1 : ¬ SharedTokenShape token) (h2 : ¬ FutureTokenShape token) :
    get_open_function token = pf_open_t.noop_open_fn := by
  have e1 : ¬ is_shared_access_token_valid token = true :=
    fun h => h1 ((shared_valid_iff_shape token).1 h)
  have e2 : ¬ is_future_access_token_valid token = true :=
    fun h => h2 ((future_valid_iff_shape token).1 h)
  unfold get_open_function
  rw [if_neg e1, if_neg e2]

/-- C12: when token-based opening is intended (the shortcut is `winrt`, or the
shortcut is `file` and the first occurrence of the marker in the filepath is
followed by at least one character) and the token matches neither token
shape, `Open` returns `VLC_EGENERIC` and leaves the machine as it was: no
session object, no entry point, no collaborator call (the world and the record
of calls are unchanged), and no acquisition procedure is run. -/
theorem C12_malformed_token_fails_before_allocation (os : OS W) (m : Machine W) :
    (m.access.psz_name = ['w', 'i', 'n', 'r', 't'] →
      ¬ SharedTokenShape (to_hstring m.access.psz_location) →
      ¬ FutureTokenShape (to_hstring m.access.psz_location) →
      Open os m = (.ok VLC_EGENERIC, m)) ∧
    (∀ pre token : c_str, m.access.psz_name = ['f', 'i', 'l', 'e'] →
      FirstMarkerAt m.access.psz_filepath pre token → token ≠ [] →
      ¬ SharedTokenShape (to_hstring token) → ¬ FutureTokenShape (to_hstring token) →
      Open os m = (.ok VLC_EGENERIC, m)) := by
  constructor
  · intro hname h1 h2
    apply Open_noop
    rw [Open_select_winrt hname, get_open_function_noop h1 h2]
  · intro pre token hname hm hs h1 h2
    apply Open_noop
    rw [Open_select_file_marker hname hm hs, get_open_function_noop h1 h2]

/-- C13: for the `file` shortcut and every filepath `f`: when the marker occurs
in `f` and its first occurrence is followed by at least one character, `Open`
classifies the text after that first occurrence and hands it to the opener
`get_open_function` returns for it; when no occurrence of the marker is
followed by a character (no marker, or nothing after it), the opener is
`open_file_from_path` and it is handed the whole of `f`. -/
theorem C13_file_shortcut_selection (access : stream_t)
    (hname : access.psz_name = ['f', 'i', 'l', 'e']) :
    (∀ pre suf : c_str, FirstMarkerAt access.psz_filepath pre suf → suf ≠ [] →
      Open_select access = some (to_hstring suf, get_open_function (to_hstring suf))) ∧
    ((∀ pre suf : c_str, access.psz_filepath = pre ++ WINRT_MARKER ++ suf → suf = []) →
      Open_select access =
        some (to_hstring access.psz_filepath, pf_open_t.open_file_from_path)) :=
  ⟨fun _ _ hm hs => Open_select_file_marker hname hm hs,
    fun hno => Open_select_file_plain hname hno⟩

/-- C12 on the test double: `Open` with the shortcut `winrt` and the location
`notaguid`, and `Open` with the shortcut `file` and the filepath `winrt:\\abc`,
return `VLC_EGENERIC` and leave the machine untouched. -/
theorem C12_malformed_token_fails_before_allocation_witness :
    Open (memOS no_fault) { test_machine with access := bad_token_access }
      = (.ok VLC_EGENERIC, { test_machine with access := bad_token_access }) ∧
    Open (memOS no_fault) { test_machine with access := marker_access }
      = (.ok VLC_EGENERIC, { test_machine with access := marker_access }) :=
  ⟨(C12_malformed_token_fails_before_allocation (memOS no_fault)
      { test_machine with access := bad_token_access }).1 rfl (by decide) (by decide),
    (C12_malformed_token_fails_before_allocation (memOS no_fault)
      { test_machine with access := marker_access }).2 [] "abc".toList rfl
      ⟨rfl, fun _ _ _ => Nat.zero_le _⟩ (by decide) (by decide) (by decide)⟩

/-- C13 on two filepaths: for `winrt:\\abc` the text `abc` is classified and
handed to the opener chosen for it; for `a.mkv` the whole path goes to
`open_file_from_path`. -/
theorem C13_file_shortcut_selection_witness :
    Open_select marker_access
      = some (to_hstring "abc".toList, get_open_function (to_hstring "abc".toList)) ∧
    Open_select test_file_access
      = some (to_hstring "a.mkv".toList, pf_open_t.open_file_from_path) :=
  ⟨(C13_file_shortcut_selection marker_access rfl).1 [] "abc".toList
      ⟨rfl, fun _ _ _ => Nat.zero_le _⟩ (by decide),
    (C13_file_shortcut_selection test_file_access rfl).2 (fun pre suf h => by
      have hl := congrArg List.length h
      rw [List.length_append, List.length_append, marker_length] at hl
      have h5 : test_file_access.psz_filepath.length = 5 := rfl
      omega)⟩

/-! ## Control, and the failure exits of `read` and `Open` -/

/-- The record of `read_async`, by the step that stops it. -/
theorem read_async_trace {os : OS W} {reader : DataReader} {count : Nat} {s s1 : St W}
    {r : Except Signal Nat} (h : read_async os reader count s = (r, s1)) :
    (r = .error .access_violation ∧ s1.trace = s.trace) ∨
    (∃ rd code, r = .error (.hresult_error code) ∧
      s1.trace = s.trace ++ [⟨.LoadAsync rd count, .error code⟩]) ∨
    (∃ rd n code, r = .error (.hresult_error code) ∧
      s1.trace = s.trace ++ [⟨.LoadAsync rd count, .ok n⟩, ⟨.ReadBytes rd n, .error code⟩]) ∨
    (∃ rd n, r = .ok n ∧
      s1.trace = s.trace ++ [⟨.LoadAsync rd count, .ok n⟩, ⟨.ReadBytes rd n, .ok 0⟩]) := by
  unfold read_async at h
  split at h
  · cases h
    exact Or.inl ⟨rfl, rfl⟩
  · next rd =>
    split at h
    · next e s' h1 =>
      cases h
      obtain ⟨_, code, rfl, ht1⟩ := invoke_error h1
      exact Or.inr (Or.inl ⟨rd, code, rfl, ht1⟩)
    · next n s' h1 =>
      obtain ⟨_, ht1⟩ := invoke_ok h1
      split at h
      · next e s'' h2 =>
        cases h
        obtain ⟨_, code, rfl, ht2⟩ := invoke_error h2
        refine Or.inr (Or.inr (Or.inl ⟨rd, n.val, code, rfl, ?_⟩))
        rw [ht2, ht1, List.append_assoc]; rfl
      · next u s'' h2 =>
        cases h
        obtain ⟨_, ht2⟩ := invoke_ok h2
        refine Or.inr (Or.inr (Or.inr ⟨rd, n.val, rfl, ?_⟩))
        rw [ht2, ht1, List.append_assoc]; rfl

/-- C15: a read call with a non-null buffer whose load (the load and copy-out
of line 267) throws an error code other than the stale-handle code returns 0
and leaves the session record (stream handle, reader, logical position,
end-of-stream flag, retry counter) as it was; its record of collaborator calls
holds the one load, no reattachment attempt and no reseek. -/
theorem C15_other_load_error_is_not_retried (os : OS W) (access : stream_t) (b size : Nat)
    (s : St W) (code : hresult)
    (hload : (read_async os s.p_sys.data_reader (size % 2 ^ 32) s).1
      = .error (.hresult_error code))
    (hcode : code ≠ STALE_HANDLE) :
    (read os access (some b) size s).1 = .ok 0 ∧
    (read os access (some b) size s).2.p_sys = s.p_sys ∧
    ∃ ev, (read os access (some b) size s).2.trace = s.trace ++ ev ∧
      loads ev = 1 ∧ reattach_attempts ev = 0 ∧ reseeks ev = 0 := by
  rcases h1 : read_async os s.p_sys.data_reader (size % 2 ^ 32) s with ⟨r1, s1⟩
  rw [h1] at hload
  simp only at hload
  subst hload
  rw [read_other_error h1 hcode]
  refine ⟨rfl, (read_async_cases h1).1, ?_⟩
  rcases read_async_trace h1 with ⟨hc, _⟩ | ⟨rd, c, _, ht⟩ | ⟨rd, n, c, _, ht⟩ | ⟨rd, n, hc, _⟩
  · cases hc
  · exact ⟨_, ht, rfl, rfl, rfl⟩
  · exact ⟨_, ht, rfl, rfl, rfl⟩
  · cases hc

/-- C15 on the test double whose loads throw `E_FAIL`: the read returns 0 and
the session record is what it was. -/
theorem C15_other_load_error_is_not_retried_witness :
    (read (memOS load_fails) test_access (some 1) 50 (mem_session 100 10 0)).1 = .ok 0 ∧
    (read (memOS load_fails) test_access (some 1) 50 (mem_session 100 10 0)).2.p_sys
      = (mem_session 100 10 0).p_sys ∧
    ∃ ev, (read (memOS load_fails) test_access (some 1) 50 (mem_session 100 10 0)).2.trace
        = (mem_session 100 10 0).trace ++ ev ∧
      loads ev = 1 ∧ reattach_attempts ev = 0 ∧ reseeks ev = 0 :=
  C15_other_load_error_is_not_retried (memOS load_fails) test_access 1 50
    (mem_session 100 10 0) E_FAIL rfl (by decide)

/-- A token opener returns a status, never throws; when the status is
`VLC_SUCCESS` a stream handle and a reader are installed. -/
theorem token_opener_cases {os : OS W} {token : hstring} {s s1 : St W}
    {r : Except Signal Int}
    (h : open_file_from_future_access_token os token s = (r, s1) ∨
      open_file_from_shared_access_token os token s = (r, s1)) :
    (r = .ok VLC_SUCCESS ∧ ∃ st rd, s1.p_sys.read_stream = some st ∧
      s1.p_sys.data_reader = some rd) ∨ r = .ok VLC_EGENERIC := by
  rcases h with h | h
  · unfold open_file_from_future_access_token open_file_from_future_access_token_async at h
    split at h
    · cases h; exact Or.inr rfl
    · next e s2 hne hx =>
      exfalso
      split at hx
      · next e' s3 h1 =>
        cases hx
        obtain ⟨_, code, hc, _⟩ := invoke_error h1
        exact hne code (by rw [hc])
      · next file s3 h1 =>
        obtain ⟨_, code, hc, _⟩ := invoke_error hx
        exact hne code (by rw [hc])
    · next stream s2 hx =>
      split at h
      · next u s3 h2 =>
        cases h
        rcases set_stream_cases h2 with ⟨_, rd, hp, _⟩ | ⟨⟨code, hc⟩, _⟩
        · exact Or.inl ⟨rfl, stream, rd, by rw [hp], by rw [hp]⟩
        · cases hc
      · cases h; exact Or.inr rfl
      · next e s3 hne h2 =>
        exfalso
        rcases set_stream_cases h2 with ⟨hc, _⟩ | ⟨⟨code, hc⟩, _⟩
        · cases hc
        · exact hne code (Except.error.inj hc)
  · unfold open_file_from_shared_access_token open_file_from_shared_access_token_async at h
    split at h
    · cases h; exact Or.inr rfl
    · next e s2 hne hx =>
      exfalso
      split at hx
      · next e' s3 h1 =>
        cases hx
        obtain ⟨_, code, hc, _⟩ := invoke_error h1
        exact hne code (by rw [hc])
      · next file s3 h1 =>
        obtain ⟨_, code, hc, _⟩ := invoke_error hx
        exact hne code (by rw [hc])
    · next stream s2 hx =>
      split at h
      · next u s3 h2 =>
        cases h
        rcases set_stream_cases h2 with ⟨_, rd, hp, _⟩ | ⟨⟨code, hc⟩, _⟩
        · exact Or.inl ⟨rfl, stream, rd, by rw [hp], by rw [hp]⟩
        · cases hc
      · cases h; exact Or.inr rfl
      · next e s3 hne h2 =>
        exfalso
        rcases set_stream_cases h2 with ⟨hc, _⟩ | ⟨⟨code, hc⟩, _⟩
        · cases hc
        · exact hne code (Except.error.inj hc)

/-- Every acquisition procedure returns a status, never throws; when the
status is `VLC_SUCCESS` a stream handle and a reader are installed. -/
theorem call_pf_open_cases {os : OS W} {pf : pf_open_t} {token : hstring} {s s1 : St W}
    {r : Except Signal Int} (h : call_pf_open pf os token s = (r, s1)) :
    (r = .ok VLC_SUCCESS ∧ ∃ st rd, s1.p_sys.read_stream = some st ∧
      s1.p_sys.data_reader = some rd) ∨ r = .ok VLC_EGENERIC := by
  unfold call_pf_open at h
  cases pf
  · exact token_opener_cases (Or.inr h)
  · exact token_opener_cases (Or.inl h)
  · rcases open_file_from_path_cases h with ⟨hr, _, st, rd, hp, _⟩ | ⟨hr, _⟩
    · exact Or.inl ⟨hr, st, rd, by rw [hp], by rw [hp]⟩
    · exact Or.inr hr
  · simp only [noop_open_fn] at h
    cases h
    exact Or.inr rfl

/-- C16: when the acquisition procedure `Open` selected and ran on the session
it allocated does not return `VLC_SUCCESS`, `Open` returns `VLC_EGENERIC`, the
machine it leaves is the one `Close` leaves, with no session object, and the
host's stream object with its entry points is what it was. And when `Open`
returns `VLC_SUCCESS`, the acquisition procedure returned `VLC_SUCCESS`, the
session object is retained with a stream handle and a reader installed, and the
three entry points are installed. -/
theorem C16_failed_acquisition_releases_session (os : OS W) (m : Machine W) :
    (∀ token pf w, Open_select m.access = some (token, pf) →
      pf ≠ pf_open_t.noop_open_fn → os.operator_new m.world = (true, w) →
      (call_pf_open pf os token
          { p_sys := new_access_sys_t, world := w,
            trace := m.trace ++ [⟨.operator_new, .ok 1⟩] }).1 ≠ .ok VLC_SUCCESS →
      ∃ s1, call_pf_open pf os token
          { p_sys := new_access_sys_t, world := w,
            trace := m.trace ++ [⟨.operator_new, .ok 1⟩] } = (.ok VLC_EGENERIC, s1) ∧
        Open os m = (.ok VLC_EGENERIC,
          { m with p_sys := none, world := s1.world, trace := s1.trace }) ∧
        Close { m with p_sys := some s1.p_sys, world := s1.world, trace := s1.trace }
          = (.ok (), { m with p_sys := none, world := s1.world, trace := s1.trace })) ∧
    (∀ m1, Open os m = (.ok VLC_SUCCESS, m1) →
      ∃ token pf w s1 st rd, Open_select m.access = some (token, pf) ∧
        os.operator_new m.world = (true, w) ∧
        call_pf_open pf os token
          { p_sys := new_access_sys_t, world := w,
            trace := m.trace ++ [⟨.operator_new, .ok 1⟩] } = (.ok VLC_SUCCESS, s1) ∧
        m1.p_sys = some s1.p_sys ∧ s1.p_sys.read_stream = some st ∧
        s1.p_sys.data_reader = some rd ∧
        m1.access = { m.access with pf_read := true, pf_seek := true, pf_control := true }) := by
  constructor
  · intro token pf w hsel hpf hnew hfail
    rcases hc : call_pf_open pf os token
          { p_sys := new_access_sys_t, world := w,
            trace := m.trace ++ [⟨.operator_new, .ok 1⟩] } with ⟨r, s1⟩
    rw [hc] at hfail
    rcases call_pf_open_cases hc with ⟨hr, _⟩ | hr
    · exact absurd hr hfail
    · subst hr
      refine ⟨s1, rfl, ?_, rfl⟩
      unfold Open
      rw [hsel]
      simp only [hpf, if_false]
      rw [hnew]
      simp only
      rw [hc]
      have hne : VLC_EGENERIC ≠ VLC_SUCCESS := fun e => VLC_SUCCESS_ne_EGENERIC e.symm
      simp only [hne, ne_eq, not_false_eq_true, if_true]
      rfl
  · intro m1 h
    unfold Open at h
    split at h
    · cases h
    · next token pf hsel =>
      split at h
      · cases h
      · split at h
        · cases h
        · next w hnew =>
          split at h
          · cases h
          · next r s1 hc =>
            split at h
            · simp only at h
              split at h
              · cases h
              · cases h
            · next hr =>
              cases h
              have hr' : r = VLC_SUCCESS := not_not.1 hr
              subst hr'
              rcases call_pf_open_cases hc with ⟨_, st, rd, hst, hrd⟩ | hr
              · exact ⟨token, pf, w, s1, st, rd, hsel, hnew, hc, rfl, hst, hrd, rfl⟩
              · exact absurd (Except.ok.inj hr) VLC_SUCCESS_ne_EGENERIC

/-- C16 on the test double whose path resolution throws: `Open` for the
shortcut `file` and the plain path `notaguid` returns `VLC_EGENERIC`, retains
no session object and installs no entry point. -/
theorem C16_failed_acquisition_releases_session_witness :
    (Open (memOS resolve_fails) notaguid_machine).1 = .ok VLC_EGENERIC ∧
    (Open (memOS resolve_fails) notaguid_machine).2.p_sys = none ∧
    (Open (memOS resolve_fails) notaguid_machine).2.access = notaguid_machine.access ∧
    notaguid_machine.access.pf_read = false ∧ notaguid_machine.access.pf_seek = false ∧
    notaguid_machine.access.pf_control = false :=
  have h := (C16_failed_acquisition_releases_session (memOS resolve_fails)
    notaguid_machine).1 (to_hstring "notaguid".toList) pf_open_t.open_file_from_path _
    rfl (by decide) rfl (fun e => VLC_SUCCESS_ne_EGENERIC (Except.ok.inj e).symm)
  ⟨by obtain ⟨s1, _, h2, _⟩ := h; rw [h2],
    by obtain ⟨s1, _, h2, _⟩ := h; rw [h2],
    by obtain ⟨s1, _, h2, _⟩ := h; rw [h2], rfl, rfl, rfl⟩

theorem get_open_function_future {token : hstring}
    (h1 : ¬ SharedTokenShape token) (h2 : FutureTokenShape token) :
    get_open_function token = pf_open_t.open_file_from_future_access_token := by
  have e1 : ¬ is_shared_access_token_valid token = true :=
    fun h => h1 ((shared_valid_iff_shape token).1 h)
  have e2 : is_future_access_token_valid token = true := (future_valid_iff_shape token).2 h2
  unfold get_open_function
  rw [if_neg e1, if_pos e2]

theorem future_token_select :
    Open_select future_token_machine.access =
      some (ascii "{01234567-89ab-cdef-0123-456789abcdef}",
        pf_open_t.open_file_from_future_access_token) := by
  have hname : future_token_machine.access.psz_name = ['w', 'i', 'n', 'r', 't'] := rfl
  rw [Open_select_winrt hname, get_open_function_future (by decide) (by decide)]
  rfl

theorem future_token_open :
    Open (memOS no_fault) future_token_machine =
      (.ok VLC_SUCCESS,
        { access := { future_token_access with pf_read := true, pf_seek := true,
                                                pf_control := true },
          p_sys := some { read_stream := some 0, data_reader := some 0, i_pos := 0,
                          retries := 0, b_eof := false },
          world := { file_size := 100, streams := [0], readers := [0], clock := 4 },
          trace := [⟨.operator_new, .ok 1⟩,
            ⟨.FutureAccessList_GetFileAsync (ascii "{01234567-89ab-cdef-0123-456789abcdef}"),
              .ok 0⟩,
            ⟨.OpenReadAsync 0, .ok 0⟩, ⟨.DataReader_new (some 0), .ok 0⟩,
            ⟨.InputStreamOptions 0 3, .ok 0⟩] }) := by
  unfold Open
  rw [future_token_select]
  rfl

/-- C17: on the test double over a file of 100 bytes with no fault, for the
shortcut `winrt` and the location `{01234567-89ab-cdef-0123-456789abcdef}`:
`Open` selects `open_file_from_future_access_token`, whose lookup and open
calls it records, returns `VLC_SUCCESS` and leaves a session with logical
position 0; `control(STREAM_GET_SIZE)` then writes 100; `read(buf, 50)` returns
50 and leaves logical position 50 with the end-of-stream flag false; a
following `read(buf, 60)` returns 50, leaves logical position 100 and sets the
flag. -/
theorem C17_future_token_end_to_end :
    Open_select future_token_machine.access =
      some (ascii "{01234567-89ab-cdef-0123-456789abcdef}",
        pf_open_t.open_file_from_future_access_token) ∧
    (Open (memOS no_fault) future_token_machine).1 = .ok VLC_SUCCESS ∧
    (Open (memOS no_fault) future_token_machine).2.trace =
      [⟨.operator_new, .ok 1⟩,
        ⟨.FutureAccessList_GetFileAsync (ascii "{01234567-89ab-cdef-0123-456789abcdef}"),
          .ok 0⟩,
        ⟨.OpenReadAsync 0, .ok 0⟩, ⟨.DataReader_new (some 0), .ok 0⟩,
        ⟨.InputStreamOptions 0 3, .ok 0⟩] ∧
    (Open (memOS no_fault) future_token_machine).2.p_sys = some future_session.p_sys ∧
    future_session.p_sys.i_pos = 0 ∧
    (control (memOS no_fault) .STREAM_GET_SIZE future_session).1
      = .ok (VLC_SUCCESS, .uint64 100) ∧
    (read (memOS no_fault) future_token_access (some 1) 50
      (control (memOS no_fault) .STREAM_GET_SIZE future_session).2).1 = .ok 50 ∧
    (read (memOS no_fault) future_token_access (some 1) 50
      (control (memOS no_fault) .STREAM_GET_SIZE future_session).2).2.p_sys.i_pos = 50 ∧
    (read (memOS no_fault) future_token_access (some 1) 50
      (control (memOS no_fault) .STREAM_GET_SIZE future_session).2).2.p_sys.b_eof = false ∧
    (read (memOS no_fault) future_token_access (some 1) 60
      (read (memOS no_fault) future_token_access (some 1) 50
        (control (memOS no_fault) .STREAM_GET_SIZE future_session).2).2).1 = .ok 50 ∧
    (read (memOS no_fault) future_token_access (some 1) 60
      (read (memOS no_fault) future_token_access (some 1) 50
        (control (memOS no_fault) .STREAM_GET_SIZE future_session).2).2).2.p_sys.i_pos = 100 ∧
    (read (memOS no_fault) future_token_access (some 1) 60
      (read (memOS no_fault) future_token_access (some 1) 50
        (control (memOS no_fault) .STREAM_GET_SIZE future_session).2).2).2.p_sys.b_eof
      = true := by
  have hs : future_session =
      { p_sys := { read_stream := some 0, data_reader := some 0, i_pos := 0, retries := 0,
                   b_eof := false },
        world := { file_size := 100, streams := [0], readers := [0], clock := 4 },
        trace := [⟨.operator_new, .ok 1⟩,
          ⟨.FutureAccessList_GetFileAsync (ascii "{01234567-89ab-cdef-0123-456789abcdef}"),
            .ok 0⟩,
          ⟨.OpenReadAsync 0, .ok 0⟩, ⟨.DataReader_new (some 0), .ok 0⟩,
          ⟨.InputStreamOptions 0 3, .ok 0⟩] } := by
    unfold future_session
    rw [future_token_open]
  rw [hs, future_token_open]
  refine ⟨future_token_select, rfl, rfl, rfl, rfl, rfl, ?_⟩
  rw [read_loaded_of_fst (n := 50)]
  · refine ⟨rfl, rfl, rfl, ?_⟩
    show (read (memOS no_fault) future_token_access (some 1) 60 _).1 = _ ∧
      (read _ _ _ _ _).2.p_sys.i_pos = 100 ∧ (read _ _ _ _ _).2.p_sys.b_eof = true
    rw [read_loaded_of_fst (n := 50)]
    · exact ⟨rfl, rfl, rfl⟩
    · rfl
  · rfl

/-! ## One round of `read`, and the whole call -/

theorem reseeks_append (a b : List Event) : reseeks (a ++ b) = reseeks a + reseeks b := by
  unfold reseeks; exact List.countP_append _ _ _

theorem loadsAsk_of_no_load (os : OS W) (count : Nat) {ev : List Event} (h : loads ev = 0) :
    LoadsAsk os count ev := by
  unfold loads at h
  rw [List.countP_eq_zero] at h
  constructor
  · intro e he rd c hc
    have := h e he
    rw [hc] at this
    exact absurd rfl this
  · intro _ e he n hc _
    exact absurd hc (h e he)

theorem loadsAsk_append {os : OS W} {count : Nat} {a b : List Event}
    (ha : LoadsAsk os count a) (hb : LoadsAsk os count b) : LoadsAsk os count (a ++ b) := by
  constructor
  · intro e he rd c hc
    rcases List.mem_append.1 he with he | he
    · exact ha.1 e he rd c hc
    · exact hb.1 e he rd c hc
  · intro hbd e he n hc hr
    rcases List.mem_append.1 he with he | he
    · exact ha.2 hbd e he n hc hr
    · exact hb.2 hbd e he n hc hr

/-- `read_async` with its record: the load asks for `count` bytes; the record
holds no reattachment and no reseek. -/
theorem read_async_run {os : OS W} {reader : DataReader} {count : Nat} {s s1 : St W}
    {r : Except Signal Nat} (h : read_async os reader count s = (r, s1)) :
    s1.p_sys = s.p_sys ∧ ∃ ev, s1.trace = s.trace ++ ev ∧ reattach_attempts ev = 0 ∧
      reseeks ev = 0 ∧ LoadsAsk os count ev ∧
      ((∃ rd n, reader = some rd ∧ r = .ok n ∧ n < 2 ^ 32 ∧ (LoadBounded os → n ≤ count) ∧
          ev = [⟨.LoadAsync rd count, .ok n⟩, ⟨.ReadBytes rd n, .ok 0⟩]) ∨
       (∃ code, r = .error (.hresult_error code) ∧ reader ≠ none ∧ LastIsError ev ∧
          loads ev = 1 ∧ queries ev = 0) ∨
       (r = .error .access_violation ∧ reader = none ∧ ev = [])) := by
  unfold read_async at h
  split at h
  · cases h
    exact ⟨rfl, [], (List.append_nil _).symm, rfl, rfl, loadsAsk_of_no_load os count rfl,
      Or.inr (Or.inr ⟨rfl, rfl, rfl⟩)⟩
  · next rd =>
    split at h
    · next e s' h1 =>
      cases h
      obtain ⟨hp1, code, rfl, ht1⟩ := invoke_error h1
      refine ⟨hp1, _, ht1, rfl, rfl, ⟨?_, ?_⟩,
        Or.inr (Or.inl ⟨code, rfl, by simp, lastIsError_single _ _, rfl, rfl⟩)⟩
      · intro e he rd' c hc
        rw [List.mem_singleton] at he
        subst he
        cases hc
        rfl
      · intro _ e he n _ hr
        rw [List.mem_singleton] at he
        subst he
        cases hr
    · next n s' h1 =>
      obtain ⟨hp1, hcase⟩ := invoke_cases h1
      rcases hcase with ⟨a, ha, hw, ht1⟩ | ⟨_, ha, _⟩
      · cases ha
        have hbound : LoadBounded os → n.val ≤ count := fun hb =>
          hb rd count s.world n (by rw [hw])
        have hask : ∀ o : Outcome, LoadsAsk os count
            [⟨.LoadAsync rd count, .ok n.val⟩, ⟨.ReadBytes rd n.val, o⟩] := by
          intro o
          constructor
          · intro e he rd' c hc
            simp only [List.mem_cons, List.mem_singleton, List.not_mem_nil, or_false] at he
            rcases he with rfl | rfl
            · cases hc; rfl
            · cases hc
          · intro hb e he m hc hr
            simp only [List.mem_cons, List.mem_singleton, List.not_mem_nil, or_false] at he
            rcases he with rfl | rfl
            · cases hr
              exact hbound hb
            · cases hc
        split at h
        · next e s'' h2 =>
          cases h
          obtain ⟨hp2, code, rfl, ht2⟩ := invoke_error h2
          refine ⟨hp2.trans hp1,
            [⟨.LoadAsync rd count, .ok n.val⟩, ⟨.ReadBytes rd n.val, .error code⟩], ?_,
            rfl, rfl, hask _,
            Or.inr (Or.inl ⟨code, rfl, by simp,
              ⟨[⟨.LoadAsync rd count, .ok n.val⟩], _, _, rfl⟩, rfl, rfl⟩)⟩
          rw [ht2, ht1, List.append_assoc]; rfl
        · next u s'' h2 =>
          cases h
          obtain ⟨hp2, ht2⟩ := invoke_ok h2
          refine ⟨hp2.trans hp1,
            [⟨.LoadAsync rd count, .ok n.val⟩, ⟨.ReadBytes rd n.val, .ok 0⟩], ?_,
            rfl, rfl, hask _, Or.inl ⟨rd, n.val, rfl, rfl, n.isLt, hbound, rfl⟩⟩
          rw [ht2, ht1, List.append_assoc]; rfl
      · cases ha

/-- One round of a read call with a non-null buffer (one pass through lines
260-292). Either the call ends in this round, after at most one load and at
most one reattachment attempt: with a successful load of `n` bytes, which it
returns, or giving up, and then a value it returns is 0, it made one load and
the retry counter is what it was. Or the round ends in a successful reseek
with the retry counter below 3, after one load and one reattachment attempt,
and the call continues as a read with the counter one higher. -/
theorem read_round (os : OS W) (access : stream_t) (b size : Nat) (s : St W)
    (r : Except Signal Int) (s' : St W) (h : read os access (some b) size s = (r, s')) :
    (∃ ev, s'.trace = s.trace ++ ev ∧ loads ev ≤ 1 ∧ reattach_attempts ev ≤ 1 ∧
        LoadsAsk os (size % 2 ^ 32) ev ∧
        ((∃ n : Nat, EndsInLoad ev n ∧ r = .ok (n : Int) ∧
            (LoadBounded os → n ≤ size % 2 ^ 32)) ∨
         (GaveUp ev ∧ ∀ v, r = .ok v →
            v = 0 ∧ loads ev = 1 ∧ s'.p_sys.retries = s.p_sys.retries))) ∨
    (∃ (s3 : St W) (ev : List Event), s3.trace = s.trace ++ ev ∧ loads ev = 1 ∧ reattach_attempts ev = 1 ∧
        LoadsAsk os (size % 2 ^ 32) ev ∧ EndsInReseek ev ∧
        s3.p_sys.retries = s.p_sys.retries ∧ s.p_sys.retries < 3 ∧
        read os access (some b) size
          { s3 with p_sys := { s3.p_sys with retries := s3.p_sys.retries + 1 } } = (r, s')) := by
  rcases h1 : read_async os s.p_sys.data_reader (size % 2 ^ 32) s with ⟨r1, s1⟩
  obtain ⟨hp1, ev1, ht1, hra1, _, hask1, hcase⟩ := read_async_run h1
  rcases hcase with ⟨rd, n, hrd, hr1, hn, hbn, hev1⟩ | ⟨code, hr1, _, he1, hl1, _⟩ |
    ⟨hr1, _, hev1⟩
  · -- the load and the copy-out succeeded
    subst hr1
    have hl1 : loads ev1 = 1 := by rw [hev1]; rfl
    rw [read_loaded h1] at h
    rcases h4 : position_ge_size os { s1 with p_sys :=
      { s1.p_sys with i_pos := (s1.p_sys.i_pos + n) % 2 ^ 64 } } with ⟨r4, s4⟩
    rw [h4] at h
    obtain ⟨hp4, hq⟩ := position_ge_size_cases h4
    rcases hq with ⟨st, p, z, _, hr4, ht4⟩ | ⟨code, hr4, _, ev4, ht4, he4, hl4, hra4, _⟩ |
      ⟨hr4, _, hs4⟩
    · subst hr4
      simp only at h
      cases h
      refine Or.inl ⟨ev1 ++ [⟨.Position st, .ok p⟩, ⟨.Size st, .ok z⟩], ?_, ?_, ?_,
        loadsAsk_append hask1 (loadsAsk_of_no_load _ _
          (show loads [⟨.Position st, .ok p⟩, ⟨.Size st, .ok z⟩] = 0 from rfl)),
        Or.inl ⟨n, ⟨[], rd, size % 2 ^ 32, st, st, p, z, by rw [hev1]; rfl⟩, rfl, hbn⟩⟩
      · simp only [ht4, ht1, List.append_assoc]
      · rw [loads_append, hl1]; exact le_of_eq rfl
      · rw [reattach_attempts_append, hra1]; exact Nat.zero_le 1
    · subst hr4
      simp only at h
      cases h
      refine Or.inl ⟨ev1 ++ ev4, ?_, ?_, ?_,
        loadsAsk_append hask1 (loadsAsk_of_no_load _ _ hl4),
        Or.inr ⟨GaveUp.of_error (lastIsError_append _ he4), fun v hv => by cases hv⟩⟩
      · simp only [ht4, ht1, List.append_assoc]
      · rw [loads_append, hl1, hl4]
      · rw [reattach_attempts_append, hra1, hra4]; exact Nat.zero_le 1
    · subst hr4
      simp only at h
      cases h
      refine Or.inl ⟨ev1, ?_, le_of_eq hl1, by rw [hra1]; exact Nat.zero_le 1, hask1,
        Or.inr ⟨Or.inr (Or.inr (Or.inr ⟨[_], rd, n, hev1⟩)), fun v hv => by cases hv⟩⟩
      rw [hs4]
      exact ht1
  · -- the load or the copy-out threw
    subst hr1
    by_cases hc : code = STALE_HANDLE
    · subst hc
      rw [read_stale h1] at h
      rcases h2 : open_file_from_path os (to_hstring access.psz_location) s1 with ⟨r2, s2⟩
      rw [h2] at h
      have hret2 : s2.p_sys.retries = s.p_sys.retries := by
        rw [open_file_from_path_retries h2, hp1]
      rcases open_file_from_path_cases h2 with
        ⟨hr2, file, stream, reader, hp2, ht2⟩ | ⟨hr2, _, ev2, ht2, ⟨he2, hl2, _⟩, hra2⟩
      · subst hr2
        simp only [if_true] at h
        obtain ⟨ev2, ht2, hl2, hra2⟩ : ∃ ev2, s2.trace = s1.trace ++ ev2 ∧ loads ev2 = 0 ∧
            reattach_attempts ev2 = 1 := ⟨_, ht2, rfl, rfl⟩
        rcases h3 : seek os s2.p_sys.i_pos s2 with ⟨r3, s3⟩
        rw [h3] at h
        have hret3 : s3.p_sys.retries = s.p_sys.retries := by rw [seek_retries h3, hret2]
        rcases seek_cases h3 with ⟨hr3, st, c, rd, p, z, _, _, ht3⟩ |
          ⟨hr3, _, _, ev3, ht3, ⟨he3, hl3, _⟩, hra3⟩ |
          ⟨hr3, _, _, ev3, ht3, he3, hl3, hra3, _⟩ | ⟨_, hnone, _⟩
        · subst hr3
          simp only [if_true] at h
          obtain ⟨ev3, ht3, hl3, hra3, hre3⟩ : ∃ ev3, s3.trace = s2.trace ++ ev3 ∧
              loads ev3 = 0 ∧ reattach_attempts ev3 = 0 ∧ EndsInReseek ev3 :=
            ⟨_, ht3, rfl, rfl,
              ⟨[⟨.CloneStream st, .ok c⟩, ⟨.Seek c s2.p_sys.i_pos, .ok 0⟩,
                ⟨.DataReader_new (some c), .ok rd⟩], rd, 3, c, c, p, z, rfl⟩⟩
          have htr : s3.trace = s.trace ++ (ev1 ++ (ev2 ++ ev3)) := by
            rw [ht3, ht2, ht1]; simp only [List.append_assoc]
          have hl : loads (ev1 ++ (ev2 ++ ev3)) = 1 := by
            rw [loads_append, loads_append, hl1, hl2, hl3]
          have hra : reattach_attempts (ev1 ++ (ev2 ++ ev3)) = 1 := by
            rw [reattach_attempts_append, reattach_attempts_append, hra1, hra2, hra3]
          have hask : LoadsAsk os (size % 2 ^ 32) (ev1 ++ (ev2 ++ ev3)) :=
            loadsAsk_append hask1
              (loadsAsk_append (loadsAsk_of_no_load _ _ hl2) (loadsAsk_of_no_load _ _ hl3))
          have hre : EndsInReseek (ev1 ++ (ev2 ++ ev3)) := by
            obtain ⟨pre, rd', o, c1, c2, p', z', hpre⟩ := hre3
            exact ⟨ev1 ++ (ev2 ++ pre), rd', o, c1, c2, p', z', by
              rw [hpre]; simp only [List.append_assoc]⟩
          split at h
          · next hlt =>
            rw [Nat.mod_eq_of_lt (by omega)] at h
            exact Or.inr ⟨s3, _, htr, hl, hra, hask, hre, hret3, by omega, h⟩
          · cases h
            exact Or.inl ⟨_, htr, le_of_eq hl, le_of_eq hra, hask,
              Or.inr ⟨GaveUp.of_reseek hre, fun v hv => ⟨(Except.ok.inj hv).symm, hl, hret3⟩⟩⟩
        · subst hr3
          have hne : ¬ VLC_EGENERIC = VLC_SUCCESS := fun e => VLC_SUCCESS_ne_EGENERIC e.symm
          simp only [hne, if_false] at h
          cases h
          have hl : loads (ev1 ++ (ev2 ++ ev3)) = 1 := by
            rw [loads_append, loads_append, hl1, hl2, hl3]
          refine Or.inl ⟨ev1 ++ (ev2 ++ ev3), ?_, le_of_eq hl, ?_,
            loadsAsk_append hask1
              (loadsAsk_append (loadsAsk_of_no_load _ _ hl2) (loadsAsk_of_no_load _ _ hl3)),
            Or.inr ⟨GaveUp.of_error (lastIsError_append _ (lastIsError_append _ he3)),
              fun v hv => ⟨(Except.ok.inj hv).symm, hl, hret3⟩⟩⟩
          · rw [ht3, ht2, ht1]; simp only [List.append_assoc]
          · rw [reattach_attempts_append, reattach_attempts_append, hra1, hra2, hra3]
        · subst hr3
          have hne : ¬ VLC_EGENERIC = VLC_SUCCESS := fun e => VLC_SUCCESS_ne_EGENERIC e.symm
          simp only [hne, if_false] at h
          cases h
          have hl : loads (ev1 ++ (ev2 ++ ev3)) = 1 := by
            rw [loads_append, loads_append, hl1, hl2, hl3]
          refine Or.inl ⟨ev1 ++ (ev2 ++ ev3), ?_, le_of_eq hl, ?_,
            loadsAsk_append hask1
              (loadsAsk_append (loadsAsk_of_no_load _ _ hl2) (loadsAsk_of_no_load _ _ hl3)),
            Or.inr ⟨GaveUp.of_error (lastIsError_append _ (lastIsError_append _ he3)),
              fun v hv => ⟨(Except.ok.inj hv).symm, hl, hret3⟩⟩⟩
          · rw [ht3, ht2, ht1]; simp only [List.append_assoc]
          · rw [reattach_attempts_append, reattach_attempts_append, hra1, hra2, hra3]
        · rw [hp2] at hnone
          cases hnone
      · subst hr2
        have hne : ¬ VLC_EGENERIC = VLC_SUCCESS := fun e => VLC_SUCCESS_ne_EGENERIC e.symm
        simp only [hne, if_false] at h
        cases h
        have hl : loads (ev1 ++ ev2) = 1 := by rw [loads_append, hl1, hl2]
        refine Or.inl ⟨ev1 ++ ev2, ?_, le_of_eq hl, ?_,
          loadsAsk_append hask1 (loadsAsk_of_no_load _ _ hl2),
          Or.inr ⟨GaveUp.of_error (lastIsError_append _ he2),
            fun v hv => ⟨(Except.ok.inj hv).symm, hl, hret2⟩⟩⟩
        · rw [ht2, ht1, List.append_assoc]
        · rw [reattach_attempts_append, hra1, hra2]
    · rw [read_other_error h1 hc] at h
      cases h
      exact Or.inl ⟨ev1, ht1, le_of_eq hl1, by rw [hra1]; exact Nat.zero_le 1, hask1,
        Or.inr ⟨GaveUp.of_error he1,
          fun v hv => ⟨(Except.ok.inj hv).symm, hl1, by rw [hp1]⟩⟩⟩
  · -- the reader reference is null
    subst hr1
    rw [read_access_violation h1] at h
    cases h
    refine Or.inl ⟨ev1, ht1, by rw [hev1]; exact Nat.zero_le 1,
      by rw [hra1]; exact Nat.zero_le 1, hask1, Or.inr ⟨Or.inl hev1, fun v hv => by cases hv⟩⟩

/-- A whole read call with a non-null buffer, by induction on `3 - retries`:
its record holds at most `3 - retries + 1` loads and reattachment attempts,
every load asks for `size % 2^32` bytes, and the call either ends in a
successful load whose byte count it returns, or gives up, and then a value it
returns is 0 and the retry counter has grown by the number of loads but one. -/
theorem read_run (os : OS W) (access : stream_t) (b : Nat) (size : Nat) :
    ∀ (k : Nat) (s : St W), 3 - s.p_sys.retries = k →
      ∀ (r : Except Signal Int) (s' : St W), read os access (some b) size s = (r, s') →
        ∃ ev, s'.trace = s.trace ++ ev ∧ loads ev ≤ k + 1 ∧ reattach_attempts ev ≤ k + 1 ∧
          LoadsAsk os (size % 2 ^ 32) ev ∧
          ((∃ n : Nat, EndsInLoad ev n ∧ r = .ok (n : Int) ∧
              (LoadBounded os → n ≤ size % 2 ^ 32)) ∨
           (GaveUp ev ∧ ∀ v, r = .ok v →
              v = 0 ∧ 1 ≤ loads ev ∧ s'.p_sys.retries + 1 = s.p_sys.retries + loads ev)) := by
  intro k
  induction k using Nat.strong_induction_on with
  | _ k ih =>
    intro s hk r s' h
    rcases read_round os access b size s r s' h with
      ⟨ev, htr, hl, hra, hask, hcls⟩ | ⟨s3, ev, htr, hl, hra, hask, hre, hret, hlt, hrec⟩
    · refine ⟨ev, htr, by omega, by omega, hask, ?_⟩
      rcases hcls with hload | ⟨hg, hv⟩
      · exact Or.inl hload
      · refine Or.inr ⟨hg, fun v hr => ?_⟩
        obtain ⟨h0, h1, h2⟩ := hv v hr
        exact ⟨h0, by omega, by omega⟩
    · obtain ⟨ev', htr', hl', hra', hask', hcls'⟩ := ih (3 - (s3.p_sys.retries + 1))
        (by omega) { s3 with p_sys := { s3.p_sys with retries := s3.p_sys.retries + 1 } }
        rfl r s' hrec
      simp only at htr' hcls'
      refine ⟨ev ++ ev', by rw [htr', htr, List.append_assoc], ?_, ?_,
        loadsAsk_append hask hask', ?_⟩
      · rw [loads_append]; omega
      · rw [reattach_attempts_append]; omega
      · rcases hcls' with ⟨n, hn, hr, hb⟩ | ⟨hg, hv⟩
        · exact Or.inl ⟨n, endsInLoad_append _ hn, hr, hb⟩
        · refine Or.inr ⟨hg.after_reseek hre, fun v hr => ?_⟩
          obtain ⟨h0, h1, h2⟩ := hv v hr
          refine ⟨h0, ?_, ?_⟩
          · rw [loads_append]; omega
          · rw [loads_append]; omega

theorem invoke_reseeks {α : Type} {s : St W} {c : OSCall} {op : W → Except hresult α × W}
    {enc : α → Nat} {r : Except Signal α} {s1 : St W} (h : s.invoke c op enc = (r, s1)) :
    ∃ ev, s1.trace = s.trace ++ ev ∧ reseeks ev = if c.is_reseek then 1 else 0 := by
  unfold St.invoke at h
  split at h <;>
    (cases h
     refine ⟨_, rfl, ?_⟩
     unfold reseeks
     rw [List.countP_singleton])

theorem set_stream_reseeks {os : OS W} {stream : IRandomAccessStream} {s s1 : St W}
    {r : Except Signal Unit} (h : set_stream os stream s = (r, s1)) :
    ∃ ev, s1.trace = s.trace ++ ev ∧ reseeks ev = 0 := by
  unfold set_stream at h
  split at h
  · next h1 =>
    cases h
    exact invoke_reseeks h1
  · next h1 =>
    obtain ⟨ev1, ht, hr1⟩ := invoke_reseeks h1
    simp only at h
    split at h
    · next h2 =>
      cases h
      obtain ⟨ev2, ht2, hr2⟩ := invoke_reseeks h2
      refine ⟨ev1 ++ ev2, by rw [ht2, ht, List.append_assoc], ?_⟩
      rw [reseeks_append, hr1, hr2]
      rfl
    · next h2 =>
      cases h
      obtain ⟨ev2, ht2, hr2⟩ := invoke_reseeks h2
      refine ⟨ev1 ++ ev2, by simp only [ht2, ht, List.append_assoc], ?_⟩
      rw [reseeks_append, hr1, hr2]
      rfl

theorem position_ge_size_reseeks {os : OS W} {s s1 : St W} {r : Except Signal Bool}
    (h : position_ge_size os s = (r, s1)) :
    ∃ ev, s1.trace = s.trace ++ ev ∧ reseeks ev = 0 := by
  unfold position_ge_size at h
  split at h
  · cases h
    exact ⟨[], (List.append_nil _).symm, rfl⟩
  · split at h
    · next h1 =>
      cases h
      exact invoke_reseeks h1
    · next h1 =>
      obtain ⟨ev1, ht, hr1⟩ := invoke_reseeks h1
      split at h
      · next h2 =>
        cases h
        obtain ⟨ev2, ht2, hr2⟩ := invoke_reseeks h2
        refine ⟨ev1 ++ ev2, by rw [ht2, ht, List.append_assoc], ?_⟩
        rw [reseeks_append, hr1, hr2]
        rfl
      · next h2 =>
        cases h
        obtain ⟨ev2, ht2, hr2⟩ := invoke_reseeks h2
        refine ⟨ev1 ++ ev2, by rw [ht2, ht, List.append_assoc], ?_⟩
        rw [reseeks_append, hr1, hr2]
        rfl

/-- A `seek` on a stream reference that is not null records one reseek. -/
theorem seek_reseeks {os : OS W} {position : Nat} {s s1 : St W} {r : Except Signal Int}
    (hn : s.p_sys.read_stream ≠ none) (h : seek os position s = (r, s1)) :
    ∃ ev, s1.trace = s.trace ++ ev ∧ reseeks ev = 1 := by
  unfold seek at h
  rcases h0 : seek_try os position s with ⟨r0, s0⟩
  rw [h0] at h
  have hs : s1 = s0 := by
    split at h <;> (cases h; rename_i hq; cases hq; rfl)
  subst hs
  clear h
  unfold seek_try at h0
  split at h0
  · next hnone => exact absurd hnone hn
  · next st hst =>
    split at h0
    · next h1 =>
      cases h0
      exact invoke_reseeks h1
    · next c sa h1 =>
      obtain ⟨ev1, ht, hr1⟩ := invoke_reseeks h1
      split at h0
      · next h2 =>
        cases h0
        obtain ⟨ev2, ht2, hr2⟩ := invoke_reseeks h2
        refine ⟨ev1 ++ ev2, by rw [ht2, ht, List.append_assoc], ?_⟩
        rw [reseeks_append, hr1, hr2]
        rfl
      · next u sb h2 =>
        obtain ⟨ev2, ht2, hr2⟩ := invoke_reseeks h2
        split at h0
        · next h3 =>
          cases h0
          obtain ⟨ev3, ht3, hr3⟩ := set_stream_reseeks h3
          refine ⟨ev1 ++ (ev2 ++ ev3), ?_, ?_⟩
          · rw [ht3, ht2, ht]; simp only [List.append_assoc]
          · rw [reseeks_append, reseeks_append, hr1, hr2, hr3]; rfl
        · next u2 sc h3 =>
          obtain ⟨ev3, ht3, hr3⟩ := set_stream_reseeks h3
          simp only at h0
          split at h0
          · next h4 =>
            cases h0
            obtain ⟨ev4, ht4, hr4⟩ := position_ge_size_reseeks h4
            simp only at ht4
            refine ⟨ev1 ++ (ev2 ++ (ev3 ++ ev4)), ?_, ?_⟩
            · rw [ht4, ht3, ht2, ht]; simp only [List.append_assoc]
            · rw [reseeks_append, reseeks_append, reseeks_append, hr1, hr2, hr3, hr4]; rfl
          · next h4 =>
            cases h0
            obtain ⟨ev4, ht4, hr4⟩ := position_ge_size_reseeks h4
            simp only at ht4
            refine ⟨ev1 ++ (ev2 ++ (ev3 ++ ev4)), ?_, ?_⟩
            · simp only [ht4, ht3, ht2, ht, List.append_assoc]
            · rw [reseeks_append, reseeks_append, reseeks_append, hr1, hr2, hr3, hr4]; rfl

/-! ## Termination, the retry counter after a failure, and the 32-bit count -/

/-- C18: `read` is a total function whose one recursive call (line 277) is made
with `3 - retries` strictly smaller. From every session state with
`retries ≤ 3`, whatever the collaborators do, the record of one read call holds
at most `4 - retries` buffered loads and at most `4 - retries` reattachment
attempts. -/
theorem C18_read_terminates_within_bounds (os : OS W) (access : stream_t)
    (buffer : Option Nat) (size : Nat) (s : St W) (h3 : s.p_sys.retries ≤ 3) :
    (∃ ev, (read os access buffer size s).2.trace = s.trace ++ ev ∧
      loads ev ≤ 4 - s.p_sys.retries ∧ reattach_attempts ev ≤ 4 - s.p_sys.retries) ∧
    (∀ (b : Nat) (s1 s2 s3 : St W),
      read_async os s.p_sys.data_reader (size % 2 ^ 32) s
        = (.error (.hresult_error STALE_HANDLE), s1) →
      open_file_from_path os (to_hstring access.psz_location) s1 = (.ok VLC_SUCCESS, s2) →
      seek os s2.p_sys.i_pos s2 = (.ok VLC_SUCCESS, s3) → s3.p_sys.retries < 3 →
      read os access (some b) size s =
        read os access (some b) size
          { s3 with p_sys := { s3.p_sys with retries := (s3.p_sys.retries + 1) % 2 ^ 32 } } ∧
      3 - (s3.p_sys.retries + 1) % 2 ^ 32 < 3 - s.p_sys.retries) := by
  constructor
  · cases buffer with
    | none =>
      rw [read_null]
      rcases h : seek os size s with ⟨r, s1⟩
      have htr : ∃ ev, s1.trace = s.trace ++ ev ∧ loads ev = 0 ∧ reattach_attempts ev = 0 := by
        rcases seek_cases h with ⟨_, st, c, rd, p, z, _, _, ht⟩ |
          ⟨_, _, _, ev, ht, ⟨_, hl, _⟩, hra⟩ | ⟨_, _, _, ev, ht, _, hl, hra, _⟩ | ⟨_, _, hs⟩
        · exact ⟨_, ht, rfl, rfl⟩
        · exact ⟨ev, ht, hl, hra⟩
        · exact ⟨ev, ht, hl, hra⟩
        · exact ⟨[], by rw [hs, List.append_nil], rfl, rfl⟩
      obtain ⟨ev, ht, hl, hra⟩ := htr
      have hres : (match ((r, s1) : Except Signal Int × St W) with
          | (.error e, s1) => ((.error e, s1) : Except Signal Int × St W)
          | (.ok r, s1) =>
            if r = VLC_SUCCESS then (.ok (to_ssize_t size), s1) else (.ok 0, s1)).2 = s1 := by
        cases r with
        | error e => rfl
        | ok v =>
          simp only
          split <;> rfl
      rw [hres]
      exact ⟨ev, ht, by omega, by omega⟩
    | some b =>
      obtain ⟨ev, htr, hl, hra, _⟩ := read_run os access b size _ s rfl _ _ rfl
      exact ⟨ev, htr, by omega, by omega⟩
  · intro b s1 s2 s3 h1 h2 h3' hlt
    have hret : s3.p_sys.retries = s.p_sys.retries := by
      rw [seek_retries h3', open_file_from_path_retries h2, read_async_p_sys h1]
    constructor
    · rw [read_stale h1, h2]
      simp only [if_true]
      rw [h3']
      simp only [if_true, hlt]
    · rw [Nat.mod_eq_of_lt (by omega)]
      omega

/-- C18 on the test double whose loads all go stale: from a retry counter of 0
the read call makes at most 4 loads and at most 4 reattachment attempts. -/
theorem C18_read_terminates_within_bounds_witness :
    ∃ ev, (read (memOS stale_loads) test_access (some 1) 50 (mem_session 100 10 0)).2.trace
        = (mem_session 100 10 0).trace ++ ev ∧
      loads ev ≤ 4 - (mem_session 100 10 0).p_sys.retries ∧
      reattach_attempts ev ≤ 4 - (mem_session 100 10 0).p_sys.retries :=
  (C18_read_terminates_within_bounds (memOS stale_loads) test_access (some 1) 50
    (mem_session 100 10 0) (by decide)).1

/-- A read that finds the retry counter at 3 or above when its load goes stale:
it returns 0 after that one load and one reattachment attempt, with a reseek
when the reattachment succeeded, and leaves the counter alone. -/
theorem read_at_ceiling_record {os : OS W} {access : stream_t} {b size : Nat} {s s1 : St W}
    (h3 : 3 ≤ s.p_sys.retries)
    (h1 : read_async os s.p_sys.data_reader (size % 2 ^ 32) s
      = (.error (.hresult_error STALE_HANDLE), s1)) :
    (read os access (some b) size s).1 = .ok 0 ∧
    (read os access (some b) size s).2.p_sys.retries = s.p_sys.retries ∧
    ∃ ev, (read os access (some b) size s).2.trace = s.trace ++ ev ∧ loads ev = 1 ∧
      reattach_attempts ev = 1 ∧
      ((open_file_from_path os (to_hstring access.psz_location) s1).1 = .ok VLC_SUCCESS →
        reseeks ev = 1) := by
  obtain ⟨hp1, ev1, ht1, hra1, hrs1, _, hcase⟩ := read_async_run h1
  have hl1 : loads ev1 = 1 := by
    rcases hcase with ⟨_, _, _, hc, _⟩ | ⟨_, _, _, _, hl, _⟩ | ⟨hc, _⟩
    · cases hc
    · exact hl
    · cases hc
  rw [read_stale h1]
  rcases h2 : open_file_from_path os (to_hstring access.psz_location) s1 with ⟨r2, s2⟩
  have hret2 : s2.p_sys.retries = s.p_sys.retries := by
    rw [open_file_from_path_retries h2, hp1]
  rcases open_file_from_path_cases h2 with
    ⟨hr2, file, stream, reader, hp2, ht2⟩ | ⟨hr2, _, ev2, ht2, ⟨_, hl2, _⟩, hra2⟩
  · subst hr2
    simp only [if_true]
    obtain ⟨ev2, ht2, hl2, hra2, hrs2⟩ : ∃ ev2, s2.trace = s1.trace ++ ev2 ∧ loads ev2 = 0 ∧
        reattach_attempts ev2 = 1 ∧ reseeks ev2 = 0 := ⟨_, ht2, rfl, rfl, rfl⟩
    rcases h3' : seek os s2.p_sys.i_pos s2 with ⟨r3, s3⟩
    have hret3 : s3.p_sys.retries = s.p_sys.retries := by rw [seek_retries h3', hret2]
    have hst2 : s2.p_sys.read_stream ≠ none := by rw [hp2]; simp
    obtain ⟨ev3, ht3, hrs3⟩ := seek_reseeks hst2 h3'
    have hcnt : loads ev3 = 0 ∧ reattach_attempts ev3 = 0 := by
      rcases seek_cases h3' with ⟨_, st, c, rd, p, z, _, _, ht⟩ |
        ⟨_, _, _, ev, ht, ⟨_, hl, _⟩, hra⟩ | ⟨_, _, _, ev, ht, _, hl, hra, _⟩ | ⟨_, hnone, _⟩
      · have e := List.append_cancel_left (ht3.symm.trans ht)
        rw [e]
        exact ⟨rfl, rfl⟩
      · have e := List.append_cancel_left (ht3.symm.trans ht)
        rw [e]
        exact ⟨hl, hra⟩
      · have e := List.append_cancel_left (ht3.symm.trans ht)
        rw [e]
        exact ⟨hl, hra⟩
      · exact absurd hnone hst2
    have hfin : ∃ ev, s3.trace = s.trace ++ ev ∧ loads ev = 1 ∧ reattach_attempts ev = 1 ∧
        (True → reseeks ev = 1) := by
      refine ⟨ev1 ++ (ev2 ++ ev3), ?_, ?_, ?_, fun _ => ?_⟩
      · rw [ht3, ht2, ht1]; simp only [List.append_assoc]
      · rw [loads_append, loads_append, hl1, hl2, hcnt.1]
      · rw [reattach_attempts_append, reattach_attempts_append, hra1, hra2, hcnt.2]
      · rw [reseeks_append, reseeks_append, hrs1, hrs2, hrs3]
    rcases seek_cases h3' with ⟨hr3, _⟩ | ⟨hr3, _⟩ | ⟨hr3, _⟩ | ⟨_, hnone, _⟩
    · subst hr3
      have hge : ¬ s3.p_sys.retries < 3 := by omega
      simp only [if_true, hge, if_false]
      exact ⟨trivial, hret3, hfin⟩
    · subst hr3
      have hne : ¬ VLC_EGENERIC = VLC_SUCCESS := fun e => VLC_SUCCESS_ne_EGENERIC e.symm
      simp only [hne, if_false]
      exact ⟨trivial, hret3, hfin⟩
    · subst hr3
      have hne : ¬ VLC_EGENERIC = VLC_SUCCESS := fun e => VLC_SUCCESS_ne_EGENERIC e.symm
      simp only [hne, if_false]
      exact ⟨trivial, hret3, hfin⟩
    · exact absurd hnone hst2
  · subst hr2
    have hne : ¬ VLC_EGENERIC = VLC_SUCCESS := fun e => VLC_SUCCESS_ne_EGENERIC e.symm
    simp only [hne, if_false]
    refine ⟨trivial, hret2, ev1 ++ ev2, ?_, ?_, ?_, fun e => ?_⟩
    · rw [ht2, ht1, List.append_assoc]
    · rw [loads_append, hl1, hl2]
    · rw [reattach_attempts_append, hra1, hra2]
    · exact absurd (Except.ok.inj e) hne

/-- C19: a read call with a non-null buffer that returns 0 without its record
ending in a successful load (it failed) has made at least one load and leaves
the retry counter at its value before the call plus the number of retried
loads (the loads after the first); so when it made all `4 - retries` loads the
counter is 3 afterwards. And a read call that finds the counter at 3 and whose
load throws the stale-handle error returns 0 after that one load and one
reattachment attempt, followed by a reseek when the reattachment succeeded, and
leaves the counter at 3. -/
theorem C19_failed_read_keeps_retry_count (os : OS W) (access : stream_t) (b size : Nat)
    (s : St W) :
    (∀ ev, (read os access (some b) size s).2.trace = s.trace ++ ev →
      (read os access (some b) size s).1 = .ok 0 → ended_in_load ev = none →
      1 ≤ loads ev ∧
      (read os access (some b) size s).2.p_sys.retries = s.p_sys.retries + (loads ev - 1) ∧
      (s.p_sys.retries ≤ 3 → loads ev = 4 - s.p_sys.retries →
        (read os access (some b) size s).2.p_sys.retries = 3)) ∧
    (s.p_sys.retries = 3 →
      (read_async os s.p_sys.data_reader (size % 2 ^ 32) s).1
        = .error (.hresult_error STALE_HANDLE) →
      (read os access (some b) size s).1 = .ok 0 ∧
      (read os access (some b) size s).2.p_sys.retries = 3 ∧
      ∃ ev, (read os access (some b) size s).2.trace = s.trace ++ ev ∧ loads ev = 1 ∧
        reattach_attempts ev = 1 ∧
        ((open_file_from_path os (to_hstring access.psz_location)
            (read_async os s.p_sys.data_reader (size % 2 ^ 32) s).2).1 = .ok VLC_SUCCESS →
          reseeks ev = 1)) := by
  constructor
  · intro ev htr hret hfail
    obtain ⟨ev', htr', _, _, _, hcls⟩ := read_run os access b size _ s rfl _ _ rfl
    have hev : ev' = ev := List.append_cancel_left (htr'.symm.trans htr)
    subst hev
    rcases hcls with ⟨n, hn, _⟩ | ⟨_, hv⟩
    · rw [ended_in_load_of_EndsInLoad hn] at hfail
      cases hfail
    · obtain ⟨_, h1, h2⟩ := hv 0 hret
      exact ⟨h1, by omega, fun _ _ => by omega⟩
  · intro h3 h1
    obtain ⟨hr, hret, hev⟩ := @read_at_ceiling_record _ os access b size s _
      (Nat.le_of_eq h3.symm) (Prod.ext h1 rfl)
    exact ⟨hr, by rw [hret, h3], hev⟩

theorem stale_loads_run :
    (read (memOS stale_loads) test_access (some 1) 50 (mem_session 100 10 0)).1 = .ok 0 ∧
    ended_in_load (read (memOS stale_loads) test_access (some 1) 50
      (mem_session 100 10 0)).2.trace = none ∧
    loads (read (memOS stale_loads) test_access (some 1) 50
      (mem_session 100 10 0)).2.trace = 4 := by
  rw [read_stale_of_fst]
  · show (read (memOS stale_loads) test_access (some 1) 50 _).1 = .ok 0 ∧
      ended_in_load (read _ _ _ _ _).2.trace = none ∧ loads (read _ _ _ _ _).2.trace = 4
    rw [read_stale_of_fst]
    · show (read (memOS stale_loads) test_access (some 1) 50 _).1 = .ok 0 ∧
        ended_in_load (read _ _ _ _ _).2.trace = none ∧ loads (read _ _ _ _ _).2.trace = 4
      rw [read_stale_of_fst]
      · show (read (memOS stale_loads) test_access (some 1) 50 _).1 = .ok 0 ∧
          ended_in_load (read _ _ _ _ _).2.trace = none ∧ loads (read _ _ _ _ _).2.trace = 4
        rw [read_stale_of_fst]
        · exact ⟨rfl, rfl, rfl⟩
        · rfl
      · rfl
    · rfl
  · rfl

/-- C19 on the test double whose loads all go stale: the read call from a
retry counter of 0 returns 0 after 4 loads and leaves the counter at
`0 + (4 - 1) = 3`; the next read call returns 0 after one load and one
reattachment attempt and leaves the counter at 3. -/
theorem C19_failed_read_keeps_retry_count_witness :
    (1 ≤ loads (read (memOS stale_loads) test_access (some 1) 50
        (mem_session 100 10 0)).2.trace ∧
      (read (memOS stale_loads) test_access (some 1) 50 (mem_session 100 10 0)).2.p_sys.retries
        = (mem_session 100 10 0).p_sys.retries
          + (loads (read (memOS stale_loads) test_access (some 1) 50
              (mem_session 100 10 0)).2.trace - 1)) ∧
    (read (memOS stale_loads) test_access (some 1) 50 (mem_session 100 10 0)).2.p_sys.retries
      = 3 ∧
    (read (memOS stale_loads) test_access (some 1) 50 (mem_session 100 10 3)).1 = .ok 0 ∧
    (read (memOS stale_loads) test_access (some 1) 50 (mem_session 100 10 3)).2.p_sys.retries
      = 3 :=
  have h1 := (C19_failed_read_keeps_retry_count (memOS stale_loads) test_access 1 50
    (mem_session 100 10 0)).1 _ rfl stale_loads_run.1 stale_loads_run.2.1
  have h2 := (C19_failed_read_keeps_retry_count (memOS stale_loads) test_access 1 50
    (mem_session 100 10 3)).2 rfl rfl
  ⟨⟨h1.1, h1.2.1⟩, h1.2.2 (by decide) stale_loads_run.2.2, h2.1, h2.2.1⟩

theorem memOS_load_bounded (plan : FaultPlan) : LoadBounded (memOS plan) := by
  intro rd count w v h
  simp only [memOS, MemWorld.step] at h
  split at h
  · cases h
  · simp only at h
    cases h
    exact le_trans (Nat.mod_le _ _) (Nat.min_le_left _ _)

theorem read_async_head {os : OS W} {rd : Nat} {count : Nat} {s s1 : St W}
    {r : Except Signal Nat} (h : read_async os (some rd) count s = (r, s1)) :
    ∃ o tail, s1.trace = s.trace ++ ⟨.LoadAsync rd count, o⟩ :: tail := by
  unfold read_async at h
  simp only at h
  split at h
  · next h1 =>
    cases h
    obtain ⟨_, code, _, ht⟩ := invoke_error h1
    exact ⟨_, [], ht⟩
  · next n sa h1 =>
    obtain ⟨_, ht1⟩ := invoke_ok h1
    split at h
    · next h2 =>
      cases h
      obtain ⟨_, code, _, ht2⟩ := invoke_error h2
      exact ⟨_, _, by rw [ht2, ht1, List.append_assoc]; rfl⟩
    · next h2 =>
      cases h
      obtain ⟨_, ht2⟩ := invoke_ok h2
      exact ⟨_, _, by rw [ht2, ht1, List.append_assoc]; rfl⟩

/-- The record of a read call with a non-null buffer starts with the record of
its first `read_async`. -/
theorem read_trace_extends (os : OS W) (access : stream_t) (b size : Nat) (s : St W) :
    ∃ rest, (read os access (some b) size s).2.trace
      = (read_async os s.p_sys.data_reader (size % 2 ^ 32) s).2.trace ++ rest := by
  rcases h1 : read_async os s.p_sys.data_reader (size % 2 ^ 32) s with ⟨r1, s1⟩
  rcases r1 with e | n
  · rcases e with code | _
    · by_cases hc : code = STALE_HANDLE
      · subst hc
        rw [read_stale h1]
        rcases h2 : open_file_from_path os (to_hstring access.psz_location) s1 with ⟨r2, s2⟩
        obtain ⟨ev2, ht2⟩ : ∃ ev2, s2.trace = s1.trace ++ ev2 := by
          rcases open_file_from_path_cases h2 with ⟨_, _, _, _, _, ht⟩ | ⟨_, _, ev, ht, _⟩
          · exact ⟨_, ht⟩
          · exact ⟨ev, ht⟩
        rcases r2 with e2 | v2
        · exact ⟨ev2, ht2⟩
        · simp only
          split
          · rcases h3 : seek os s2.p_sys.i_pos s2 with ⟨r3, s3⟩
            obtain ⟨ev3, ht3⟩ : ∃ ev3, s3.trace = s2.trace ++ ev3 := by
              rcases seek_cases h3 with ⟨_, _, _, _, _, _, _, _, ht⟩ |
                ⟨_, _, _, ev, ht, _⟩ | ⟨_, _, _, ev, ht, _⟩ | ⟨_, _, hs3⟩
              · exact ⟨_, ht⟩
              · exact ⟨ev, ht⟩
              · exact ⟨ev, ht⟩
              · exact ⟨[], by rw [hs3, List.append_nil]⟩
            rcases r3 with e3 | v3
            · exact ⟨ev2 ++ ev3, by simp only [ht3, ht2, List.append_assoc]⟩
            · simp only
              split
              · split
                · obtain ⟨ev', ht', _⟩ := read_run os access b size _
                    { s3 with p_sys :=
                      { s3.p_sys with retries := (s3.p_sys.retries + 1) % 2 ^ 32 } } rfl _ _ rfl
                  simp only at ht'
                  exact ⟨ev2 ++ (ev3 ++ ev'), by rw [ht', ht3, ht2]; simp only [List.append_assoc]⟩
                · exact ⟨ev2 ++ ev3, by simp only [ht3, ht2, List.append_assoc]⟩
              · exact ⟨ev2 ++ ev3, by simp only [ht3, ht2, List.append_assoc]⟩
          · exact ⟨ev2, ht2⟩
      · rw [read_other_error h1 hc]
        exact ⟨[], (List.append_nil _).symm⟩
    · rw [read_access_violation h1]
      exact ⟨[], (List.append_nil _).symm⟩
  · rw [read_loaded h1]
    rcases h4 : position_ge_size os { s1 with p_sys :=
      { s1.p_sys with i_pos := (s1.p_sys.i_pos + n) % 2 ^ 64 } } with ⟨r4, s4⟩
    obtain ⟨ev4, ht4, _⟩ := position_ge_size_reseeks h4
    rcases r4 with e4 | eof
    · exact ⟨ev4, ht4⟩
    · exact ⟨ev4, ht4⟩

/-- C20: a read call with a non-null buffer starts by asking its reader for
`size % 2^32` bytes, and every load it makes asks for that many. When that
first load yields `v` bytes and the copy-out and the two queries of the
end-of-stream recomputation do not throw, the call returns `v` and advances the
logical position by `v`. Whenever the record of the call ends in a successful
load of `n` bytes the call returns `n`. When the loads of the collaborators are
bounded (a load yields at most what it was asked for), every load of the call
yields at most `size % 2^32` bytes and a value the call returns lies between 0
and `size % 2^32`, hence is at most `size`; when moreover `size` is a multiple
of `2^32` (a non-zero one in particular) a value the call returns is 0. On the
test double a read of `2^32` bytes at position 10 of a 100-byte file asks for
0 bytes, is given 0 bytes and returns 0, with the end-of-stream flag false. -/
theorem C20_read_truncates_size (os : OS W) (access : stream_t) (b size : Nat) (s : St W) :
    (∀ rd, s.p_sys.data_reader = some rd → ∃ o rest,
      (read os access (some b) size s).2.trace
        = s.trace ++ ⟨.LoadAsync rd (size % 2 ^ 32), o⟩ :: rest) ∧
    (∃ ev, (read os access (some b) size s).2.trace = s.trace ++ ev ∧
      LoadsRequest (size % 2 ^ 32) ev ∧
      (LoadBounded os → LoadsYieldAtMost (size % 2 ^ 32) ev)) ∧
    (∀ rd st v w1 w2 p w3 z w4, s.p_sys.data_reader = some rd →
      s.p_sys.read_stream = some st →
      os.LoadAsync rd (size % 2 ^ 32) s.world = (.ok v, w1) →
      os.ReadBytes rd v.val w1 = (.ok (), w2) →
      os.Position st w2 = (.ok p, w3) → os.Size st w3 = (.ok z, w4) →
      read os access (some b) size s = (.ok (v.val : Int),
        { p_sys := { s.p_sys with i_pos := (s.p_sys.i_pos + v.val) % 2 ^ 64,
                                  b_eof := decide (p.val ≥ z.val), retries := 0 },
          world := w4,
          trace := s.trace ++ [⟨.LoadAsync rd (size % 2 ^ 32), .ok v.val⟩,
            ⟨.ReadBytes rd v.val, .ok 0⟩, ⟨.Position st, .ok p.val⟩,
            ⟨.Size st, .ok z.val⟩] })) ∧
    (∀ ev n, (read os access (some b) size s).2.trace = s.trace ++ ev →
      ended_in_load ev = some n → (read os access (some b) size s).1 = .ok (n : Int)) ∧
    (LoadBounded os → ∀ v, (read os access (some b) size s).1 = .ok v →
      0 ≤ v ∧ v ≤ ((size % 2 ^ 32 : Nat) : Int) ∧ v ≤ (size : Int)) ∧
    (LoadBounded os → size % 2 ^ 32 = 0 →
      ∀ v, (read os access (some b) size s).1 = .ok v → v = 0) ∧
    (read (memOS no_fault) test_access (some 1) (2 ^ 32) (mem_session 100 10 0) =
      (.ok 0,
        { p_sys := { read_stream := some 0, data_reader := some 0, i_pos := 10, retries := 0,
                     b_eof := false },
          world := { file_size := 100, streams := [10], readers := [0], clock := 4 },
          trace := [⟨.LoadAsync 0 0, .ok 0⟩, ⟨.ReadBytes 0 0, .ok 0⟩, ⟨.Position 0, .ok 10⟩,
            ⟨.Size 0, .ok 100⟩] })) := by
  obtain ⟨ev, htr, _, _, hask, hcls⟩ := read_run os access b size _ s rfl _ _ rfl
  have hval : LoadBounded os → ∀ v, (read os access (some b) size s).1 = .ok v →
      0 ≤ v ∧ v ≤ ((size % 2 ^ 32 : Nat) : Int) := by
    intro hb v hv
    rcases hcls with ⟨n, _, hr, hn⟩ | ⟨_, h0⟩
    · rw [hr] at hv
      have e := Except.ok.inj hv
      subst e
      have := hn hb
      omega
    · obtain ⟨e, _⟩ := h0 v hv
      subst e
      omega
  refine ⟨?_, ⟨ev, htr, hask.1, hask.2⟩, ?_, ?_, ?_, ?_, ?_⟩
  · intro rd hrd
    obtain ⟨rest, hrest⟩ := read_trace_extends os access b size s
    rcases h1 : read_async os s.p_sys.data_reader (size % 2 ^ 32) s with ⟨r1, s1⟩
    rw [h1] at hrest
    rw [hrd] at h1
    obtain ⟨o, tail, ht⟩ := read_async_head h1
    refine ⟨o, tail ++ rest, ?_⟩
    rw [hrest]
    simp only [ht, List.append_assoc, List.cons_append]
  · intro rd st v w1 w2 p w3 z w4 hrd hst hload hcopy hpos hsize
    have h1 : read_async os s.p_sys.data_reader (size % 2 ^ 32) s = (.ok v.val,
        { s with world := w2, trace := s.trace ++ [⟨.LoadAsync rd (size % 2 ^ 32), .ok v.val⟩,
          ⟨.ReadBytes rd v.val, .ok 0⟩] }) := by
      unfold read_async
      simp only [hrd, St.invoke, hload, hcopy, List.append_assoc, List.singleton_append]
    rw [read_loaded h1]
    unfold position_ge_size
    simp only [hst, St.invoke, hpos, hsize, List.append_assoc, List.cons_append,
      List.nil_append, ge_iff_le]
  · intro ev' n htr' hload
    have hev : ev = ev' := List.append_cancel_left (htr.symm.trans htr')
    subst hev
    rcases hcls with ⟨m, hm, hr, _⟩ | ⟨hg, _⟩
    · have := ended_in_load_of_EndsInLoad hm
      rw [hload] at this
      rw [hr, Option.some.inj this]
    · rw [ended_in_load_of_GaveUp hg] at hload
      cases hload
  · intro hb v hv
    obtain ⟨h0, h1⟩ := hval hb v hv
    have hle : size % 2 ^ 32 ≤ size := Nat.mod_le _ _
    omega
  · intro hb hz v hv
    obtain ⟨h0, h1⟩ := hval hb v hv
    rw [hz] at h1
    omega
  · rw [read_loaded_of_fst (n := 0)]
    · rfl
    · rfl

theorem wrapped_read_run :
    (read (memOS no_fault) test_access (some 1) (2 ^ 32 + 50) (mem_session 100 10 0)).1
      = .ok 50 ∧
    (read (memOS no_fault) test_access (some 1) (2 ^ 32 + 50)
      (mem_session 100 10 0)).2.p_sys.i_pos = 60 := by
  rw [read_loaded_of_fst (n := 50)]
  · exact ⟨rfl, rfl⟩
  · rfl

/-- C20 on the test double with no fault: a read of `2^32 + 50` bytes at
position 10 of a 100-byte file starts by asking reader 0 for 50 bytes, returns
50 and leaves the logical position at 60; 50 is at most `(2^32 + 50) % 2^32`. -/
theorem C20_read_truncates_size_witness :
    (∃ o rest, (read (memOS no_fault) test_access (some 1) (2 ^ 32 + 50)
        (mem_session 100 10 0)).2.trace
      = (mem_session 100 10 0).trace ++ ⟨.LoadAsync 0 ((2 ^ 32 + 50) % 2 ^ 32), o⟩ :: rest) ∧
    (read (memOS no_fault) test_access (some 1) (2 ^ 32 + 50) (mem_session 100 10 0)).1
      = .ok 50 ∧
    (read (memOS no_fault) test_access (some 1) (2 ^ 32 + 50)
      (mem_session 100 10 0)).2.p_sys.i_pos = 60 ∧
    (50 : Int) ≤ (((2 ^ 32 + 50) % 2 ^ 32 : Nat) : Int) :=
  have h := C20_read_truncates_size (memOS no_fault) test_access 1 (2 ^ 32 + 50)
    (mem_session 100 10 0)
  ⟨h.1 0 rfl, wrapped_read_run.1, wrapped_read_run.2,
    (h.2.2.2.2.1 (memOS_load_bounded no_fault) 50 wrapped_read_run.1).2.1⟩

/-! ## The position of the stream handle, on the test double -/

theorem getD_append_set_last (l : List Nat) (p : Nat) :
    ((l ++ [0]).set l.length p).getD l.length 0 = p := by
  have h : l.length < (l ++ [0]).length := by rw [List.length_append]; exact Nat.lt_succ_self _
  simp [List.getD_eq_getElem?_getD, List.getElem?_set, h]

end WinRTAccess
